import Mathlib

/-!
# Scene loading (`util/scene.cpp`)

A shallow embedding of the scene loaders of `util/scene.cpp`: the OBJ, glTF and
PBRT adapters, the format dispatch of the `Scene` constructor and the triangle
count queries.

Conventions of the embedding.

* `std::vector<T>` is `List T`; `v[i]` is `read_at v i`, which fails with
  `LoadError.out_of_range` when `i` is past the end (undefined behaviour in the
  source).
* A thrown `std::runtime_error` is `LoadError.runtime_error msg`; a loader
  returns `Except LoadError Scene`, so a load that throws produces no scene.
* `uint32_t`, `int` and `size_t` values are `Nat`/`Int` with the conversions
  `to_uint32`, `to_int32`, `to_size_t` written where the source converts.
* `float` values are rationals; `glm::normalize` and `ortho_basis`, which take
  square roots, are parameters (`FloatOps`).
* The external parsers (tinyobjloader, tinygltf, pbrtParser) are not part of the
  file: their output is the input of the loaders.
* Text written to `std::cout` is not modelled.
-/

namespace SceneLoader

/-! ## Machine integers and vector reads -/

/-- Errors of a load: a thrown `std::runtime_error`, or a vector read past the end. -/
inductive LoadError where
  | runtime_error (msg : String)
  | out_of_range
  deriving DecidableEq, Repr

/-- Read `v[i]` of a `std::vector`. -/
def read_at {α : Type} (v : List α) (i : Nat) : Except LoadError α :=
  match v[i]? with
  | some a => .ok a
  | none => .error .out_of_range

/-- The value `uint32_t(-1)`. -/
def UINT32_MAX : Nat := 4294967295

/-- Conversion of an integer to `uint32_t` (`glm::uint`). -/
def to_uint32 (i : Int) : Nat := (i % 4294967296).toNat

/-- Conversion of an integer to `size_t` (64 bit). -/
def to_size_t (i : Int) : Nat := (i % 18446744073709551616).toNat

/-- Conversion of a `size_t` to `int` (32 bit, two's complement). -/
def to_int32 (n : Nat) : Int :=
  if n % 4294967296 < 2147483648 then (n % 4294967296 : Nat) else ((n % 4294967296 : Nat) : Int) - 4294967296

/-- The values an `int` can hold. -/
def is_int32 (i : Int) : Prop := -2147483648 ≤ i ∧ i < 2147483648

instance (i : Int) : Decidable (is_int32 i) := by
  unfold is_int32; infer_instance

/-! ## Data model (`scene.h`, `mesh.h`, `material.h`, `lights.h`) -/

/-- A `float`. -/
abbrev Scalar := Rat

structure Vec2 where
  x : Scalar
  y : Scalar
  deriving DecidableEq, Repr

structure Vec3 where
  x : Scalar
  y : Scalar
  z : Scalar
  deriving DecidableEq, Repr

structure Vec4 where
  x : Scalar
  y : Scalar
  z : Scalar
  w : Scalar
  deriving DecidableEq, Repr

/-- The type `glm::mat4`, by columns. -/
structure Mat4 where
  c0 : Vec4
  c1 : Vec4
  c2 : Vec4
  c3 : Vec4
  deriving DecidableEq, Repr

/-- The matrix `glm::mat4(1.f)`. -/
def Mat4.identity : Mat4 :=
  ⟨⟨1, 0, 0, 0⟩, ⟨0, 1, 0, 0⟩, ⟨0, 0, 1, 0⟩, ⟨0, 0, 0, 1⟩⟩

/-- The type `glm::uvec3`: three `uint32_t`. -/
structure UVec3 where
  x : Nat
  y : Nat
  z : Nat
  deriving DecidableEq, Repr

/-- Component `v[i]` of a `glm::uvec3`. -/
def UVec3.comps (v : UVec3) : List Nat := [v.x, v.y, v.z]

/-- The operations on floats that are not rational: `glm::normalize` and `ortho_basis` of
`util.h`, taken as parameters. -/
structure FloatOps where
  normalize : Vec3 → Vec3
  ortho_basis : Vec3 → Vec4 × Vec4

/-- The clamp `glm::clamp(x, lo, hi)`. -/
def clamp (x lo hi : Scalar) : Scalar := min (max x lo) hi

/-- Modelled from the spec: the `Geometry` record of `mesh.h`, which is not in the source
tree: positions, optional normals and uvs, index triples and a material index. -/
structure Geometry where
  vertices : List Vec3
  normals : List Vec3
  uvs : List Vec2
  indices : List UVec3
  material_id : Nat
  deriving DecidableEq, Repr

/-- Modelled from the spec: a default-constructed `Geometry` has empty arrays and no
material id, `uint32_t(-1)`. -/
def Geometry.empty : Geometry := ⟨[], [], [], [], UINT32_MAX⟩

/-- Modelled from the spec: `Geometry::num_tris` of `mesh.h`, the number of index triples. -/
def Geometry.num_tris (g : Geometry) : Nat := g.indices.length

/-- Modelled from the spec: the `Mesh` record of `mesh.h`, a sequence of geometries. -/
structure Mesh where
  geometries : List Geometry
  deriving DecidableEq, Repr

/-- Modelled from the spec: `Mesh::num_tris` of `mesh.h`, the triangle count of a mesh: the
sum of the triangle counts of its geometries, as a `size_t`. -/
def Mesh.num_tris (m : Mesh) : Nat :=
  (m.geometries.map Geometry.num_tris).sum % 18446744073709551616

/-- Modelled from the spec: the `Instance` record of `mesh.h`: a transform and a mesh index
(`size_t`). -/
structure Instance where
  transform : Mat4
  mesh_id : Nat
  deriving DecidableEq, Repr

/-- Modelled from the spec: the `DisneyMaterial` record of `material.h`; `color_tex_id` is an
`int32_t`, `-1` when there is no texture. -/
structure DisneyMaterial where
  base_color : Vec3
  metallic : Scalar
  specular : Scalar
  roughness : Scalar
  specular_transmission : Scalar
  color_tex_id : Int
  deriving DecidableEq, Repr

/-- Modelled from the spec: the default material `DisneyMaterial()`, all parameters neutral
and no texture. -/
def DisneyMaterial.default : DisneyMaterial := ⟨⟨0, 0, 0⟩, 0, 0, 0, 0, -1⟩

inductive ColorSpace where
  | LINEAR
  | SRGB
  deriving DecidableEq, Repr

/-- Modelled from the spec: the `Image` record of `material.h`: a texture. -/
structure Image where
  name : String
  width : Int
  height : Int
  channels : Int
  img : List Nat
  color_space : ColorSpace
  deriving DecidableEq, Repr

/-- Modelled from the spec: the `QuadLight` record of `lights.h`. -/
structure QuadLight where
  emission : Vec4
  position : Vec4
  normal : Vec4
  v_x : Vec4
  v_y : Vec4
  width : Scalar
  height : Scalar
  deriving DecidableEq, Repr

/-- The data members of `Scene`. -/
structure Scene where
  meshes : List Mesh
  instances : List Instance
  materials : List DisneyMaterial
  textures : List Image
  lights : List QuadLight
  deriving DecidableEq, Repr

/-- A `Scene` before its constructor body runs. -/
def Scene.empty : Scene := ⟨[], [], [], [], []⟩

/-! ## `VertIdxLess`, `operator==` and the `std::map` keyed by them -/

/-- The comparator `VertIdxLess::operator()`. -/
def VertIdxLess (a b : UVec3) : Bool :=
  decide (a.x < b.x) || (decide (a.x = b.x) && decide (a.y < b.y)) ||
    (decide (a.x = b.x) && decide (a.y = b.y) && decide (a.z < b.z))

/-- The free `operator==` on `glm::uvec3`. -/
def uvec3_eq (a b : UVec3) : Bool :=
  decide (a.x = b.x) && decide (a.y = b.y) && decide (a.z = b.z)

/-- A `std::map<glm::uvec3, uint32_t, VertIdxLess>`: its entries. -/
abbrev IndexMap := List (UVec3 × Nat)

/-- Two keys are the same key of the map when neither is less than the other. -/
def key_equiv (a b : UVec3) : Bool := !VertIdxLess a b && !VertIdxLess b a

/-- The call `index_mapping.find(idx)`: the mapped value, `none` for `end()`. -/
def IndexMap.find (m : IndexMap) (k : UVec3) : Option Nat :=
  match m with
  | [] => none
  | (k1, v) :: rest => if key_equiv k1 k then some v else IndexMap.find rest k

/-- The assignment `index_mapping[idx] = v`: the entry of an equivalent key is overwritten,
otherwise an entry is added. -/
def IndexMap.assign (m : IndexMap) (k : UVec3) (v : Nat) : IndexMap :=
  match m with
  | [] => [(k, v)]
  | (k1, v1) :: rest =>
    if key_equiv k1 k then (k1, v) :: rest else (k1, v1) :: IndexMap.assign rest k v

/-! ## tinyobjloader output -/

/-- The record `tinyobj::index_t`: three `int`, `-1` when absent. -/
structure index_t where
  vertex_index : Int
  normal_index : Int
  texcoord_index : Int
  deriving DecidableEq, Repr

/-- The record `tinyobj::mesh_t`. -/
structure mesh_t where
  indices : List index_t
  num_face_vertices : List Nat
  material_ids : List Int
  deriving DecidableEq, Repr

/-- The record `tinyobj::shape_t`. -/
structure shape_t where
  name : String
  mesh : mesh_t
  deriving DecidableEq, Repr

/-- The record `tinyobj::attrib_t`. -/
structure attrib_t where
  vertices : List Scalar
  normals : List Scalar
  texcoords : List Scalar
  deriving DecidableEq, Repr

/-- The fields of `tinyobj::material_t` that `load_obj` reads. -/
structure material_t where
  diffuse : Vec3
  shininess : Scalar
  dissolve : Scalar
  diffuse_texname : String
  deriving DecidableEq, Repr

/-- What `tinyobj::LoadObj` hands back. -/
structure ObjParse where
  ret : Bool
  warn : String
  err : String
  attrib : attrib_t
  shapes : List shape_t
  obj_materials : List material_t
  deriving DecidableEq, Repr

/-! ## String-keyed maps -/

/-- A `std::unordered_map<std::string, V>`: its entries. -/
abbrev StrMap (V : Type) := List (String × V)

/-- The call `m.find(k)`: the mapped value, `none` for `end()`. -/
def StrMap.find {V : Type} (m : StrMap V) (k : String) : Option V :=
  match m with
  | [] => none
  | (k1, v) :: rest => if k1 = k then some v else StrMap.find rest k

/-- The assignment `m[k] = v`. -/
def StrMap.assign {V : Type} (m : StrMap V) (k : String) (v : V) : StrMap V :=
  match m with
  | [] => [(k, v)]
  | (k1, v1) :: rest =>
    if k1 = k then (k1, v) :: rest else (k1, v1) :: StrMap.assign rest k v

/-! ## tinygltf output -/

/-- The constant `TINYGLTF_MODE_TRIANGLES`. -/
def TINYGLTF_MODE_TRIANGLES : Int := 4

/-- The constant `TINYGLTF_COMPONENT_TYPE_UNSIGNED_BYTE`. -/
def TINYGLTF_COMPONENT_TYPE_UNSIGNED_BYTE : Int := 5121

/-- The constant `TINYGLTF_COMPONENT_TYPE_UNSIGNED_SHORT`. -/
def TINYGLTF_COMPONENT_TYPE_UNSIGNED_SHORT : Int := 5123

/-- The constant `TINYGLTF_COMPONENT_TYPE_UNSIGNED_INT`. -/
def TINYGLTF_COMPONENT_TYPE_UNSIGNED_INT : Int := 5125

/-- Modelled from the spec: a `tinygltf::Accessor` together with the typed views
`Accessor<T>(accessor, model)` of `buffer_view.h`, which is not in the source tree: the
elements each view yields, one list per element type the loader reads (`glm::vec3`,
`glm::vec2`, `uint16_t`, `uint32_t`). -/
structure gltf_Accessor where
  componentType : Int
  vec3_view : List Vec3
  vec2_view : List Vec2
  u16_view : List Nat
  u32_view : List Nat
  deriving DecidableEq, Repr

/-- The fields of `tinygltf::Primitive` that `load_gltf` reads; `attributes` is a
`std::map<std::string, int>`. -/
structure gltf_Primitive where
  attributes : StrMap Int
  material : Int
  indices : Int
  mode : Int
  deriving DecidableEq, Repr

structure gltf_Mesh where
  primitives : List gltf_Primitive
  deriving DecidableEq, Repr

structure gltf_Image where
  name : String
  width : Int
  height : Int
  component : Int
  pixel_type : Int
  image : List Nat
  deriving DecidableEq, Repr

structure gltf_Texture where
  source : Int
  deriving DecidableEq, Repr

/-- The fields of `tinygltf::Material` that `load_gltf` reads, those of
`pbrMetallicRoughness`. -/
structure gltf_Material where
  name : String
  baseColorFactor : List Scalar
  metallicFactor : Scalar
  roughnessFactor : Scalar
  baseColorTexture_index : Int
  deriving DecidableEq, Repr

structure gltf_Node where
  name : String
  mesh : Int
  matrix : List Scalar
  deriving DecidableEq, Repr

structure gltf_Scene where
  name : String
  nodes : List Int
  deriving DecidableEq, Repr

structure gltf_Model where
  accessors : List gltf_Accessor
  meshes : List gltf_Mesh
  images : List gltf_Image
  textures : List gltf_Texture
  materials : List gltf_Material
  nodes : List gltf_Node
  scenes : List gltf_Scene
  defaultScene : Int
  deriving DecidableEq, Repr

/-- What `LoadASCIIFromFile` or `LoadBinaryFromFile` hands back. -/
structure GltfParse where
  ret : Bool
  warn : String
  err : String
  model : gltf_Model
  deriving DecidableEq, Repr

/-! ## pbrtParser output -/

/-- The record `pbrt::vec3i`. -/
structure pbrt_vec3i where
  x : Int
  y : Int
  z : Int
  deriving DecidableEq, Repr

/-- The shapes of pbrtParser by dynamic type: a `pbrt::TriangleMesh`, a `pbrt::QuadMesh`,
or any other shape. -/
inductive pbrt_Shape where
  | TriangleMesh (vertex : List Vec3) (index : List pbrt_vec3i) (texcoord : List Vec2)
  | QuadMesh
  | Other
  deriving DecidableEq, Repr

/-- The fields of `pbrt::Object` that `load_pbrt` reads; `instances` is the number of
nested instances. -/
structure pbrt_Object where
  name : String
  shapes : List pbrt_Shape
  instances : Nat
  deriving DecidableEq, Repr

/-- The affine map `pbrt::affine3f`: the linear part `l` by columns and the translation `p`. -/
structure pbrt_affine3f where
  l_vx : Vec3
  l_vy : Vec3
  l_vz : Vec3
  p : Vec3
  deriving DecidableEq, Repr

structure pbrt_Instance where
  object : pbrt_Object
  xfm : pbrt_affine3f
  deriving DecidableEq, Repr

/-- The world of a `pbrt::Scene`. -/
structure pbrt_World where
  shapes : List pbrt_Shape
  instances : List pbrt_Instance
  deriving DecidableEq, Repr

/-- What `pbrt::importPBRT` or `pbrt::Scene::loadFrom` followed by `makeSingleLevel` does:
throw a `std::runtime_error`, return a null pointer, or return a scene. -/
inductive PbrtParse where
  | threw (what : String)
  | null
  | scene (world : pbrt_World)
  deriving DecidableEq, Repr

/-! ## `Scene::load_obj`: the shape loop -/

/-- The state of the face loop of one shape: `index_mapping` and `geom`. -/
structure ShapeState where
  index_mapping : IndexMap
  geom : Geometry
  deriving DecidableEq, Repr

/-- The key `idx` built from a corner: the three `int` converted to `glm::uint`. -/
def corner_key (c : index_t) : UVec3 :=
  ⟨to_uint32 c.vertex_index, to_uint32 c.normal_index, to_uint32 c.texcoord_index⟩

/-- The normals pushed for a new vertex: none when `idx.y` is `-1`. -/
def obj_new_normals (fl : FloatOps) (attrib : attrib_t) (idx : UVec3) :
    Except LoadError (List Vec3) :=
  if idx.y ≠ UINT32_MAX then do
    let nx ← read_at attrib.normals ((3 * idx.y) % 4294967296)
    let ny ← read_at attrib.normals ((3 * idx.y + 1) % 4294967296)
    let nz ← read_at attrib.normals ((3 * idx.y + 2) % 4294967296)
    pure [fl.normalize ⟨nx, ny, nz⟩]
  else pure []

/-- The uvs pushed for a new vertex: none when `idx.z` is `-1`. -/
def obj_new_uvs (attrib : attrib_t) (idx : UVec3) : Except LoadError (List Vec2) :=
  if idx.z ≠ UINT32_MAX then do
    let u ← read_at attrib.texcoords ((2 * idx.z) % 4294967296)
    let v ← read_at attrib.texcoords ((2 * idx.z + 1) % 4294967296)
    pure [⟨u, v⟩]
  else pure []

/-- The body of the corner loop (`for i < 3`) for the corner `c = obj_mesh.indices[f * 3 + i]`:
the new state and `vert_idx`. -/
def obj_corner (fl : FloatOps) (attrib : attrib_t) (st : ShapeState) (c : index_t) :
    Except LoadError (ShapeState × Nat) :=
  let idx := corner_key c
  match st.index_mapping.find idx with
  | some v => pure (st, v)
  | none => do
    let vert_idx := st.geom.vertices.length % 4294967296
    let px ← read_at attrib.vertices ((3 * idx.x) % 4294967296)
    let py ← read_at attrib.vertices ((3 * idx.x + 1) % 4294967296)
    let pz ← read_at attrib.vertices ((3 * idx.x + 2) % 4294967296)
    let ns ← obj_new_normals fl attrib idx
    let ts ← obj_new_uvs attrib idx
    pure (⟨st.index_mapping.assign idx vert_idx,
      { st.geom with
        vertices := st.geom.vertices ++ [⟨px, py, pz⟩]
        normals := st.geom.normals ++ ns
        uvs := st.geom.uvs ++ ts }⟩, vert_idx)

/-- The body of the face loop for face `f`. -/
def obj_face (fl : FloatOps) (attrib : attrib_t) (file : String) (shape : shape_t)
    (st : ShapeState) (f : Nat) : Except LoadError ShapeState := do
  let nfv ← read_at shape.mesh.num_face_vertices f
  if nfv ≠ 3 then
    throw (.runtime_error ("Non-triangle face found in " ++ file ++ "-" ++ shape.name))
  let c0 ← read_at shape.mesh.indices (f * 3)
  let (st0, t0) ← obj_corner fl attrib st c0
  let c1 ← read_at shape.mesh.indices (f * 3 + 1)
  let (st1, t1) ← obj_corner fl attrib st0 c1
  let c2 ← read_at shape.mesh.indices (f * 3 + 2)
  let (st2, t2) ← obj_corner fl attrib st1 c2
  pure { st2 with geom := { st2.geom with indices := st2.geom.indices ++ [⟨t0, t1, t2⟩] } }

/-- The face loop over the face numbers `fs`. -/
def obj_faces (fl : FloatOps) (attrib : attrib_t) (file : String) (shape : shape_t)
    (st : ShapeState) (fs : List Nat) : Except LoadError ShapeState :=
  match fs with
  | [] => pure st
  | f :: rest => do
    let st1 ← obj_face fl attrib file shape st f
    obj_faces fl attrib file shape st1 rest

/-- The dereferenced result of `std::minmax_element` over the material ids; dereferencing
the result for an empty vector reads past the end. -/
def obj_minmax_matid (ids : List Int) : Except LoadError (Int × Int) :=
  match ids with
  | [] => .error .out_of_range
  | a :: rest => pure (rest.foldl min a, rest.foldl max a)

/-- The body of the shape loop: the geometry built from one shape. -/
def load_obj_shape (fl : FloatOps) (attrib : attrib_t) (file : String) (shape : shape_t) :
    Except LoadError Geometry := do
  let mat0 ← read_at shape.mesh.material_ids 0
  let geom : Geometry := { Geometry.empty with material_id := to_uint32 mat0 }
  let _ ← obj_minmax_matid shape.mesh.material_ids
  let st ← obj_faces fl attrib file shape ⟨[], geom⟩
    (List.range shape.mesh.num_face_vertices.length)
  pure st.geom

/-- The shape loop: the geometries pushed to `mesh.geometries`. -/
def load_obj_shapes (fl : FloatOps) (attrib : attrib_t) (file : String)
    (shapes : List shape_t) : Except LoadError (List Geometry) :=
  match shapes with
  | [] => pure []
  | s :: rest => do
    let g ← load_obj_shape fl attrib file s
    let gs ← load_obj_shapes fl attrib file rest
    pure (g :: gs)

/-! ## `Scene::load_obj`: materials, textures, default material, light -/

/-- The position `s.rfind(c)`, `none` for `npos`. -/
def rfind_char (c : Char) (s : List Char) : Option Nat :=
  match s with
  | [] => none
  | a :: rest =>
    match rfind_char c rest with
    | some i => some (i + 1)
    | none => if a = c then some 0 else none

/-- The directory `file.substr(0, file.rfind('/'))`. -/
def obj_base_dir (file : String) : String :=
  match rfind_char '/' file.data with
  | some i => String.mk (file.data.take i)
  | none => file

/-- The collaborators declared outside `scene.cpp`, taken as parameters: the float
operations, `canonicalize_path` and `get_file_extension` of `util.h`, the image decoder
behind the `Image` constructor, `read_node_transform` of
`flatten_gltf.h`, and the parsers as functions of the file name (the glTF parsers followed
by `flatten_gltf`, the PBRT parsers by `makeSingleLevel`). -/
structure Externals extends FloatOps where
  canonicalize_path : String → String
  get_file_extension : String → String
  decode_image : String → Int × Int × Int × List Nat
  read_node_transform : gltf_Node → Mat4
  LoadObj : String → String → ObjParse
  LoadASCIIFromFile : String → GltfParse
  LoadBinaryFromFile : String → GltfParse
  importPBRT : String → PbrtParse
  loadFrom : String → PbrtParse

/-- Modelled from the spec: the constructor `Image(file, name, color_space)` of
`material.h`, which is not in the source tree: the pixels come from the decoder, the name
and the colour space are the ones passed. -/
def Image.from_file (ex : Externals) (file name : String) (cs : ColorSpace) : Image :=
  let d := ex.decode_image file
  ⟨name, d.1, d.2.1, d.2.2.1, d.2.2.2, cs⟩

/-- The state of the material loop of `load_obj`. -/
structure ObjMatState where
  texture_ids : StrMap Int
  textures : List Image
  materials : List DisneyMaterial
  deriving DecidableEq, Repr

/-- The body of the material loop of `load_obj`. -/
def obj_material (ex : Externals) (base_dir : String) (st : ObjMatState) (m : material_t) :
    ObjMatState :=
  let specular := clamp (m.shininess / 500) 0 1
  let d : DisneyMaterial :=
    { DisneyMaterial.default with
      base_color := ⟨m.diffuse.x, m.diffuse.y, m.diffuse.z⟩
      specular := specular
      roughness := 1 - specular
      specular_transmission := clamp (1 - m.dissolve) 0 1 }
  if m.diffuse_texname ≠ "" then
    let path := ex.canonicalize_path m.diffuse_texname
    let st1 : ObjMatState :=
      match st.texture_ids.find m.diffuse_texname with
      | none =>
        { st with
          texture_ids := st.texture_ids.assign m.diffuse_texname (to_int32 st.textures.length)
          textures := st.textures ++
            [Image.from_file ex (base_dir ++ "/" ++ path) m.diffuse_texname .SRGB] }
      | some _ => st
    -- `texture_ids[name]` of a key that is present
    let id := (st1.texture_ids.find m.diffuse_texname).getD 0
    { st1 with materials := st1.materials ++ [{ d with color_tex_id := id }] }
  else
    { st with materials := st.materials ++ [d] }

/-- The `find_if` over meshes and geometries that computes `need_default_mat`. -/
def need_default_mat (meshes : List Mesh) : Bool :=
  meshes.any (fun m => m.geometries.any (fun g => decide (g.material_id = UINT32_MAX)))

/-- The assignment of the default material id inside a geometry loop. -/
def assign_default_mat (default_mat_id : Nat) (g : Geometry) : Geometry :=
  if g.material_id = UINT32_MAX then { g with material_id := default_mat_id } else g

/-- The light generated by `load_obj`. -/
def obj_light (fl : FloatOps) : QuadLight :=
  let n := fl.normalize ⟨1 / 2, -4 / 5, -1 / 2⟩
  let normal : Vec4 := ⟨n.x, n.y, n.z, 0⟩
  let position : Vec4 := ⟨-10 * normal.x, -10 * normal.y, -10 * normal.z, -10 * normal.w⟩
  let b := fl.ortho_basis ⟨normal.x, normal.y, normal.z⟩
  { emission := ⟨5, 5, 5, 5⟩, position := position, normal := normal,
    v_x := b.1, v_y := b.2, width := 5, height := 5 }

/-- The parser call of `load_obj`. -/
def obj_parse (ex : Externals) (file : String) : ObjParse :=
  ex.LoadObj file (obj_base_dir file)

/-- The material loop of `load_obj`. -/
def obj_materials (ex : Externals) (file : String) : ObjMatState :=
  (obj_parse ex file).obj_materials.foldl (obj_material ex (obj_base_dir file)) ⟨[], [], []⟩

/-- The member function `Scene::load_obj`, on a `Scene` whose members are empty. -/
def load_obj (ex : Externals) (file : String) : Except LoadError Scene := do
  let p := obj_parse ex file
  if p.ret = false ∨ p.err ≠ "" then
    throw (.runtime_error ("TinyOBJ Error loading " ++ file ++ " error: " ++ p.err))
  let geometries ← load_obj_shapes ex.toFloatOps p.attrib file p.shapes
  let meshes : List Mesh := [⟨geometries⟩]
  let instances : List Instance := [⟨Mat4.identity, 0⟩]
  let ms := obj_materials ex file
  let light := obj_light ex.toFloatOps
  if need_default_mat meshes then
    let default_mat_id := ms.materials.length % 4294967296
    let materials := ms.materials ++ [DisneyMaterial.default]
    -- the loop over `meshes[0].geometries`
    let meshes1 : List Mesh := [⟨geometries.map (assign_default_mat default_mat_id)⟩]
    pure ⟨meshes1, instances, materials, ms.textures, [light]⟩
  else
    pure ⟨meshes, instances, ms.materials, ms.textures, [light]⟩

/-! ## `Scene::load_gltf` -/

/-- The value `p.attributes[key]` of a `std::map<std::string, int>`: `0` for a key that is
absent. -/
def gltf_attribute (attributes : StrMap Int) (key : String) : Int :=
  (attributes.find key).getD 0

/-- The index loops of `load_gltf`: `size / 3` triples `(a[3i], a[3i+1], a[3i+2])`. -/
def gltf_triangles (a : List Nat) : List UVec3 :=
  (List.range (a.length / 3)).map
    (fun i => ⟨a.getD (i * 3) 0, a.getD (i * 3 + 1) 0, a.getD (i * 3 + 2) 0⟩)

/-- The uvs of a primitive: those of the `TEXCOORD_0` accessor when the attribute is there. -/
def gltf_uvs (model : gltf_Model) (p : gltf_Primitive) : Except LoadError (List Vec2) :=
  match p.attributes.find "TEXCOORD_0" with
  | some i => do
    let uv_accessor ← read_at model.accessors (to_size_t i)
    pure uv_accessor.vec2_view
  | none => pure []

/-- The body of the primitive loop of `load_gltf`. -/
def gltf_primitive (model : gltf_Model) (p : gltf_Primitive) : Except LoadError Geometry := do
  if p.mode ≠ TINYGLTF_MODE_TRIANGLES then
    throw (.runtime_error "Unsupported primitive mode! Only triangles are supported")
  let pos_accessor ← read_at model.accessors (to_size_t (gltf_attribute p.attributes "POSITION"))
  let uvs ← gltf_uvs model p
  let index_accessor ← read_at model.accessors (to_size_t p.indices)
  let geom : Geometry :=
    { Geometry.empty with
      material_id := to_uint32 p.material
      vertices := pos_accessor.vec3_view
      uvs := uvs }
  if index_accessor.componentType = TINYGLTF_COMPONENT_TYPE_UNSIGNED_SHORT then
    pure { geom with indices := gltf_triangles index_accessor.u16_view }
  else if index_accessor.componentType = TINYGLTF_COMPONENT_TYPE_UNSIGNED_INT then
    pure { geom with indices := gltf_triangles index_accessor.u32_view }
  else
    throw (.runtime_error "Unsupported index component type")

/-- The primitive loop of one glTF mesh. -/
def gltf_primitives (model : gltf_Model) (ps : List gltf_Primitive) :
    Except LoadError (List Geometry) :=
  match ps with
  | [] => pure []
  | p :: rest => do
    let g ← gltf_primitive model p
    let gs ← gltf_primitives model rest
    pure (g :: gs)

/-- The mesh loop of `load_gltf`. -/
def gltf_meshes (model : gltf_Model) (ms : List gltf_Mesh) : Except LoadError (List Mesh) :=
  match ms with
  | [] => pure []
  | m :: rest => do
    let gs ← gltf_primitives model m.primitives
    let out ← gltf_meshes model rest
    pure (⟨gs⟩ :: out)

/-- The image loop of `load_gltf`. -/
def gltf_images (imgs : List gltf_Image) : Except LoadError (List Image) :=
  match imgs with
  | [] => pure []
  | img :: rest => do
    if img.pixel_type ≠ TINYGLTF_COMPONENT_TYPE_UNSIGNED_BYTE then
      throw (.runtime_error "Unsupported image pixel type")
    let out ← gltf_images rest
    pure (⟨img.name, img.width, img.height, img.component, img.image, .LINEAR⟩ :: out)

/-- The assignment `textures[i].color_space = SRGB`. -/
def set_srgb (textures : List Image) (i : Nat) : Except LoadError (List Image) :=
  match textures[i]? with
  | some t => pure (textures.set i { t with color_space := .SRGB })
  | none => .error .out_of_range

/-- The body of the material loop of `load_gltf`: the textures after it and the material
pushed. -/
def gltf_material (model : gltf_Model) (textures : List Image) (m : gltf_Material) :
    Except LoadError (List Image × DisneyMaterial) := do
  let r ← read_at m.baseColorFactor 0
  let g ← read_at m.baseColorFactor 1
  let b ← read_at m.baseColorFactor 2
  let mat : DisneyMaterial :=
    { DisneyMaterial.default with
      base_color := ⟨r, g, b⟩
      metallic := m.metallicFactor
      roughness := m.roughnessFactor }
  if m.baseColorTexture_index ≠ -1 then
    let tex ← read_at model.textures (to_size_t m.baseColorTexture_index)
    let textures1 ← set_srgb textures (to_size_t tex.source)
    pure (textures1, { mat with color_tex_id := tex.source })
  else
    pure (textures, mat)

/-- The material loop of `load_gltf`, from the textures and materials so far. -/
def gltf_materials (model : gltf_Model) (textures : List Image)
    (materials : List DisneyMaterial) (ms : List gltf_Material) :
    Except LoadError (List Image × List DisneyMaterial) :=
  match ms with
  | [] => pure (textures, materials)
  | m :: rest => do
    let (textures1, mat) ← gltf_material model textures m
    gltf_materials model textures1 (materials ++ [mat]) rest

/-- The node loop of `load_gltf` over the node ids of the default scene. -/
def gltf_instances (ex : Externals) (model : gltf_Model) (nids : List Int) :
    Except LoadError (List Instance) :=
  match nids with
  | [] => pure []
  | nid :: rest => do
    let n ← read_at model.nodes (to_size_t nid)
    let out ← gltf_instances ex model rest
    if n.mesh ≠ -1 then
      pure (⟨ex.read_node_transform n, to_size_t n.mesh⟩ :: out)
    else
      pure out

/-- The light generated by `load_gltf`. -/
def gltf_light (fl : FloatOps) : QuadLight :=
  let n := fl.normalize ⟨1 / 2, -4 / 5, -1 / 2⟩
  let normal : Vec4 := ⟨n.x, n.y, n.z, 0⟩
  let position : Vec4 := ⟨-10 * normal.x, -10 * normal.y, -10 * normal.z, -10 * normal.w⟩
  let b := fl.ortho_basis ⟨normal.x, normal.y, normal.z⟩
  { emission := ⟨5, 5, 5, 5⟩, position := position, normal := normal,
    v_x := b.1, v_y := b.2, width := 5, height := 5 }

/-- The parser call of `load_gltf`: the ASCII loader for the extension `gltf`, the binary
loader otherwise. -/
def gltf_parse (ex : Externals) (fname : String) : GltfParse :=
  if ex.get_file_extension fname = "gltf" then ex.LoadASCIIFromFile fname
  else ex.LoadBinaryFromFile fname

/-- The member function `Scene::load_gltf`, on a `Scene` whose members are empty. -/
def load_gltf (ex : Externals) (fname : String) : Except LoadError Scene := do
  let p := gltf_parse ex fname
  if p.ret = false ∨ p.err ≠ "" then
    throw (.runtime_error ("TinyGLTF Error loading " ++ fname ++ " error: " ++ p.err))
  let model := p.model
  let meshes ← gltf_meshes model model.meshes
  let textures ← gltf_images model.images
  let (textures1, materials) ← gltf_materials model textures [] model.materials
  let scene ← read_at model.scenes (to_size_t model.defaultScene)
  let instances ← gltf_instances ex model scene.nodes
  pure ⟨meshes, instances, materials, textures1, [gltf_light ex.toFloatOps]⟩

/-! ## `Scene::load_pbrt` -/

/-- The geometry built from a shape of an object: one for a triangle mesh, none for a
quad mesh or any other shape. -/
def pbrt_geometry (g : pbrt_Shape) : Option Geometry :=
  match g with
  | .TriangleMesh vertex index texcoord =>
    some { Geometry.empty with
      vertices := vertex.map (fun v => ⟨v.x, v.y, v.z⟩)
      indices := index.map (fun v => ⟨to_uint32 v.x, to_uint32 v.y, to_uint32 v.z⟩)
      uvs := texcoord.map (fun v => ⟨v.x, v.y⟩) }
  | .QuadMesh => none
  | .Other => none

/-- The shape loop of an object: the vector `geometries`. -/
def pbrt_geometries (shapes : List pbrt_Shape) : List Geometry :=
  match shapes with
  | [] => []
  | g :: rest =>
    match pbrt_geometry g with
    | some geom => geom :: pbrt_geometries rest
    | none => pbrt_geometries rest

/-- The transform built from `inst->xfm`. -/
def pbrt_transform (xfm : pbrt_affine3f) : Mat4 :=
  ⟨⟨xfm.l_vx.x, xfm.l_vx.y, xfm.l_vx.z, 0⟩,
   ⟨xfm.l_vy.x, xfm.l_vy.y, xfm.l_vy.z, 0⟩,
   ⟨xfm.l_vz.x, xfm.l_vz.y, xfm.l_vz.z, 0⟩,
   ⟨xfm.p.x, xfm.p.y, xfm.p.z, 1⟩⟩

/-- The state of the instance loop of `load_pbrt`. -/
structure PbrtState where
  pbrt_objects : StrMap Nat
  meshes : List Mesh
  instances : List Instance
  deriving DecidableEq, Repr

/-- The body of the instance loop of `load_pbrt`. -/
def pbrt_instance (st : PbrtState) (inst : pbrt_Instance) : PbrtState :=
  match st.pbrt_objects.find inst.object.name with
  | none =>
    let geometries := pbrt_geometries inst.object.shapes
    if geometries.isEmpty then
      st
    else
      let mesh_id := st.meshes.length
      { pbrt_objects := st.pbrt_objects.assign inst.object.name st.meshes.length
        meshes := st.meshes ++ [⟨geometries⟩]
        instances := st.instances ++ [⟨pbrt_transform inst.xfm, mesh_id⟩] }
  | some mesh_id =>
    { st with instances := st.instances ++ [⟨pbrt_transform inst.xfm, mesh_id⟩] }

/-- The light generated by `load_pbrt`. -/
def pbrt_light (fl : FloatOps) : QuadLight :=
  let n := fl.normalize ⟨1 / 2, -4 / 5, -1 / 2⟩
  let normal : Vec4 := ⟨n.x, n.y, n.z, 0⟩
  let position : Vec4 := ⟨-10 * normal.x, -10 * normal.y, -10 * normal.z, -10 * normal.w⟩
  let b := fl.ortho_basis ⟨normal.x, normal.y, normal.z⟩
  { emission := ⟨5, 5, 5, 5⟩, position := position, normal := normal,
    v_x := b.1, v_y := b.2, width := 5, height := 5 }

/-- The parser call of `load_pbrt`: `importPBRT` for the extension `pbrt`, `loadFrom`
otherwise. -/
def pbrt_parse (ex : Externals) (file : String) : PbrtParse :=
  if ex.get_file_extension file = "pbrt" then ex.importPBRT file else ex.loadFrom file

/-- The member function `Scene::load_pbrt`, on a `Scene` whose members are empty. -/
def load_pbrt (ex : Externals) (file : String) : Except LoadError Scene :=
  match pbrt_parse ex file with
  | .threw what => throw (.runtime_error what)
  | .null => throw (.runtime_error ("Failed to load PBRT scene from " ++ file))
  | .scene world =>
    let st := world.instances.foldl pbrt_instance ⟨[], [], []⟩
    let materials : List DisneyMaterial := []
    let default_mat_id := materials.length % 4294967296
    let materials1 := materials ++ [DisneyMaterial.default]
    let meshes := st.meshes.map
      (fun m => ({ geometries := m.geometries.map (assign_default_mat default_mat_id) } : Mesh))
    pure ⟨meshes, st.instances, materials1, [], [pbrt_light ex.toFloatOps]⟩

/-! ## The constructor and the triangle counts -/

/-- The constructor `Scene::Scene(fname)`; `pbrt_parser_enabled` says whether the build
defines `PBRT_PARSER_ENABLED`. -/
def Scene.new (pbrt_parser_enabled : Bool) (ex : Externals) (fname : String) :
    Except LoadError Scene :=
  let ext := ex.get_file_extension fname
  if ext = "obj" then
    load_obj ex fname
  else if ext = "gltf" ∨ ext = "glb" then
    load_gltf ex fname
  else if pbrt_parser_enabled ∧ (ext = "pbrt" ∨ ext = "pbf") then
    load_pbrt ex fname
  else
    throw (.runtime_error ("Unsupported file type " ++ ext))

/-- One step of a `std::accumulate` whose initial value is the `int` literal `0`: the `int`
accumulator is converted to `size_t` for the lambda, `x` is added, and the `size_t` sum is
converted back to `int`. -/
def accumulate_step (acc : Int) (x : Nat) : Int :=
  to_int32 ((to_size_t acc + x) % 18446744073709551616)

/-- The member function `Scene::unique_tris`. -/
def Scene.unique_tris (s : Scene) : Nat :=
  to_size_t (s.meshes.foldl (fun acc m => accumulate_step acc m.num_tris) 0)

/-- The accumulation of `Scene::total_tris` over the instances `is`, from the `int` `acc`. -/
def total_tris_from (meshes : List Mesh) (acc : Int) (is : List Instance) :
    Except LoadError Int :=
  match is with
  | [] => pure acc
  | i :: rest => do
    let m ← read_at meshes i.mesh_id
    total_tris_from meshes (accumulate_step acc m.num_tris) rest

/-- The member function `Scene::total_tris`. -/
def Scene.total_tris (s : Scene) : Except LoadError Nat := do
  let n ← total_tris_from s.meshes 0 s.instances
  pure (to_size_t n)

/-- The member function `Scene::num_geometries`. -/
def Scene.num_geometries (s : Scene) : Nat :=
  to_size_t (s.meshes.foldl (fun acc m => accumulate_step acc m.geometries.length) 0)

/-! ## Predicates and sample inputs used by the theorems -/

/-- The corner indices are in range: the position index addresses three floats of
`attrib.vertices`, and the normal and uv indices are `-1` or address three floats of
`attrib.normals` and two of `attrib.texcoords`. -/
def corner_in_range (attrib : attrib_t) (c : index_t) : Prop :=
  (0 ≤ c.vertex_index ∧ 3 * c.vertex_index + 2 < attrib.vertices.length) ∧
  (c.normal_index = -1 ∨
    (0 ≤ c.normal_index ∧ 3 * c.normal_index + 2 < attrib.normals.length)) ∧
  (c.texcoord_index = -1 ∨
    (0 ≤ c.texcoord_index ∧ 2 * c.texcoord_index + 1 < attrib.texcoords.length))

instance (attrib : attrib_t) (c : index_t) : Decidable (corner_in_range attrib c) := by
  unfold corner_in_range; infer_instance

/-- The three indices of a corner are values of the type `int`. -/
def corner_is_int (c : index_t) : Prop :=
  is_int32 c.vertex_index ∧ is_int32 c.normal_index ∧ is_int32 c.texcoord_index

instance (c : index_t) : Decidable (corner_is_int c) := by
  unfold corner_is_int; infer_instance

/-- The invariant of the face loop of a shape, `seen` being the keys processed so far. -/
def ShapeInv (st : ShapeState) (seen : List UVec3) : Prop :=
  (st.index_mapping.map Prod.fst).Nodup ∧
  (∀ k, k ∈ st.index_mapping.map Prod.fst ↔ k ∈ seen) ∧
  st.geom.vertices.length = st.index_mapping.length ∧
  (∀ e ∈ st.index_mapping, e.2 < st.geom.vertices.length) ∧
  (∀ t ∈ st.geom.indices, ∀ i ∈ t.comps, i < st.geom.vertices.length) ∧
  st.geom.normals.length = (st.index_mapping.filter (fun e => decide (e.1.y ≠ UINT32_MAX))).length ∧
  st.geom.uvs.length = (st.index_mapping.filter (fun e => decide (e.1.z ≠ UINT32_MAX))).length

/-- Float operations for the sample inputs. -/
def sample_float_ops : FloatOps := ⟨fun v => v, fun _ => (⟨1, 0, 0, 0⟩, ⟨0, 1, 0, 0⟩)⟩

/-- Four positions and one normal. -/
def sample_attrib : attrib_t := ⟨[0, 0, 0, 1, 0, 0, 0, 1, 0, 1, 1, 0], [0, 0, 1], []⟩

/-- Two triangles over four corners with a normal, sharing an edge. -/
def sample_shape : shape_t :=
  ⟨"quad", ⟨[⟨0, 0, -1⟩, ⟨1, 0, -1⟩, ⟨2, 0, -1⟩, ⟨2, 0, -1⟩, ⟨1, 0, -1⟩, ⟨3, 0, -1⟩],
    [3, 3], [0, 0]⟩⟩

/-- Every index triple of the geometry addresses a vertex of it. -/
def Geometry.indices_in_range (g : Geometry) : Prop :=
  ∀ t ∈ g.indices, ∀ i ∈ t.comps, i < g.vertices.length

instance (g : Geometry) : Decidable g.indices_in_range := by
  unfold Geometry.indices_in_range; infer_instance

/-- Every index triple of every geometry of the scene addresses a vertex of that geometry. -/
def Scene.indices_in_range (s : Scene) : Prop :=
  ∀ m ∈ s.meshes, ∀ g ∈ m.geometries, g.indices_in_range

instance (s : Scene) : Decidable s.indices_in_range := by
  unfold Scene.indices_in_range; infer_instance

/-- The indices a glTF primitive carries are in range of its positions: every element of the
view of the index accessor that `load_gltf` reads is less than the number of elements of
the `POSITION` accessor. -/
def gltf_primitive_in_range (model : gltf_Model) (p : gltf_Primitive) : Prop :=
  ∀ pos ∈ model.accessors[to_size_t (gltf_attribute p.attributes "POSITION")]?,
    ∀ idx ∈ model.accessors[to_size_t p.indices]?,
      ∀ i ∈ (if idx.componentType = TINYGLTF_COMPONENT_TYPE_UNSIGNED_SHORT then idx.u16_view
        else idx.u32_view), i < pos.vec3_view.length

instance (model : gltf_Model) (p : gltf_Primitive) :
    Decidable (gltf_primitive_in_range model p) := by
  unfold gltf_primitive_in_range; infer_instance

/-- The indices of every primitive of the glTF model are in range of its positions. -/
def gltf_model_in_range (model : gltf_Model) : Prop :=
  ∀ m ∈ model.meshes, ∀ p ∈ m.primitives, gltf_primitive_in_range model p

instance (model : gltf_Model) : Decidable (gltf_model_in_range model) := by
  unfold gltf_model_in_range; infer_instance

/-- The indices of a PBRT shape are in range of its vertices: for a triangle mesh, every
component of every index triple is non-negative and less than the number of vertices. -/
def pbrt_shape_in_range (g : pbrt_Shape) : Prop :=
  match g with
  | .TriangleMesh vertex index _ =>
    ∀ t ∈ index, ∀ i ∈ [t.x, t.y, t.z], 0 ≤ i ∧ i < (vertex.length : Int)
  | .QuadMesh => True
  | .Other => True

instance (g : pbrt_Shape) : Decidable (pbrt_shape_in_range g) := by
  unfold pbrt_shape_in_range; split <;> infer_instance

/-- The indices of every shape of every instanced object of the world are in range. -/
def pbrt_world_in_range (world : pbrt_World) : Prop :=
  ∀ inst ∈ world.instances, ∀ g ∈ inst.object.shapes, pbrt_shape_in_range g

instance (world : pbrt_World) : Decidable (pbrt_world_in_range world) := by
  unfold pbrt_world_in_range; infer_instance

/-- The world of a PBRT parse: empty when there is no scene. -/
def PbrtParse.world (p : PbrtParse) : pbrt_World :=
  match p with
  | .scene w => w
  | _ => ⟨[], []⟩

/-- The text after the last dot of a file name, for the sample inputs. -/
def sample_get_file_extension (fname : String) : String :=
  match rfind_char '.' fname.data with
  | some i => String.mk (fname.data.drop (i + 1))
  | none => ""

/-- Collaborators for the sample inputs: the parsers hand back the given outputs whatever
the file name. -/
def sample_externals (obj : ObjParse) (gltf : GltfParse) (pbrt : PbrtParse) : Externals :=
  { toFloatOps := sample_float_ops
    canonicalize_path := fun s => s
    get_file_extension := sample_get_file_extension
    decode_image := fun _ => (1, 1, 4, [255, 255, 255, 255])
    read_node_transform := fun _ => Mat4.identity
    LoadObj := fun _ _ => obj
    LoadASCIIFromFile := fun _ => gltf
    LoadBinaryFromFile := fun _ => gltf
    importPBRT := fun _ => pbrt
    loadFrom := fun _ => pbrt }

/-- An OBJ parse that failed. -/
def no_obj : ObjParse := ⟨false, "", "no file", ⟨[], [], []⟩, [], []⟩

/-- A glTF parse that failed. -/
def no_gltf : GltfParse := ⟨false, "", "no file", ⟨[], [], [], [], [], [], [], -1⟩⟩

/-- The OBJ parse of the sample shape, without materials. -/
def sample_obj : ObjParse := ⟨true, "", "", sample_attrib, [sample_shape], []⟩

/-- A glTF model with one primitive: one position, and the three indices 0, 1, 2. -/
def gltf_one_vertex : GltfParse :=
  ⟨true, "", "",
    { accessors := [⟨5126, [⟨0, 0, 0⟩], [], [], []⟩, ⟨5125, [], [], [], [0, 1, 2]⟩]
      meshes := [⟨[⟨[("POSITION", 0)], -1, 1, 4⟩]⟩]
      images := []
      textures := []
      materials := []
      nodes := [⟨"node", 0, []⟩]
      scenes := [⟨"scene", [0]⟩]
      defaultScene := 0 }⟩

/-- A glTF model with one triangle over three positions. -/
def gltf_triangle : GltfParse :=
  ⟨true, "", "",
    { accessors := [⟨5126, [⟨0, 0, 0⟩, ⟨1, 0, 0⟩, ⟨0, 1, 0⟩], [], [], []⟩,
        ⟨5123, [], [], [0, 1, 2], []⟩]
      meshes := [⟨[⟨[("POSITION", 0)], -1, 1, 4⟩]⟩]
      images := []
      textures := []
      materials := []
      nodes := [⟨"node", 0, []⟩]
      scenes := [⟨"scene", [0]⟩]
      defaultScene := 0 }⟩

/-- A PBRT world with one object of one triangle, instanced twice. -/
def pbrt_two_instances : PbrtParse :=
  .scene ⟨[], [
    ⟨⟨"tri", [.TriangleMesh [⟨0, 0, 0⟩, ⟨1, 0, 0⟩, ⟨0, 1, 0⟩] [⟨0, 1, 2⟩] [], .QuadMesh], 0⟩,
      ⟨⟨1, 0, 0⟩, ⟨0, 1, 0⟩, ⟨0, 0, 1⟩, ⟨0, 0, 0⟩⟩⟩,
    ⟨⟨"tri", [.TriangleMesh [⟨0, 0, 0⟩, ⟨1, 0, 0⟩, ⟨0, 1, 0⟩] [⟨0, 1, 2⟩] [], .QuadMesh], 0⟩,
      ⟨⟨1, 0, 0⟩, ⟨0, 1, 0⟩, ⟨0, 0, 1⟩, ⟨2, 0, 0⟩⟩⟩]⟩

/-- The scene `load_gltf` builds from `gltf_one_vertex`. -/
def gltf_one_vertex_scene : Scene :=
  { meshes := [⟨[⟨[⟨0, 0, 0⟩], [], [], [⟨0, 1, 2⟩], UINT32_MAX⟩]⟩]
    instances := [⟨Mat4.identity, 0⟩]
    materials := []
    textures := []
    lights := [gltf_light sample_float_ops] }

/-- A mesh of one geometry with `n` triangles. -/
def tri_mesh (n : Nat) : Mesh :=
  ⟨[⟨[⟨0, 0, 0⟩, ⟨1, 0, 0⟩, ⟨0, 1, 0⟩], [], [], List.replicate n ⟨0, 1, 2⟩, 0⟩]⟩

/-- A scene of one mesh with `n` triangles and `k` instances of it. -/
def instanced_scene (n k : Nat) : Scene :=
  ⟨[tri_mesh n], List.replicate k ⟨Mat4.identity, 0⟩, [DisneyMaterial.default], [], []⟩

/-- The sum over the instances of the triangle count of the referenced mesh. -/
def instanced_tris (s : Scene) : Nat :=
  (s.instances.map (fun i => (s.meshes.getD i.mesh_id ⟨[]⟩).num_tris)).sum

/-- The sum over the meshes of their triangle counts. -/
def mesh_tris (s : Scene) : Nat :=
  (s.meshes.map Mesh.num_tris).sum

/-- The scene `load_gltf` builds from `gltf_triangle`. -/
def gltf_triangle_scene : Scene :=
  { meshes := [⟨[⟨[⟨0, 0, 0⟩, ⟨1, 0, 0⟩, ⟨0, 1, 0⟩], [], [], [⟨0, 1, 2⟩], UINT32_MAX⟩]⟩]
    instances := [⟨Mat4.identity, 0⟩]
    materials := []
    textures := []
    lights := [gltf_light sample_float_ops] }

/-- The material `m` has a base-colour texture reference that resolves to image `i`. -/
def base_color_image (model : gltf_Model) (m : gltf_Material) (i : Nat) : Prop :=
  m.baseColorTexture_index ≠ -1 ∧
    ∃ tex ∈ model.textures[to_size_t m.baseColorTexture_index]?, to_size_t tex.source = i

instance (model : gltf_Model) (m : gltf_Material) (i : Nat) :
    Decidable (base_color_image model m i) := by
  unfold base_color_image; infer_instance

/-- A glTF model with two images, one texture over image 1 and one material whose base
colour is that texture. -/
def gltf_textured : GltfParse :=
  ⟨true, "", "",
    { accessors := []
      meshes := []
      images := [⟨"rough", 1, 1, 4, 5121, [0, 0, 0, 0]⟩, ⟨"color", 1, 1, 4, 5121, [9, 9, 9, 9]⟩]
      textures := [⟨1⟩]
      materials := [⟨"mat", [1, 1, 1, 1], 0, 1, 0⟩, ⟨"plain", [1, 1, 1, 1], 0, 1, -1⟩]
      nodes := []
      scenes := [⟨"scene", []⟩]
      defaultScene := 0 }⟩

/-- The shape is a `pbrt::TriangleMesh`. -/
def pbrt_Shape.is_triangle_mesh (g : pbrt_Shape) : Bool :=
  match g with
  | .TriangleMesh _ _ _ => true
  | .QuadMesh => false
  | .Other => false

/-- The object has at least one triangle-mesh shape. -/
def pbrt_Object.has_triangle_mesh (o : pbrt_Object) : Bool :=
  o.shapes.any pbrt_Shape.is_triangle_mesh

/-- The instances whose object has at least one triangle-mesh shape, in input order. -/
def pbrt_kept (insts : List pbrt_Instance) : List pbrt_Instance :=
  insts.filter (fun inst => inst.object.has_triangle_mesh)

/-- The geometries a finished `load_pbrt` holds for an object: one per triangle-mesh shape,
in shape order, each with the default material `0`. -/
def pbrt_object_geometries (o : pbrt_Object) : List Geometry :=
  (o.shapes.filterMap pbrt_geometry).map (assign_default_mat 0)

/-- Instances with the same object name reference the same object. -/
def pbrt_names_agree (insts : List pbrt_Instance) : Prop :=
  ∀ a ∈ insts, ∀ b ∈ insts, a.object.name = b.object.name → a.object = b.object

instance (insts : List pbrt_Instance) : Decidable (pbrt_names_agree insts) := by
  unfold pbrt_names_agree; infer_instance

/-- The invariant of the instance loop of `load_pbrt` after the instances `done`: the cache
has one entry per name of a kept instance, numbered in order; the instances emitted are
those of the kept instances, each with the cached id of its object name; and mesh `j` is
the conversion of the object of cache entry `j`. -/
def PbrtCache (done : List pbrt_Instance) (st : PbrtState) : Prop :=
  (st.pbrt_objects.map Prod.fst).Nodup ∧
  st.pbrt_objects.map Prod.snd = List.range st.meshes.length ∧
  (∀ n, n ∈ st.pbrt_objects.map Prod.fst ↔
    ∃ inst ∈ done, inst.object.has_triangle_mesh = true ∧ inst.object.name = n) ∧
  List.Forall₂ (fun inst i => i.transform = pbrt_transform inst.xfm ∧
      st.pbrt_objects.find inst.object.name = some i.mesh_id) (pbrt_kept done) st.instances ∧
  List.Forall₂ (fun e m => ∃ inst ∈ done, inst.object.name = e.1 ∧
      m.geometries = pbrt_geometries inst.object.shapes) st.pbrt_objects st.meshes

/-- Three instances: two of the object `tri`, and between them one of an object with a
quad mesh only. -/
def pbrt_three_instances : PbrtParse :=
  .scene ⟨[], [
    ⟨⟨"tri", [.TriangleMesh [⟨0, 0, 0⟩, ⟨1, 0, 0⟩, ⟨0, 1, 0⟩] [⟨0, 1, 2⟩] [], .QuadMesh], 0⟩,
      ⟨⟨1, 0, 0⟩, ⟨0, 1, 0⟩, ⟨0, 0, 1⟩, ⟨0, 0, 0⟩⟩⟩,
    ⟨⟨"quad", [.QuadMesh], 0⟩, ⟨⟨1, 0, 0⟩, ⟨0, 1, 0⟩, ⟨0, 0, 1⟩, ⟨1, 0, 0⟩⟩⟩,
    ⟨⟨"tri", [.TriangleMesh [⟨0, 0, 0⟩, ⟨1, 0, 0⟩, ⟨0, 1, 0⟩] [⟨0, 1, 2⟩] [], .QuadMesh], 0⟩,
      ⟨⟨1, 0, 0⟩, ⟨0, 1, 0⟩, ⟨0, 0, 1⟩, ⟨2, 0, 0⟩⟩⟩]⟩

/-- Every mesh of the scene has at least one geometry. -/
def Scene.meshes_nonempty (s : Scene) : Prop :=
  ∀ m ∈ s.meshes, m.geometries ≠ []

instance (s : Scene) : Decidable s.meshes_nonempty := by
  unfold Scene.meshes_nonempty; infer_instance

/-- An OBJ parse that succeeded with no shape, as for a file without faces. -/
def obj_no_shapes : ObjParse := ⟨true, "", "", ⟨[0, 0, 0], [], []⟩, [], []⟩

/-- The scene `load_obj` builds from `obj_no_shapes`. -/
def obj_no_shapes_scene : Scene :=
  { meshes := [⟨[]⟩]
    instances := [⟨Mat4.identity, 0⟩]
    materials := []
    textures := []
    lights := [obj_light sample_float_ops] }

/-- A glTF model with one mesh that has no primitive. -/
def gltf_no_primitives : GltfParse :=
  ⟨true, "", "",
    { accessors := []
      meshes := [⟨[]⟩]
      images := []
      textures := []
      materials := []
      nodes := [⟨"node", 0, []⟩]
      scenes := [⟨"scene", [0]⟩]
      defaultScene := 0 }⟩

/-- The scene `load_gltf` builds from `gltf_no_primitives`. -/
def gltf_no_primitives_scene : Scene :=
  { meshes := [⟨[]⟩]
    instances := [⟨Mat4.identity, 0⟩]
    materials := []
    textures := []
    lights := [gltf_light sample_float_ops] }

/-- The attribute arrays of the geometry are parallel: normals and uvs, when not empty, have
the length of the vertices. -/
def Geometry.parallel (g : Geometry) : Prop :=
  (g.normals ≠ [] → g.normals.length = g.vertices.length) ∧
  (g.uvs ≠ [] → g.uvs.length = g.vertices.length)

instance (g : Geometry) : Decidable g.parallel := by
  unfold Geometry.parallel; infer_instance

/-- The attribute arrays of every geometry of the scene are parallel. -/
def Scene.attributes_parallel (s : Scene) : Prop :=
  ∀ m ∈ s.meshes, ∀ g ∈ m.geometries, g.parallel

instance (s : Scene) : Decidable s.attributes_parallel := by
  unfold Scene.attributes_parallel; infer_instance

/-- The corners of the shape all carry a normal index or all carry `-1`, and likewise for
the uv index. -/
def obj_shape_uniform (shape : shape_t) : Prop :=
  (∀ c ∈ shape.mesh.indices, corner_is_int c) ∧
  ((∀ c ∈ shape.mesh.indices, c.normal_index = -1) ∨
    (∀ c ∈ shape.mesh.indices, c.normal_index ≠ -1)) ∧
  ((∀ c ∈ shape.mesh.indices, c.texcoord_index = -1) ∨
    (∀ c ∈ shape.mesh.indices, c.texcoord_index ≠ -1))

instance (shape : shape_t) : Decidable (obj_shape_uniform shape) := by
  unfold obj_shape_uniform; infer_instance

/-- The `TEXCOORD_0` accessor of the primitive, when present and not empty, has as many
elements as its `POSITION` accessor. -/
def gltf_primitive_parallel (model : gltf_Model) (p : gltf_Primitive) : Prop :=
  ∀ pos ∈ model.accessors[to_size_t (gltf_attribute p.attributes "POSITION")]?,
    ∀ i ∈ p.attributes.find "TEXCOORD_0", ∀ uv ∈ model.accessors[to_size_t i]?,
      uv.vec2_view ≠ [] → uv.vec2_view.length = pos.vec3_view.length

instance (model : gltf_Model) (p : gltf_Primitive) :
    Decidable (gltf_primitive_parallel model p) := by
  unfold gltf_primitive_parallel; infer_instance

/-- The texture coordinates of a triangle mesh, when not empty, are as many as its
vertices. -/
def pbrt_shape_parallel (g : pbrt_Shape) : Prop :=
  match g with
  | .TriangleMesh vertex _ texcoord => texcoord ≠ [] → texcoord.length = vertex.length
  | .QuadMesh => True
  | .Other => True

instance (g : pbrt_Shape) : Decidable (pbrt_shape_parallel g) := by
  unfold pbrt_shape_parallel; split <;> infer_instance

/-- An OBJ parse with one triangle whose first corner carries a normal index and whose other
corners carry `-1`. -/
def obj_mixed_normals : ObjParse :=
  ⟨true, "", "", sample_attrib,
    [⟨"mixed", ⟨[⟨0, 0, -1⟩, ⟨1, -1, -1⟩, ⟨2, -1, -1⟩], [3], [-1]⟩⟩], []⟩

/-- The scene `load_obj` builds from `obj_mixed_normals`. -/
def obj_mixed_normals_scene : Scene :=
  { meshes := [⟨[⟨[⟨0, 0, 0⟩, ⟨1, 0, 0⟩, ⟨0, 1, 0⟩], [⟨0, 0, 1⟩], [], [⟨0, 1, 2⟩], 0⟩]⟩]
    instances := [⟨Mat4.identity, 0⟩]
    materials := [DisneyMaterial.default]
    textures := []
    lights := [obj_light sample_float_ops] }

/-- A glTF model with one triangle over three positions and a `TEXCOORD_0` accessor of one
element. -/
def gltf_one_uv : GltfParse :=
  ⟨true, "", "",
    { accessors := [⟨5126, [⟨0, 0, 0⟩, ⟨1, 0, 0⟩, ⟨0, 1, 0⟩], [], [], []⟩,
        ⟨5123, [], [], [0, 1, 2], []⟩, ⟨5126, [], [⟨0, 0⟩], [], []⟩]
      meshes := [⟨[⟨[("POSITION", 0), ("TEXCOORD_0", 2)], -1, 1, 4⟩]⟩]
      images := []
      textures := []
      materials := []
      nodes := [⟨"node", 0, []⟩]
      scenes := [⟨"scene", [0]⟩]
      defaultScene := 0 }⟩

/-- The scene `load_gltf` builds from `gltf_one_uv`. -/
def gltf_one_uv_scene : Scene :=
  { meshes := [⟨[⟨[⟨0, 0, 0⟩, ⟨1, 0, 0⟩, ⟨0, 1, 0⟩], [], [⟨0, 0⟩], [⟨0, 1, 2⟩], UINT32_MAX⟩]⟩]
    instances := [⟨Mat4.identity, 0⟩]
    materials := []
    textures := []
    lights := [gltf_light sample_float_ops] }

/-- Every instance of the scene references a mesh of the scene. -/
def Scene.instances_valid (s : Scene) : Prop :=
  ∀ i ∈ s.instances, i.mesh_id < s.meshes.length

instance (s : Scene) : Decidable s.instances_valid := by
  unfold Scene.instances_valid; infer_instance

/-- Every node of the default scene that references a mesh references a mesh of the model. -/
def gltf_nodes_in_range (model : gltf_Model) : Prop :=
  ∀ scene ∈ model.scenes[to_size_t model.defaultScene]?, ∀ nid ∈ scene.nodes,
    ∀ n ∈ model.nodes[to_size_t nid]?, n.mesh ≠ -1 →
      0 ≤ n.mesh ∧ n.mesh < (model.meshes.length : Int)

instance (model : gltf_Model) : Decidable (gltf_nodes_in_range model) := by
  unfold gltf_nodes_in_range; infer_instance

/-- A glTF model without meshes whose node references mesh 3. -/
def gltf_dangling_node : GltfParse :=
  ⟨true, "", "",
    { accessors := []
      meshes := []
      images := []
      textures := []
      materials := []
      nodes := [⟨"node", 3, []⟩]
      scenes := [⟨"scene", [0]⟩]
      defaultScene := 0 }⟩

/-- The scene `load_gltf` builds from `gltf_dangling_node`. -/
def gltf_dangling_node_scene : Scene :=
  { meshes := []
    instances := [⟨Mat4.identity, 3⟩]
    materials := []
    textures := []
    lights := [gltf_light sample_float_ops] }

/-- The view of an index accessor that `load_gltf` reads: the `uint16_t` view for the
component type unsigned short, the `uint32_t` view otherwise. -/
def gltf_index_view (idx : gltf_Accessor) : List Nat :=
  if idx.componentType = TINYGLTF_COMPONENT_TYPE_UNSIGNED_SHORT then idx.u16_view
  else idx.u32_view

/-- The nodes the node list of a glTF scene names, in order. -/
def gltf_scene_nodes (model : gltf_Model) (scene : gltf_Scene) : List gltf_Node :=
  scene.nodes.filterMap (fun nid => model.nodes[to_size_t nid]?)

/-- A glTF model with one primitive over seven 16-bit indices, and a default scene that
lists node 1 (no mesh), node 0 (mesh 0) and node 0 again; node 2 is not listed. -/
def gltf_seven_indices : GltfParse :=
  ⟨true, "", "",
    { accessors := [⟨5126, [⟨0, 0, 0⟩, ⟨1, 0, 0⟩, ⟨0, 1, 0⟩, ⟨1, 1, 0⟩], [], [], []⟩,
        ⟨5123, [], [], [0, 1, 2, 2, 1, 3, 0], []⟩]
      meshes := [⟨[⟨[("POSITION", 0)], -1, 1, 4⟩]⟩]
      images := []
      textures := []
      materials := []
      nodes := [⟨"mesh", 0, []⟩, ⟨"empty", -1, []⟩, ⟨"unlisted", 0, []⟩]
      scenes := [⟨"scene", [1, 0, 0]⟩]
      defaultScene := 0 }⟩

/-- The accessor references of a primitive are in range: those of `POSITION`, of
`TEXCOORD_0` when present, and of the indices. -/
def gltf_primitive_refs (model : gltf_Model) (p : gltf_Primitive) : Prop :=
  to_size_t (gltf_attribute p.attributes "POSITION") < model.accessors.length ∧
  (∀ i ∈ p.attributes.find "TEXCOORD_0", to_size_t i < model.accessors.length) ∧
  to_size_t p.indices < model.accessors.length

instance (model : gltf_Model) (p : gltf_Primitive) : Decidable (gltf_primitive_refs model p) := by
  unfold gltf_primitive_refs; infer_instance

/-- The references of a material are in range: three base colour factors, and a base colour
texture that is absent or is a texture of the model whose source is an image of the model. -/
def gltf_material_refs (model : gltf_Model) (m : gltf_Material) : Prop :=
  3 ≤ m.baseColorFactor.length ∧
  (m.baseColorTexture_index ≠ -1 →
    ∃ tex ∈ model.textures[to_size_t m.baseColorTexture_index]?,
      to_size_t tex.source < model.images.length)

instance (model : gltf_Model) (m : gltf_Material) : Decidable (gltf_material_refs model m) := by
  unfold gltf_material_refs; infer_instance

/-- The default scene is a scene of the model and its node list names nodes of the model. -/
def gltf_scene_refs (model : gltf_Model) : Prop :=
  ∃ scene ∈ model.scenes[to_size_t model.defaultScene]?,
    ∀ nid ∈ scene.nodes, to_size_t nid < model.nodes.length

instance (model : gltf_Model) : Decidable (gltf_scene_refs model) := by
  unfold gltf_scene_refs; infer_instance

/-- Every reference `load_gltf` follows is in range. -/
def gltf_refs_in_range (model : gltf_Model) : Prop :=
  (∀ m ∈ model.meshes, ∀ p ∈ m.primitives, gltf_primitive_refs model p) ∧
  (∀ m ∈ model.materials, gltf_material_refs model m) ∧
  gltf_scene_refs model

instance (model : gltf_Model) : Decidable (gltf_refs_in_range model) := by
  unfold gltf_refs_in_range; infer_instance

/-- The primitive is not made of triangles, or the component type of its index accessor is
neither unsigned short nor unsigned int. -/
def gltf_primitive_fatal (model : gltf_Model) (p : gltf_Primitive) : Prop :=
  p.mode ≠ TINYGLTF_MODE_TRIANGLES ∨
  ∃ idx ∈ model.accessors[to_size_t p.indices]?,
    idx.componentType ≠ TINYGLTF_COMPONENT_TYPE_UNSIGNED_SHORT ∧
    idx.componentType ≠ TINYGLTF_COMPONENT_TYPE_UNSIGNED_INT

instance (model : gltf_Model) (p : gltf_Primitive) :
    Decidable (gltf_primitive_fatal model p) := by
  unfold gltf_primitive_fatal; infer_instance

/-- Some primitive is fatal, or the pixel type of some image is not unsigned byte. -/
def gltf_fatal (model : gltf_Model) : Prop :=
  (∃ m ∈ model.meshes, ∃ p ∈ m.primitives, gltf_primitive_fatal model p) ∨
  ∃ img ∈ model.images, img.pixel_type ≠ TINYGLTF_COMPONENT_TYPE_UNSIGNED_BYTE

instance (model : gltf_Model) : Decidable (gltf_fatal model) := by
  unfold gltf_fatal; infer_instance

/-- The result is a thrown `std::runtime_error`. -/
def is_thrown {α : Type} (r : Except LoadError α) : Prop :=
  ∃ msg, r = .error (.runtime_error msg)

/-- A glTF model like `gltf_triangle` but without a default scene (`defaultScene` is `-1`). -/
def gltf_no_default_scene : GltfParse :=
  ⟨true, "", "",
    { accessors := [⟨5126, [⟨0, 0, 0⟩, ⟨1, 0, 0⟩, ⟨0, 1, 0⟩], [], [], []⟩,
        ⟨5123, [], [], [0, 1, 2], []⟩]
      meshes := [⟨[⟨[("POSITION", 0)], -1, 1, 4⟩]⟩]
      images := []
      textures := []
      materials := []
      nodes := [⟨"node", 0, []⟩]
      scenes := [⟨"scene", [0]⟩]
      defaultScene := -1 }⟩

/-- A glTF model whose only primitive is a line list (mode 1). -/
def gltf_lines : GltfParse :=
  ⟨true, "", "",
    { accessors := [⟨5126, [⟨0, 0, 0⟩, ⟨1, 0, 0⟩], [], [], []⟩, ⟨5123, [], [], [0, 1], []⟩]
      meshes := [⟨[⟨[("POSITION", 0)], -1, 1, 1⟩]⟩]
      images := []
      textures := []
      materials := []
      nodes := [⟨"node", 0, []⟩]
      scenes := [⟨"scene", [0]⟩]
      defaultScene := 0 }⟩

/-- The shape has a face that is not a triangle. -/
def shape_t.has_non_triangle (shape : shape_t) : Prop :=
  ∃ n ∈ shape.mesh.num_face_vertices, n ≠ 3

instance (shape : shape_t) : Decidable shape.has_non_triangle := by
  unfold shape_t.has_non_triangle; infer_instance

/-- The parser output for a shape is well formed for the reads of the shape loop: there is
a first material id, `indices` holds one entry per face vertex, and the corner indices are
in range. -/
def obj_shape_wf (attrib : attrib_t) (shape : shape_t) : Prop :=
  shape.mesh.material_ids ≠ [] ∧
  shape.mesh.indices.length = shape.mesh.num_face_vertices.sum ∧
  ∀ c ∈ shape.mesh.indices, corner_in_range attrib c

instance (attrib : attrib_t) (shape : shape_t) : Decidable (obj_shape_wf attrib shape) := by
  unfold obj_shape_wf; infer_instance

/-- The message of the exception thrown for a face that is not a triangle. -/
def non_triangle_message (file : String) (shape : shape_t) : String :=
  "Non-triangle face found in " ++ file ++ "-" ++ shape.name

/-- The distinct non-empty diffuse texture names of the materials, in the order of their
first occurrence. -/
def obj_texture_names (ms : List material_t) : List String :=
  (((ms.map material_t.diffuse_texname).filter (fun n => decide (n ≠ ""))).reverse.dedup).reverse

/-- The texture `load_obj` creates for the diffuse texture name `n`. -/
def obj_texture (ex : Externals) (base_dir n : String) : Image :=
  Image.from_file ex (base_dir ++ "/" ++ ex.canonicalize_path n) n .SRGB

/-- The parameters of the material `d` are the ones `load_obj` computes from `m`. -/
def obj_material_translated (m : material_t) (d : DisneyMaterial) : Prop :=
  d.base_color = ⟨m.diffuse.x, m.diffuse.y, m.diffuse.z⟩ ∧
  d.specular = clamp (m.shininess / 500) 0 1 ∧
  d.roughness = 1 - clamp (m.shininess / 500) 0 1 ∧
  d.specular_transmission = clamp (1 - m.dissolve) 0 1 ∧
  d.metallic = DisneyMaterial.default.metallic

/-- The material `d` is the translation of `m`, its texture id being the position of the
texture name of `m` in `names`, and the id of `DisneyMaterial()` when `m` has no texture. -/
def obj_material_rel (names : List String) (m : material_t) (d : DisneyMaterial) : Prop :=
  obj_material_translated m d ∧
  (m.diffuse_texname = "" → d.color_tex_id = DisneyMaterial.default.color_tex_id) ∧
  (m.diffuse_texname ≠ "" → m.diffuse_texname ∈ names ∧
    d.color_tex_id = to_int32 (names.indexOf m.diffuse_texname))

/-- The invariant of the material loop of `load_obj` after the materials `ms`. -/
def ObjMatInv (ex : Externals) (base_dir : String) (ms : List material_t)
    (st : ObjMatState) : Prop :=
  (∀ n, st.texture_ids.find n =
    if n ∈ obj_texture_names ms then some (to_int32 ((obj_texture_names ms).indexOf n))
    else none) ∧
  st.textures = (obj_texture_names ms).map (obj_texture ex base_dir) ∧
  List.Forall₂ (obj_material_rel (obj_texture_names ms)) ms st.materials

/-- The material id `load_obj` gives the geometry `g` built from `shape`, `d` being the id
of the default material: the id of the first face, and `d` when that id is `-1`. -/
def obj_material_id_assigned (d : Nat) (shape : shape_t) (g : Geometry) : Prop :=
  ∃ id0, shape.mesh.material_ids.head? = some id0 ∧
    (id0 = -1 → g.material_id = d) ∧
    (id0 ≠ -1 → g.material_id = to_uint32 id0) ∧
    (0 ≤ id0 → (g.material_id : Int) = id0)

/-- The first face of the shape has no material: its id is `-1`. -/
def shape_t.no_material (shape : shape_t) : Prop :=
  shape.mesh.material_ids.head? = some (-1)

instance (shape : shape_t) : Decidable shape.no_material := by
  unfold shape_t.no_material; infer_instance

/-- A material with the given diffuse colour and diffuse texture name. -/
def sample_material (r : Scalar) (texname : String) : material_t :=
  ⟨⟨r, 0, 0⟩, 100, 1, texname⟩

/-- A triangle without a material. -/
def plain_shape : shape_t :=
  ⟨"plain", ⟨[⟨0, -1, -1⟩, ⟨1, -1, -1⟩, ⟨3, -1, -1⟩], [3], [-1]⟩⟩

/-- An OBJ parse of the sample shape, with material id 0, followed by a shape without a
material, and of four materials: two of them share a texture name and one has none. -/
def obj_with_materials : ObjParse :=
  ⟨true, "", "", sample_attrib, [sample_shape, plain_shape],
    [sample_material 1 "wood.png", sample_material 2 "", sample_material 3 "brick.png",
      sample_material 4 "wood.png"]⟩

/-- An OBJ parse of one triangle without a material and of `n` parser materials. -/
def obj_many_materials (n : Nat) : ObjParse :=
  ⟨true, "", "", sample_attrib, [plain_shape], List.replicate n (sample_material 1 "")⟩

/-- The elements of `l` without repetition, in the order of their first occurrence. -/
def first_occurrences {α : Type} [DecidableEq α] (l : List α) : List α :=
  l.reverse.dedup.reverse

/-- The position `load_obj` stores for a new vertex whose key is `idx`: the three floats of
`attrib.vertices` at `3 * idx.x`, computed in `uint32_t`. -/
def obj_position (attrib : attrib_t) (idx : UVec3) : Except LoadError Vec3 := do
  let px ← read_at attrib.vertices ((3 * idx.x) % 4294967296)
  let py ← read_at attrib.vertices ((3 * idx.x + 1) % 4294967296)
  let pz ← read_at attrib.vertices ((3 * idx.x + 2) % 4294967296)
  pure ⟨px, py, pz⟩

/-- The keys of the three corners of face `f`. -/
def face_keys (shape : shape_t) (f : Nat) : List UVec3 :=
  ((shape.mesh.indices.drop (f * 3)).take 3).map corner_key

/-- The invariant of the corner loop: `index_mapping` sends each key seen so far to its
rank in order of first occurrence, as a `uint32_t`, and the vertices are the positions of
the keys in that order. -/
def RemapInv (attrib : attrib_t) (st : ShapeState) (seen : List UVec3) : Prop :=
  (∀ k, st.index_mapping.find k =
    if k ∈ first_occurrences seen then
      some ((first_occurrences seen).indexOf k % 4294967296)
    else none) ∧
  List.Forall₂ (fun k v => obj_position attrib k = .ok v) (first_occurrences seen)
    st.geom.vertices

/-- The invariant of the face loop: that of the corner loop, and the emitted indices are
the ranks of the keys of the corners. -/
def RemapFaceInv (attrib : attrib_t) (st : ShapeState) (seen : List UVec3) : Prop :=
  RemapInv attrib st seen ∧
  st.geom.indices.flatMap UVec3.comps =
    seen.map (fun k => (first_occurrences seen).indexOf k % 4294967296)

/-- The precondition of the remap of a shape: `indices` holds three entries per face, the
corner indices are in range (and values of the type `int`), three times a position index
plus two fits a `uint32_t`, and there are at most 2^32 distinct index triples. -/
def obj_remap_pre (attrib : attrib_t) (shape : shape_t) : Prop :=
  shape.mesh.indices.length = 3 * shape.mesh.num_face_vertices.length ∧
  (∀ c ∈ shape.mesh.indices, corner_is_int c ∧ corner_in_range attrib c ∧
    3 * c.vertex_index + 2 < 4294967296) ∧
  shape.mesh.indices.dedup.length ≤ 4294967296

instance (attrib : attrib_t) (shape : shape_t) : Decidable (obj_remap_pre attrib shape) := by
  unfold obj_remap_pre; infer_instance

/-- The geometry `g` is the remap of `shape`: it has one index triple per face; the index
`t` emitted for corner `i` of face `f` addresses a vertex of `g`, which is the position
that the position index of the corner names in `attrib.vertices`, and when no earlier
corner has the same index triple, `t` is the number of distinct index triples before it;
and two corners get the same index iff their index triples are equal. -/
def obj_remapped (attrib : attrib_t) (shape : shape_t) (g : Geometry) : Prop :=
  g.indices.length = shape.mesh.num_face_vertices.length ∧
  (∀ f i, f < shape.mesh.num_face_vertices.length → i < 3 →
    ∃ c tri t v, shape.mesh.indices[f * 3 + i]? = some c ∧ g.indices[f]? = some tri ∧
      tri.comps[i]? = some t ∧ t < g.vertices.length ∧ g.vertices[t]? = some v ∧
      attrib.vertices[3 * c.vertex_index.toNat]? = some v.x ∧
      attrib.vertices[3 * c.vertex_index.toNat + 1]? = some v.y ∧
      attrib.vertices[3 * c.vertex_index.toNat + 2]? = some v.z ∧
      ((∀ j, j < f * 3 + i → shape.mesh.indices[j]? ≠ some c) →
        t = (shape.mesh.indices.take (f * 3 + i)).dedup.length)) ∧
  (∀ (f i f2 i2 : Nat) (c c2 : index_t) (tri tri2 : UVec3) (t t2 : Nat), i < 3 → i2 < 3 →
    shape.mesh.indices[f * 3 + i]? = some c → shape.mesh.indices[f2 * 3 + i2]? = some c2 →
    g.indices[f]? = some tri → g.indices[f2]? = some tri2 →
    tri.comps[i]? = some t → tri2.comps[i2]? = some t2 → (t = t2 ↔ c = c2))

/-- An OBJ parse with `n` floats 0 in `attrib.vertices` followed by the position
(1, 2, 3), and one triangle whose first corner has the position index 1431655766. -/
def obj_far_position (n : Nat) : ObjParse :=
  ⟨true, "", "", ⟨List.replicate n 0 ++ [1, 2, 3], [], []⟩,
    [⟨"far", ⟨[⟨1431655766, -1, -1⟩, ⟨0, -1, -1⟩, ⟨1, -1, -1⟩], [3], [0]⟩⟩], []⟩

/-- The reads of the corner `c` are in range: with `p`, `n` and `t` the position, normal and
uv index of the corner as the loop uses them (the components of `idx`, the three `int`
converted to `glm::uint`), `3p + 2 < attrib.vertices.size()`, the normal index is `-1` or
`3n + 2 < attrib.normals.size()`, and the uv index is `-1` or
`2t + 1 < attrib.texcoords.size()`. -/
def corner_read_safe (attrib : attrib_t) (c : index_t) : Prop :=
  3 * (corner_key c).x + 2 < attrib.vertices.length ∧
  (c.normal_index = -1 ∨ 3 * (corner_key c).y + 2 < attrib.normals.length) ∧
  (c.texcoord_index = -1 ∨ 2 * (corner_key c).z + 1 < attrib.texcoords.length)

instance (attrib : attrib_t) (c : index_t) : Decidable (corner_read_safe attrib c) := by
  unfold corner_read_safe; infer_instance

/-- The precondition of the face loop of a shape: `indices` holds three entries per face
and the reads of every corner are in range. -/
def obj_shape_read_safe (attrib : attrib_t) (shape : shape_t) : Prop :=
  shape.mesh.indices.length = 3 * shape.mesh.num_face_vertices.length ∧
  ∀ c ∈ shape.mesh.indices, corner_read_safe attrib c

instance (attrib : attrib_t) (shape : shape_t) :
    Decidable (obj_shape_read_safe attrib shape) := by
  unfold obj_shape_read_safe; infer_instance

/-- A shape without faces: no material id, no face, no corner. -/
def empty_shape : shape_t := ⟨"empty", ⟨[], [], []⟩⟩

/-- The precondition of the face loop of a shape, on the indices of the parser: `indices`
holds three entries per face, every position index `p` satisfies `0 ≤ p` and
`3p + 2 < attrib.vertices.size()`, and every normal and uv index is `-1` or in range. -/
def obj_shape_in_range (attrib : attrib_t) (shape : shape_t) : Prop :=
  shape.mesh.indices.length = 3 * shape.mesh.num_face_vertices.length ∧
  ∀ c ∈ shape.mesh.indices, corner_in_range attrib c

instance (attrib : attrib_t) (shape : shape_t) :
    Decidable (obj_shape_in_range attrib shape) := by
  unfold obj_shape_in_range; infer_instance

/-- A triangle whose first corner has the position index `-7`. -/
def negative_shape : shape_t :=
  ⟨"negative", ⟨[⟨-7, -1, -1⟩, ⟨0, -1, -1⟩, ⟨1, -1, -1⟩], [3], [0]⟩⟩

theorem key_equiv_iff (a b : UVec3) : key_equiv a b = true ↔ a = b := by
  cases a with | mk ax ay az =>
  cases b with | mk bx b2 bz =>
  simp only [key_equiv, VertIdxLess, Bool.and_eq_true, Bool.not_eq_true', Bool.or_eq_false_iff,
    Bool.and_eq_false_imp, decide_eq_true_eq, decide_eq_false_iff_not, UVec3.mk.injEq]
  constructor
  · intro h; omega
  · rintro ⟨rfl, rfl, rfl⟩; simp

theorem index_find_none_iff (m : IndexMap) (k : UVec3) :
    m.find k = none ↔ k ∉ m.map Prod.fst := by
  induction m with
  | nil => simp [IndexMap.find]
  | cons e rest ih =>
    obtain ⟨k1, v⟩ := e
    by_cases h : key_equiv k1 k = true
    · have hk := (key_equiv_iff k1 k).1 h
      subst hk
      simp [IndexMap.find, h]
    · have hne : ¬ k1 = k := fun e => h ((key_equiv_iff k1 k).2 e)
      have hne2 : ¬ k = k1 := fun e => hne e.symm
      simp [IndexMap.find, h, ih, hne2]

theorem index_find_some_mem (m : IndexMap) (k : UVec3) (v : Nat) (h : m.find k = some v) :
    (k, v) ∈ m := by
  induction m with
  | nil => simp [IndexMap.find] at h
  | cons e rest ih =>
    obtain ⟨k1, v1⟩ := e
    by_cases hk : key_equiv k1 k = true
    · have := (key_equiv_iff k1 k).1 hk
      simp [IndexMap.find, hk] at h
      simp [this, h]
    · simp [IndexMap.find, hk] at h
      exact List.mem_cons_of_mem _ (ih h)

theorem index_assign_of_not_mem (m : IndexMap) (k : UVec3) (v : Nat) (h : k ∉ m.map Prod.fst) :
    m.assign k v = m ++ [(k, v)] := by
  induction m with
  | nil => simp [IndexMap.assign]
  | cons e rest ih =>
    obtain ⟨k1, v1⟩ := e
    simp only [List.map_cons, List.mem_cons, not_or] at h
    have hk : ¬ key_equiv k1 k = true := fun e => h.1 ((key_equiv_iff k1 k).1 e).symm
    simp [IndexMap.assign, hk, ih h.2]

theorem read_at_of_lt {α : Type} (v : List α) (i : Nat) (h : i < v.length) :
    read_at v i = .ok (v.get ⟨i, h⟩) := by
  simp [read_at, List.getElem?_eq_getElem h]

theorem read_at_ok {α : Type} (v : List α) (i : Nat) (a : α) :
    read_at v i = .ok a ↔ v[i]? = some a := by
  unfold read_at
  cases v[i]? with
  | none => simp
  | some b => simp

theorem to_uint32_le (i : Int) (h : 0 ≤ i) : (to_uint32 i : Int) ≤ i := by
  unfold to_uint32
  omega

theorem to_uint32_neg_one : to_uint32 (-1) = UINT32_MAX := by decide

theorem corner_key_inj (a b : index_t) (ha : corner_is_int a) (hb : corner_is_int b)
    (h : corner_key a = corner_key b) : a = b := by
  cases a with | mk a1 a2 a3 =>
  cases b with | mk b1 b2 b3 =>
  simp only [corner_key, to_uint32, UVec3.mk.injEq] at h
  simp only [corner_is_int, is_int32] at ha hb
  simp only [index_t.mk.injEq]
  omega

theorem obj_new_normals_ok (fl : FloatOps) (attrib : attrib_t) (c : index_t)
    (hr : corner_in_range attrib c) :
    ∃ ns, obj_new_normals fl attrib (corner_key c) = .ok ns ∧
      ns.length = if (corner_key c).y ≠ UINT32_MAX then 1 else 0 := by
  unfold obj_new_normals
  by_cases hy : (corner_key c).y ≠ UINT32_MAX
  · rw [if_pos hy, if_pos hy]
    have hne : c.normal_index ≠ -1 := by
      intro h
      apply hy
      simp [corner_key, h, to_uint32_neg_one]
    obtain ⟨h0, h1⟩ := hr.2.1.resolve_left hne
    have hle := to_uint32_le c.normal_index h0
    have e : (corner_key c).y = to_uint32 c.normal_index := rfl
    have l0 : (3 * (corner_key c).y) % 4294967296 < attrib.normals.length := by
      rw [e]; omega
    have l1 : (3 * (corner_key c).y + 1) % 4294967296 < attrib.normals.length := by
      rw [e]; omega
    have l2 : (3 * (corner_key c).y + 2) % 4294967296 < attrib.normals.length := by
      rw [e]; omega
    rw [read_at_of_lt _ _ l0, read_at_of_lt _ _ l1, read_at_of_lt _ _ l2]
    exact ⟨_, rfl, rfl⟩
  · rw [if_neg hy, if_neg hy]
    exact ⟨_, rfl, rfl⟩

theorem obj_new_uvs_ok (attrib : attrib_t) (c : index_t)
    (hr : corner_in_range attrib c) :
    ∃ ts, obj_new_uvs attrib (corner_key c) = .ok ts ∧
      ts.length = if (corner_key c).z ≠ UINT32_MAX then 1 else 0 := by
  unfold obj_new_uvs
  by_cases hz : (corner_key c).z ≠ UINT32_MAX
  · rw [if_pos hz, if_pos hz]
    have hne : c.texcoord_index ≠ -1 := by
      intro h
      apply hz
      simp [corner_key, h, to_uint32_neg_one]
    obtain ⟨h0, h1⟩ := hr.2.2.resolve_left hne
    have hle := to_uint32_le c.texcoord_index h0
    have e : (corner_key c).z = to_uint32 c.texcoord_index := rfl
    have l0 : (2 * (corner_key c).z) % 4294967296 < attrib.texcoords.length := by
      rw [e]; omega
    have l1 : (2 * (corner_key c).z + 1) % 4294967296 < attrib.texcoords.length := by
      rw [e]; omega
    rw [read_at_of_lt _ _ l0, read_at_of_lt _ _ l1]
    exact ⟨_, rfl, rfl⟩
  · rw [if_neg hz, if_neg hz]
    exact ⟨_, rfl, rfl⟩

theorem obj_corner_found (fl : FloatOps) (attrib : attrib_t) (st : ShapeState) (c : index_t)
    (v : Nat) (h : st.index_mapping.find (corner_key c) = some v) :
    obj_corner fl attrib st c = .ok (st, v) := by
  simp only [obj_corner, h]
  rfl

theorem obj_new_normals_length (fl : FloatOps) (attrib : attrib_t) (idx : UVec3)
    (ns : List Vec3) (h : obj_new_normals fl attrib idx = .ok ns) :
    ns.length = if idx.y ≠ UINT32_MAX then 1 else 0 := by
  unfold obj_new_normals at h
  by_cases hy : idx.y ≠ UINT32_MAX
  · rw [if_pos hy] at h
    rw [if_pos hy]
    cases h0 : read_at attrib.normals (3 * idx.y % 4294967296) with
    | error e => simp [h0, bind, Except.bind] at h
    | ok nx =>
    cases h1 : read_at attrib.normals ((3 * idx.y + 1) % 4294967296) with
    | error e => simp [h0, h1, bind, Except.bind] at h
    | ok ny =>
    cases h2 : read_at attrib.normals ((3 * idx.y + 2) % 4294967296) with
    | error e => simp [h0, h1, h2, bind, Except.bind] at h
    | ok nz =>
    simp only [h0, h1, h2, bind, Except.bind, pure, Except.pure, Except.ok.injEq] at h
    rw [← h]; rfl
  · rw [if_neg hy] at h
    rw [if_neg hy]
    simp only [pure, Except.pure, Except.ok.injEq] at h
    rw [← h]; rfl

theorem obj_new_uvs_length (attrib : attrib_t) (idx : UVec3)
    (ts : List Vec2) (h : obj_new_uvs attrib idx = .ok ts) :
    ts.length = if idx.z ≠ UINT32_MAX then 1 else 0 := by
  unfold obj_new_uvs at h
  by_cases hz : idx.z ≠ UINT32_MAX
  · rw [if_pos hz] at h
    rw [if_pos hz]
    cases h0 : read_at attrib.texcoords (2 * idx.z % 4294967296) with
    | error e => simp [h0, bind, Except.bind] at h
    | ok u =>
    cases h1 : read_at attrib.texcoords ((2 * idx.z + 1) % 4294967296) with
    | error e => simp [h0, h1, bind, Except.bind] at h
    | ok v =>
    simp only [h0, h1, bind, Except.bind, pure, Except.pure, Except.ok.injEq] at h
    rw [← h]; rfl
  · rw [if_neg hz] at h
    rw [if_neg hz]
    simp only [pure, Except.pure, Except.ok.injEq] at h
    rw [← h]; rfl

/-- A successful `obj_corner` on a key that is not in the map: what was read and pushed. -/
theorem obj_corner_new (fl : FloatOps) (attrib : attrib_t) (st st1 : ShapeState)
    (c : index_t) (v : Nat) (hf : st.index_mapping.find (corner_key c) = none)
    (h : obj_corner fl attrib st c = .ok (st1, v)) :
    ∃ px py pz ns ts,
      read_at attrib.vertices (3 * (corner_key c).x % 4294967296) = .ok px ∧
      read_at attrib.vertices ((3 * (corner_key c).x + 1) % 4294967296) = .ok py ∧
      read_at attrib.vertices ((3 * (corner_key c).x + 2) % 4294967296) = .ok pz ∧
      obj_new_normals fl attrib (corner_key c) = .ok ns ∧
      obj_new_uvs attrib (corner_key c) = .ok ts ∧
      v = st.geom.vertices.length % 4294967296 ∧
      st1 = ⟨st.index_mapping.assign (corner_key c) v,
        { st.geom with
          vertices := st.geom.vertices ++ [⟨px, py, pz⟩]
          normals := st.geom.normals ++ ns
          uvs := st.geom.uvs ++ ts }⟩ := by
  simp only [obj_corner, hf] at h
  cases h0 : read_at attrib.vertices (3 * (corner_key c).x % 4294967296) with
  | error e => simp [h0, bind, Except.bind] at h
  | ok px =>
  cases h1 : read_at attrib.vertices ((3 * (corner_key c).x + 1) % 4294967296) with
  | error e => simp [h0, h1, bind, Except.bind] at h
  | ok py =>
  cases h2 : read_at attrib.vertices ((3 * (corner_key c).x + 2) % 4294967296) with
  | error e => simp [h0, h1, h2, bind, Except.bind] at h
  | ok pz =>
  cases h3 : obj_new_normals fl attrib (corner_key c) with
  | error e => simp [h0, h1, h2, h3, bind, Except.bind] at h
  | ok ns =>
  cases h4 : obj_new_uvs attrib (corner_key c) with
  | error e => simp [h0, h1, h2, h3, h4, bind, Except.bind] at h
  | ok ts =>
  simp only [h0, h1, h2, h3, h4, bind, Except.bind, pure, Except.pure, Except.ok.injEq,
    Prod.mk.injEq] at h
  obtain ⟨hst, hv⟩ := h
  exact ⟨px, py, pz, ns, ts, rfl, rfl, rfl, rfl, rfl, hv.symm, by rw [← hst, ← hv]⟩

/-- The corner step keeps the invariant of the face loop. -/
theorem obj_corner_inv (fl : FloatOps) (attrib : attrib_t) (st st1 : ShapeState) (c : index_t)
    (v : Nat) (seen : List UVec3) (hinv : ShapeInv st seen)
    (h : obj_corner fl attrib st c = .ok (st1, v)) :
    ShapeInv st1 (seen ++ [corner_key c]) ∧ v < st1.geom.vertices.length ∧
      st1.geom.indices = st.geom.indices ∧ st1.geom.material_id = st.geom.material_id ∧
      st.geom.vertices.length ≤ st1.geom.vertices.length := by
  obtain ⟨hnd, hmem, hlen, hval, htri, hnor, huv⟩ := hinv
  cases hf : st.index_mapping.find (corner_key c) with
  | some v0 =>
    rw [obj_corner_found fl attrib st c v0 hf] at h
    cases h
    refine ⟨?_, ?_, rfl, rfl, le_refl _⟩
    · refine ⟨hnd, ?_, hlen, hval, htri, hnor, huv⟩
      intro k
      have hin : corner_key c ∈ st.index_mapping.map Prod.fst :=
        List.mem_map.2 ⟨_, index_find_some_mem _ _ _ hf, rfl⟩
      constructor
      · intro hk
        exact List.mem_append_left _ ((hmem k).1 hk)
      · intro hk
        rcases List.mem_append.1 hk with h1 | h1
        · exact (hmem k).2 h1
        · rw [List.mem_singleton.1 h1]; exact hin
    · exact hval _ (index_find_some_mem _ _ _ hf)
  | none =>
    have hnot : corner_key c ∉ st.index_mapping.map Prod.fst := (index_find_none_iff _ _).1 hf
    obtain ⟨px, py, pz, ns, ts, _, _, _, hns, hts, hv, hst⟩ :=
      obj_corner_new fl attrib st st1 c v hf h
    have hnsl := obj_new_normals_length fl attrib _ ns hns
    have htsl := obj_new_uvs_length attrib _ ts hts
    subst hst
    rw [index_assign_of_not_mem _ _ _ hnot]
    refine ⟨?_, ?_, rfl, rfl, ?_⟩
    · refine ⟨?_, ?_, ?_, ?_, ?_, ?_, ?_⟩
      · simp only [List.map_append, List.map_cons, List.map_nil]
        exact List.Nodup.append hnd (List.nodup_singleton _)
          (List.disjoint_singleton.2 hnot)
      · intro k
        simp only [List.map_append, List.map_cons, List.map_nil, List.mem_append, hmem k]
      · simp [hlen]
      · intro e he
        simp only [List.length_append, List.length_singleton]
        rcases List.mem_append.1 he with h2 | h2
        · exact Nat.lt_succ_of_lt (hval e h2)
        · rw [List.mem_singleton.1 h2, hv]
          exact Nat.lt_succ_of_le (Nat.mod_le _ _)
      · intro t ht i hi
        simp only [List.length_append, List.length_singleton]
        exact Nat.lt_succ_of_lt (htri t ht i hi)
      · simp only [List.length_append, List.filter_append, hnor, hnsl]
        by_cases hy : (corner_key c).y ≠ UINT32_MAX
        · simp [List.filter, hy]
        · simp [List.filter, hy]
      · simp only [List.length_append, List.filter_append, huv, htsl]
        by_cases hz : (corner_key c).z ≠ UINT32_MAX
        · simp [List.filter, hz]
        · simp [List.filter, hz]
    · simp only [List.length_append, List.length_singleton]
      rw [hv]
      exact Nat.lt_succ_of_le (Nat.mod_le _ _)
    · simp

/-- The corner step succeeds on a corner whose indices are in range. -/
theorem obj_corner_ok (fl : FloatOps) (attrib : attrib_t) (st : ShapeState) (c : index_t)
    (hr : corner_in_range attrib c) : ∃ r, obj_corner fl attrib st c = .ok r := by
  cases hf : st.index_mapping.find (corner_key c) with
  | some v => exact ⟨_, obj_corner_found fl attrib st c v hf⟩
  | none =>
    obtain ⟨ns, hns, _⟩ := obj_new_normals_ok fl attrib c hr
    obtain ⟨ts, hts, _⟩ := obj_new_uvs_ok attrib c hr
    obtain ⟨h0, h1⟩ := hr.1
    have hle := to_uint32_le c.vertex_index h0
    have e : (corner_key c).x = to_uint32 c.vertex_index := rfl
    have l0 : (3 * (corner_key c).x) % 4294967296 < attrib.vertices.length := by
      rw [e]; omega
    have l1 : (3 * (corner_key c).x + 1) % 4294967296 < attrib.vertices.length := by
      rw [e]; omega
    have l2 : (3 * (corner_key c).x + 2) % 4294967296 < attrib.vertices.length := by
      rw [e]; omega
    simp only [obj_corner, hf, read_at_of_lt _ _ l0, read_at_of_lt _ _ l1,
      read_at_of_lt _ _ l2, hns, hts]
    exact ⟨_, rfl⟩

/-- A successful face step: the face is a triangle, its three corners were read and
processed in order, and one index triple was pushed. -/
theorem obj_face_inv (fl : FloatOps) (attrib : attrib_t) (file : String) (shape : shape_t)
    (st st3 : ShapeState) (f : Nat) (seen : List UVec3) (hinv : ShapeInv st seen)
    (h : obj_face fl attrib file shape st f = .ok st3) :
    ∃ c0 c1 c2, shape.mesh.indices[f * 3]? = some c0 ∧
      shape.mesh.indices[f * 3 + 1]? = some c1 ∧ shape.mesh.indices[f * 3 + 2]? = some c2 ∧
      ShapeInv st3 (seen ++ [corner_key c0, corner_key c1, corner_key c2]) ∧
      st3.geom.indices.length = st.geom.indices.length + 1 ∧
      st3.geom.material_id = st.geom.material_id := by
  unfold obj_face at h
  cases hn : read_at shape.mesh.num_face_vertices f with
  | error e => simp [hn, bind, Except.bind] at h
  | ok nfv =>
  by_cases h3 : nfv ≠ 3
  · simp [hn, bind, Except.bind, h3, throw, throwThe, MonadExceptOf.throw] at h
  have h3 : nfv = 3 := not_not.1 h3
  subst h3
  cases r0 : read_at shape.mesh.indices (f * 3) with
  | error e => simp [hn, bind, Except.bind, r0, pure, Except.pure] at h
  | ok c0 =>
  cases e0 : obj_corner fl attrib st c0 with
  | error e => simp [hn, bind, Except.bind, r0, e0, pure, Except.pure] at h
  | ok p0 =>
  obtain ⟨st0, t0⟩ := p0
  cases r1 : read_at shape.mesh.indices (f * 3 + 1) with
  | error e => simp [hn, bind, Except.bind, r0, e0, r1, pure, Except.pure] at h
  | ok c1 =>
  cases e1 : obj_corner fl attrib st0 c1 with
  | error e => simp [hn, bind, Except.bind, r0, e0, r1, e1, pure, Except.pure] at h
  | ok p1 =>
  obtain ⟨st1, t1⟩ := p1
  cases r2 : read_at shape.mesh.indices (f * 3 + 2) with
  | error e => simp [hn, bind, Except.bind, r0, e0, r1, e1, r2, pure, Except.pure] at h
  | ok c2 =>
  cases e2 : obj_corner fl attrib st1 c2 with
  | error e => simp [hn, bind, Except.bind, r0, e0, r1, e1, r2, e2, pure, Except.pure] at h
  | ok p2 =>
  obtain ⟨st2, t2⟩ := p2
  simp only [hn, bind, Except.bind, r0, e0, r1, e1, r2, e2, pure, Except.pure,
    ne_eq, not_true_eq_false, if_false, Except.ok.injEq] at h
  have g0 := (read_at_ok _ _ _).1 r0
  have g1 := (read_at_ok _ _ _).1 r1
  have g2 := (read_at_ok _ _ _).1 r2
  obtain ⟨inv0, lt0, i0, m0, mono0⟩ := obj_corner_inv fl attrib st st0 c0 t0 seen hinv e0
  obtain ⟨inv1, lt1, i1, m1, mono1⟩ := obj_corner_inv fl attrib st0 st1 c1 t1 _ inv0 e1
  obtain ⟨inv2, lt2, i2, m2, mono2⟩ := obj_corner_inv fl attrib st1 st2 c2 t2 _ inv1 e2
  subst h
  refine ⟨c0, c1, c2, g0, g1, g2, ?_, ?_, ?_⟩
  · obtain ⟨a1, a2, a3, a4, a5, a6, a7⟩ := inv2
    refine ⟨a1, ?_, a3, a4, ?_, a6, a7⟩
    · intro k
      rw [a2 k]
      simp only [List.mem_append, List.mem_singleton, List.mem_cons, List.mem_nil_iff, or_false]
      tauto
    · intro t ht i hi
      simp only [List.mem_append, List.mem_singleton] at ht
      rcases ht with ht | ht
      · exact a5 t ht i hi
      · subst ht
        simp only [UVec3.comps, List.mem_cons, List.mem_singleton, List.mem_nil_iff,
          or_false] at hi
        rcases hi with hi | hi | hi
        · rw [hi]; exact lt_of_lt_of_le lt0 (le_trans mono1 mono2)
        · rw [hi]; exact lt_of_lt_of_le lt1 mono2
        · rw [hi]; exact lt2
  · simp [i2, i1, i0]
  · simp [m2, m1, m0]

/-- The face step succeeds on a triangle whose corners are in range. -/
theorem obj_face_ok (fl : FloatOps) (attrib : attrib_t) (file : String) (shape : shape_t)
    (st : ShapeState) (f : Nat)
    (hf : f < shape.mesh.num_face_vertices.length)
    (htri : ∀ n ∈ shape.mesh.num_face_vertices, n = 3)
    (hlen : shape.mesh.indices.length = 3 * shape.mesh.num_face_vertices.length)
    (hrange : ∀ c ∈ shape.mesh.indices, corner_in_range attrib c) :
    ∃ st1, obj_face fl attrib file shape st f = .ok st1 := by
  have h0 : f * 3 < shape.mesh.indices.length := by omega
  have h1 : f * 3 + 1 < shape.mesh.indices.length := by omega
  have h2 : f * 3 + 2 < shape.mesh.indices.length := by omega
  have hn : shape.mesh.num_face_vertices.get ⟨f, hf⟩ = 3 := htri _ (List.get_mem _ _ _)
  obtain ⟨⟨st0, t0⟩, e0⟩ := obj_corner_ok fl attrib st (shape.mesh.indices.get ⟨f * 3, h0⟩)
    (hrange _ (List.get_mem _ _ _))
  obtain ⟨⟨st1, t1⟩, e1⟩ := obj_corner_ok fl attrib st0
    (shape.mesh.indices.get ⟨f * 3 + 1, h1⟩) (hrange _ (List.get_mem _ _ _))
  obtain ⟨⟨st2, t2⟩, e2⟩ := obj_corner_ok fl attrib st1
    (shape.mesh.indices.get ⟨f * 3 + 2, h2⟩) (hrange _ (List.get_mem _ _ _))
  refine ⟨{ st2 with geom := { st2.geom with indices := st2.geom.indices ++ [⟨t0, t1, t2⟩] } },
    ?_⟩
  simp only [obj_face, read_at_of_lt _ _ hf, hn, read_at_of_lt _ _ h0, read_at_of_lt _ _ h1,
    read_at_of_lt _ _ h2]
  simp only [bind, Except.bind, e0, e1, e2]
  rfl

/-- A successful face loop keeps the invariant; the keys seen are those of the corners of
the faces processed. -/
theorem obj_faces_inv (fl : FloatOps) (attrib : attrib_t) (file : String) (shape : shape_t)
    (fs : List Nat) :
    ∀ (st st2 : ShapeState) (seen : List UVec3), ShapeInv st seen →
      obj_faces fl attrib file shape st fs = .ok st2 →
      ∃ seen2, ShapeInv st2 seen2 ∧
        (∀ k, k ∈ seen2 ↔ k ∈ seen ∨ ∃ f ∈ fs, ∃ i, i < 3 ∧ ∃ c,
          shape.mesh.indices[f * 3 + i]? = some c ∧ k = corner_key c) ∧
        st2.geom.indices.length = st.geom.indices.length + fs.length ∧
        st2.geom.material_id = st.geom.material_id := by
  induction fs with
  | nil =>
    intro st st2 seen hinv h
    simp only [obj_faces, pure, Except.pure, Except.ok.injEq] at h
    subst h
    exact ⟨seen, hinv, by simp, by simp, rfl⟩
  | cons f rest ih =>
    intro st st2 seen hinv h
    cases e : obj_face fl attrib file shape st f with
    | error err => simp [obj_faces, bind, Except.bind, e] at h
    | ok st1 =>
    simp only [obj_faces, bind, Except.bind, e] at h
    obtain ⟨c0, c1, c2, g0, g1, g2, inv1, il, ml⟩ :=
      obj_face_inv fl attrib file shape st st1 f seen hinv e
    obtain ⟨seen2, inv2, mem2, il2, ml2⟩ := ih st1 st2 _ inv1 h
    refine ⟨seen2, inv2, ?_, ?_, ?_⟩
    · intro k
      rw [mem2 k]
      simp only [List.mem_append, List.mem_cons, List.mem_singleton, List.mem_nil_iff,
        or_false, exists_eq_or_imp]
      constructor
      · rintro ((h | h | h | h) | h)
        · exact Or.inl h
        · exact Or.inr (Or.inl ⟨0, by omega, c0, g0, h⟩)
        · exact Or.inr (Or.inl ⟨1, by omega, c1, g1, h⟩)
        · exact Or.inr (Or.inl ⟨2, by omega, c2, g2, h⟩)
        · exact Or.inr (Or.inr h)
      · rintro (h | ⟨i, hi, c, hc, hk⟩ | h)
        · exact Or.inl (Or.inl h)
        · have : i = 0 ∨ i = 1 ∨ i = 2 := by omega
          rcases this with rfl | rfl | rfl
          · rw [Nat.add_zero, g0] at hc
            cases hc
            exact Or.inl (Or.inr (Or.inl hk))
          · rw [g1] at hc
            cases hc
            exact Or.inl (Or.inr (Or.inr (Or.inl hk)))
          · rw [g2] at hc
            cases hc
            exact Or.inl (Or.inr (Or.inr (Or.inr hk)))
        · exact Or.inr h
    · rw [il2, il]; simp only [List.length_cons]; omega
    · rw [ml2, ml]

/-- The face loop succeeds on triangles whose corners are in range. -/
theorem obj_faces_ok (fl : FloatOps) (attrib : attrib_t) (file : String) (shape : shape_t)
    (htri : ∀ n ∈ shape.mesh.num_face_vertices, n = 3)
    (hlen : shape.mesh.indices.length = 3 * shape.mesh.num_face_vertices.length)
    (hrange : ∀ c ∈ shape.mesh.indices, corner_in_range attrib c)
    (fs : List Nat) :
    ∀ (st : ShapeState), (∀ f ∈ fs, f < shape.mesh.num_face_vertices.length) →
      ∃ st1, obj_faces fl attrib file shape st fs = .ok st1 := by
  induction fs with
  | nil => intro st _; exact ⟨st, rfl⟩
  | cons f rest ih =>
    intro st hfs
    obtain ⟨st1, e⟩ := obj_face_ok fl attrib file shape st f
      (hfs f (List.mem_cons_self _ _)) htri hlen hrange
    obtain ⟨st2, e2⟩ := ih st1 (fun g hg => hfs g (List.mem_cons_of_mem _ hg))
    exact ⟨st2, by simp only [obj_faces, bind, Except.bind, e]; exact e2⟩

theorem shape_inv_init (mat : Nat) :
    ShapeInv ⟨[], { Geometry.empty with material_id := mat }⟩ [] := by
  simp [ShapeInv, Geometry.empty]

theorem mem_range_corners (shape : shape_t)
    (hlen : shape.mesh.indices.length = 3 * shape.mesh.num_face_vertices.length) (k : UVec3) :
    (∃ f ∈ List.range shape.mesh.num_face_vertices.length, ∃ i, i < 3 ∧ ∃ c,
      shape.mesh.indices[f * 3 + i]? = some c ∧ k = corner_key c) ↔
    k ∈ shape.mesh.indices.map corner_key := by
  constructor
  · rintro ⟨f, _, i, _, c, hc, rfl⟩
    exact List.mem_map.2 ⟨c, List.getElem?_mem hc, rfl⟩
  · intro hk
    obtain ⟨c, hc, rfl⟩ := List.mem_map.1 hk
    obtain ⟨j, hj, rfl⟩ := List.mem_iff_getElem.1 hc
    refine ⟨j / 3, List.mem_range.2 (by omega), j % 3, Nat.mod_lt _ (by decide), _, ?_, rfl⟩
    have : j / 3 * 3 + j % 3 = j := by omega
    rw [this]
    exact List.getElem?_eq_getElem hj

/-- What a successful shape loop body has built: `keys` are the keys of `index_mapping` at
the end, each the key of a corner of a face of the shape. -/
theorem load_obj_shape_inv (fl : FloatOps) (attrib : attrib_t) (file : String)
    (shape : shape_t) (geom : Geometry)
    (h : load_obj_shape fl attrib file shape = .ok geom) :
    ∃ keys : List UVec3, keys.Nodup ∧
      (∀ k, k ∈ keys ↔ ∃ f ∈ List.range shape.mesh.num_face_vertices.length, ∃ i, i < 3 ∧
        ∃ c, shape.mesh.indices[f * 3 + i]? = some c ∧ k = corner_key c) ∧
      geom.vertices.length = keys.length ∧
      (∀ t ∈ geom.indices, ∀ i ∈ t.comps, i < geom.vertices.length) ∧
      geom.normals.length = (keys.filter (fun k => decide (k.y ≠ UINT32_MAX))).length ∧
      geom.uvs.length = (keys.filter (fun k => decide (k.z ≠ UINT32_MAX))).length ∧
      geom.indices.length = shape.mesh.num_face_vertices.length ∧
      some geom.material_id = shape.mesh.material_ids.head?.map to_uint32 := by
  unfold load_obj_shape at h
  cases hm : shape.mesh.material_ids with
  | nil => simp [hm, read_at, bind, Except.bind] at h
  | cons m0 ms =>
    simp only [hm, read_at, List.getElem?_cons_zero, obj_minmax_matid, bind, Except.bind, pure,
      Except.pure] at h
    cases e : obj_faces fl attrib file shape
        ⟨[], { Geometry.empty with material_id := to_uint32 m0 }⟩
        (List.range shape.mesh.num_face_vertices.length) with
    | error err => simp [e] at h
    | ok st1 =>
    simp only [e, Except.ok.injEq] at h
    subst h
    obtain ⟨seen1, inv, mem, il, ml⟩ :=
      obj_faces_inv fl attrib file shape _ _ st1 [] (shape_inv_init _) e
    obtain ⟨a1, a2, a3, a4, a5, a6, a7⟩ := inv
    refine ⟨st1.index_mapping.map Prod.fst, a1, ?_, ?_, a5, ?_, ?_, ?_, ?_⟩
    · intro k
      rw [a2 k, mem k]
      simp
    · simp [a3]
    · rw [a6, List.filter_map, List.length_map]; rfl
    · rw [a7, List.filter_map, List.length_map]; rfl
    · rw [il]; simp [Geometry.empty]
    · simp [ml]

/-- The shape loop body succeeds on a shape with a first material id whose faces are
triangles with corners in range. -/
theorem load_obj_shape_ok (fl : FloatOps) (attrib : attrib_t) (file : String)
    (shape : shape_t) (hface : shape.mesh.material_ids ≠ [])
    (htri : ∀ n ∈ shape.mesh.num_face_vertices, n = 3)
    (hlen : shape.mesh.indices.length = 3 * shape.mesh.num_face_vertices.length)
    (hrange : ∀ c ∈ shape.mesh.indices, corner_in_range attrib c) :
    ∃ geom, load_obj_shape fl attrib file shape = .ok geom := by
  cases hm : shape.mesh.material_ids with
  | nil => exact absurd hm hface
  | cons m0 ms =>
    obtain ⟨st1, e⟩ := obj_faces_ok fl attrib file shape htri hlen hrange
      (List.range shape.mesh.num_face_vertices.length)
      ⟨[], { Geometry.empty with material_id := to_uint32 m0 }⟩
      (fun f hf => List.mem_range.1 hf)
    refine ⟨st1.geom, ?_⟩
    simp only [load_obj_shape, hm, read_at, List.getElem?_cons_zero, obj_minmax_matid, bind,
      Except.bind, pure, Except.pure, e]

/-- What the shape loop body builds from a shape whose faces are triangles with corner
indices in range: `keys` are the keys of `index_mapping` at the end. -/
theorem load_obj_shape_spec (fl : FloatOps) (attrib : attrib_t) (file : String)
    (shape : shape_t) (hface : shape.mesh.material_ids ≠ [])
    (htri : ∀ n ∈ shape.mesh.num_face_vertices, n = 3)
    (hlen : shape.mesh.indices.length = 3 * shape.mesh.num_face_vertices.length)
    (hrange : ∀ c ∈ shape.mesh.indices, corner_in_range attrib c) :
    ∃ (geom : Geometry) (keys : List UVec3), load_obj_shape fl attrib file shape = .ok geom ∧
      keys.Nodup ∧
      (∀ k, k ∈ keys ↔ k ∈ shape.mesh.indices.map corner_key) ∧
      geom.vertices.length = keys.length ∧
      (∀ t ∈ geom.indices, ∀ i ∈ t.comps, i < geom.vertices.length) ∧
      geom.normals.length = (keys.filter (fun k => decide (k.y ≠ UINT32_MAX))).length ∧
      geom.uvs.length = (keys.filter (fun k => decide (k.z ≠ UINT32_MAX))).length ∧
      geom.indices.length = shape.mesh.num_face_vertices.length ∧
      some geom.material_id = shape.mesh.material_ids.head?.map to_uint32 := by
  obtain ⟨geom, e⟩ := load_obj_shape_ok fl attrib file shape hface htri hlen hrange
  obtain ⟨keys, b1, b2, b3, b4, b5, b6, b7, b8⟩ := load_obj_shape_inv fl attrib file shape geom e
  exact ⟨geom, keys, e, b1, fun k => (b2 k).trans (mem_range_corners shape hlen k),
    b3, b4, b5, b6, b7, b8⟩

theorem dedup_length_of_keys (cs : List index_t) (keys : List UVec3) (hnd : keys.Nodup)
    (hmem : ∀ k, k ∈ keys ↔ k ∈ cs.map corner_key) (hint : ∀ c ∈ cs, corner_is_int c) :
    keys.length = cs.dedup.length := by
  have h1 : keys.toFinset = (cs.map corner_key).toFinset := by
    ext k; simp only [List.mem_toFinset]; exact hmem k
  have h2 : keys.length = keys.toFinset.card := (List.toFinset_card_of_nodup hnd).symm
  have h3 : (cs.map corner_key).toFinset = cs.toFinset.image corner_key := by
    ext k; simp
  rw [h2, h1, h3, ← List.card_toFinset]
  apply Finset.card_image_of_injOn
  intro a ha b hb hab
  exact corner_key_inj a b (hint a (List.mem_toFinset.1 ha)) (hint b (List.mem_toFinset.1 hb)) hab

theorem index_find_assign_self (m : IndexMap) (k : UVec3) (v : Nat) :
    (m.assign k v).find k = some v := by
  induction m with
  | nil => simp [IndexMap.assign, IndexMap.find, (key_equiv_iff k k).2 rfl]
  | cons e rest ih =>
    obtain ⟨k1, v1⟩ := e
    by_cases hk : key_equiv k1 k = true
    · simp [IndexMap.assign, IndexMap.find, hk]
    · simp [IndexMap.assign, IndexMap.find, hk, ih]

theorem index_find_assign_isSome (m : IndexMap) (k : UVec3) (v : Nat) (k2 : UVec3)
    (h : (m.find k2).isSome = true) : ((m.assign k v).find k2).isSome = true := by
  induction m with
  | nil => simp [IndexMap.find] at h
  | cons e rest ih =>
    obtain ⟨k1, v1⟩ := e
    by_cases hk : key_equiv k1 k = true
    · by_cases hk2 : key_equiv k1 k2 = true
      · simp [IndexMap.assign, IndexMap.find, hk, hk2]
      · simp only [IndexMap.find, hk2] at h
        simpa [IndexMap.assign, IndexMap.find, hk, hk2] using h
    · by_cases hk2 : key_equiv k1 k2 = true
      · simp [IndexMap.assign, IndexMap.find, hk, hk2]
      · simp only [IndexMap.find, hk2] at h
        simpa [IndexMap.assign, IndexMap.find, hk, hk2] using ih h

theorem obj_corner_keeps_keys (fl : FloatOps) (attrib : attrib_t) (st st1 : ShapeState)
    (c : index_t) (v : Nat) (h : obj_corner fl attrib st c = .ok (st1, v)) :
    (st1.index_mapping.find (corner_key c)).isSome = true ∧
      ∀ k, (st.index_mapping.find k).isSome = true →
        (st1.index_mapping.find k).isSome = true := by
  cases hf : st.index_mapping.find (corner_key c) with
  | some v0 =>
    rw [obj_corner_found fl attrib st c v0 hf] at h
    cases h
    exact ⟨by simp [hf], fun k hk => hk⟩
  | none =>
    obtain ⟨px, py, pz, ns, ts, _, _, _, _, _, _, hst⟩ :=
      obj_corner_new fl attrib st st1 c v hf h
    subst hst
    exact ⟨by simp [index_find_assign_self], fun k hk => index_find_assign_isSome _ _ _ k hk⟩

/-- C1: for a shape with at least one face (a first material id to read), all of whose faces
are triangles with three corners each and corner indices in range, the shape loop of
`load_obj` returns a geometry whose vertex count is the number of distinct
(position, normal, uv) index triples of the corners; a corner whose key is already in
`index_mapping` leaves the state (so the vertex count) unchanged, and once a corner is
processed its key is in `index_mapping` and stays there. -/
theorem load_obj_shape_vertex_count (fl : FloatOps) (attrib : attrib_t) (file : String)
    (shape : shape_t) (hface : shape.mesh.material_ids ≠ [])
    (htri : ∀ n ∈ shape.mesh.num_face_vertices, n = 3)
    (hlen : shape.mesh.indices.length = 3 * shape.mesh.num_face_vertices.length)
    (hint : ∀ c ∈ shape.mesh.indices, corner_is_int c)
    (hrange : ∀ c ∈ shape.mesh.indices, corner_in_range attrib c) :
    (∃ geom, load_obj_shape fl attrib file shape = .ok geom ∧
      geom.vertices.length = shape.mesh.indices.dedup.length) ∧
    (∀ st c v, st.index_mapping.find (corner_key c) = some v →
      obj_corner fl attrib st c = .ok (st, v)) ∧
    (∀ st c st1 v, obj_corner fl attrib st c = .ok (st1, v) →
      (st1.index_mapping.find (corner_key c)).isSome = true ∧
      ∀ k, (st.index_mapping.find k).isSome = true →
        (st1.index_mapping.find k).isSome = true) := by
  refine ⟨?_, fun st c v h => obj_corner_found fl attrib st c v h,
    fun st c st1 v h => obj_corner_keeps_keys fl attrib st st1 c v h⟩
  obtain ⟨geom, keys, e, hnd, hmem, hv, _⟩ :=
    load_obj_shape_spec fl attrib file shape hface htri hlen hrange
  exact ⟨geom, e, by rw [hv]; exact dedup_length_of_keys _ keys hnd hmem hint⟩

/-- The sample shape: two triangles over six corners with four distinct index triples load as a geometry of four vertices. -/
theorem load_obj_shape_vertex_count_witness :
    sample_shape.mesh.indices.dedup.length = 4 ∧
    (∃ geom, load_obj_shape sample_float_ops sample_attrib "quad.obj" sample_shape = .ok geom ∧
      geom.vertices.length = sample_shape.mesh.indices.dedup.length) :=
  ⟨by decide, (load_obj_shape_vertex_count sample_float_ops sample_attrib "quad.obj" sample_shape
    (by decide) (by decide) (by decide) (by decide) (by decide)).1⟩

/-! ## What a successful load has built -/

theorem load_obj_shapes_inv (fl : FloatOps) (attrib : attrib_t) (file : String)
    (shapes : List shape_t) :
    ∀ gs, load_obj_shapes fl attrib file shapes = .ok gs →
      List.Forall₂ (fun s g => load_obj_shape fl attrib file s = .ok g) shapes gs := by
  induction shapes with
  | nil =>
    intro gs h
    simp only [load_obj_shapes, pure, Except.pure, Except.ok.injEq] at h
    subst h
    exact List.Forall₂.nil
  | cons s rest ih =>
    intro gs h
    cases e : load_obj_shape fl attrib file s with
    | error err => simp [load_obj_shapes, bind, Except.bind, e] at h
    | ok g =>
    cases e2 : load_obj_shapes fl attrib file rest with
    | error err => simp [load_obj_shapes, bind, Except.bind, e, e2] at h
    | ok gs2 =>
    simp only [load_obj_shapes, bind, Except.bind, e, e2, pure, Except.pure,
      Except.ok.injEq] at h
    subst h
    exact List.Forall₂.cons e (ih gs2 e2)

/-- The parts of a scene that `load_obj` has returned. -/
theorem load_obj_inv (ex : Externals) (file : String) (s : Scene)
    (h : load_obj ex file = .ok s) :
    ∃ gs, load_obj_shapes ex.toFloatOps (obj_parse ex file).attrib file
        (obj_parse ex file).shapes = .ok gs ∧
      s.instances = [⟨Mat4.identity, 0⟩] ∧ s.lights = [obj_light ex.toFloatOps] ∧
      s.textures = (obj_materials ex file).textures ∧
      ((need_default_mat [⟨gs⟩] = true ∧
          s.meshes = [⟨gs.map (assign_default_mat
            ((obj_materials ex file).materials.length % 4294967296))⟩] ∧
          s.materials = (obj_materials ex file).materials ++ [DisneyMaterial.default]) ∨
        (need_default_mat [⟨gs⟩] = false ∧ s.meshes = [⟨gs⟩] ∧
          s.materials = (obj_materials ex file).materials)) := by
  unfold load_obj at h
  by_cases hp : (obj_parse ex file).ret = false ∨ (obj_parse ex file).err ≠ ""
  · rw [if_pos hp] at h
    simp only [bind, Except.bind, throw, throwThe, MonadExceptOf.throw] at h
    cases h
  rw [if_neg hp] at h
  cases e : load_obj_shapes ex.toFloatOps (obj_parse ex file).attrib file
      (obj_parse ex file).shapes with
  | error err =>
    simp only [bind, Except.bind, e, pure, Except.pure] at h
    cases h
  | ok gs =>
  refine ⟨gs, rfl, ?_⟩
  by_cases hd : need_default_mat [⟨gs⟩] = true
  · simp only [bind, Except.bind, e, pure, Except.pure, hd, if_true,
      Except.ok.injEq] at h
    subst h
    exact ⟨rfl, rfl, rfl, Or.inl ⟨hd, rfl, rfl⟩⟩
  · have hd2 : need_default_mat [⟨gs⟩] = false := by simpa using hd
    simp only [bind, Except.bind, e, pure, Except.pure, hd2, Bool.false_eq_true, if_false,
      Except.ok.injEq] at h
    subst h
    exact ⟨rfl, rfl, rfl, Or.inr ⟨by simpa using hd, rfl, rfl⟩⟩

/-- The parts of a geometry that `gltf_primitive` has returned. -/
theorem gltf_primitive_inv (model : gltf_Model) (p : gltf_Primitive) (g : Geometry)
    (h : gltf_primitive model p = .ok g) :
    p.mode = TINYGLTF_MODE_TRIANGLES ∧
    ∃ pos uvs idx,
      read_at model.accessors (to_size_t (gltf_attribute p.attributes "POSITION")) = .ok pos ∧
      gltf_uvs model p = .ok uvs ∧
      read_at model.accessors (to_size_t p.indices) = .ok idx ∧
      g.vertices = pos.vec3_view ∧ g.uvs = uvs ∧ g.normals = [] ∧
      g.material_id = to_uint32 p.material ∧
      ((idx.componentType = TINYGLTF_COMPONENT_TYPE_UNSIGNED_SHORT ∧
          g.indices = gltf_triangles idx.u16_view) ∨
        (idx.componentType = TINYGLTF_COMPONENT_TYPE_UNSIGNED_INT ∧
          g.indices = gltf_triangles idx.u32_view)) := by
  unfold gltf_primitive at h
  by_cases hm : p.mode ≠ TINYGLTF_MODE_TRIANGLES
  · rw [if_pos hm] at h
    simp only [bind, Except.bind, throw, throwThe, MonadExceptOf.throw] at h
    cases h
  rw [if_neg hm] at h
  refine ⟨not_not.1 hm, ?_⟩
  cases e0 : read_at model.accessors (to_size_t (gltf_attribute p.attributes "POSITION")) with
  | error err =>
    simp only [bind, Except.bind, e0, pure, Except.pure] at h
    cases h
  | ok pos =>
  cases e1 : gltf_uvs model p with
  | error err =>
    simp only [bind, Except.bind, e0, e1, pure, Except.pure] at h
    cases h
  | ok uvs =>
  cases e2 : read_at model.accessors (to_size_t p.indices) with
  | error err =>
    simp only [bind, Except.bind, e0, e1, e2, pure, Except.pure] at h
    cases h
  | ok idx =>
  refine ⟨pos, uvs, idx, rfl, rfl, rfl, ?_⟩
  simp only [bind, Except.bind, e0, e1, e2, pure, Except.pure] at h
  by_cases h16 : idx.componentType = TINYGLTF_COMPONENT_TYPE_UNSIGNED_SHORT
  · rw [if_pos h16] at h
    cases h
    exact ⟨rfl, rfl, rfl, rfl, Or.inl ⟨h16, rfl⟩⟩
  · rw [if_neg h16] at h
    by_cases h32 : idx.componentType = TINYGLTF_COMPONENT_TYPE_UNSIGNED_INT
    · rw [if_pos h32] at h
      cases h
      exact ⟨rfl, rfl, rfl, rfl, Or.inr ⟨h32, rfl⟩⟩
    · rw [if_neg h32] at h
      simp only [throw, throwThe, MonadExceptOf.throw] at h
      cases h

theorem gltf_primitives_inv (model : gltf_Model) (ps : List gltf_Primitive) :
    ∀ gs, gltf_primitives model ps = .ok gs →
      List.Forall₂ (fun p g => gltf_primitive model p = .ok g) ps gs := by
  induction ps with
  | nil =>
    intro gs h
    simp only [gltf_primitives, pure, Except.pure, Except.ok.injEq] at h
    subst h
    exact List.Forall₂.nil
  | cons p rest ih =>
    intro gs h
    cases e : gltf_primitive model p with
    | error err => simp [gltf_primitives, bind, Except.bind, e] at h
    | ok g =>
    cases e2 : gltf_primitives model rest with
    | error err => simp [gltf_primitives, bind, Except.bind, e, e2] at h
    | ok gs2 =>
    simp only [gltf_primitives, bind, Except.bind, e, e2, pure, Except.pure,
      Except.ok.injEq] at h
    subst h
    exact List.Forall₂.cons e (ih gs2 e2)

theorem gltf_meshes_inv (model : gltf_Model) (ms : List gltf_Mesh) :
    ∀ out, gltf_meshes model ms = .ok out →
      List.Forall₂ (fun m mesh => gltf_primitives model m.primitives = .ok mesh.geometries)
        ms out := by
  induction ms with
  | nil =>
    intro out h
    simp only [gltf_meshes, pure, Except.pure, Except.ok.injEq] at h
    subst h
    exact List.Forall₂.nil
  | cons m rest ih =>
    intro out h
    cases e : gltf_primitives model m.primitives with
    | error err => simp [gltf_meshes, bind, Except.bind, e] at h
    | ok gs =>
    cases e2 : gltf_meshes model rest with
    | error err => simp [gltf_meshes, bind, Except.bind, e, e2] at h
    | ok out2 =>
    simp only [gltf_meshes, bind, Except.bind, e, e2, pure, Except.pure,
      Except.ok.injEq] at h
    subst h
    exact List.Forall₂.cons e (ih out2 e2)

/-- The parts of a scene that `load_gltf` has returned. -/
theorem load_gltf_inv (ex : Externals) (fname : String) (s : Scene)
    (h : load_gltf ex fname = .ok s) :
    gltf_meshes (gltf_parse ex fname).model (gltf_parse ex fname).model.meshes = .ok s.meshes ∧
    ∃ textures0 scene,
      gltf_images (gltf_parse ex fname).model.images = .ok textures0 ∧
      gltf_materials (gltf_parse ex fname).model textures0 []
        (gltf_parse ex fname).model.materials = .ok (s.textures, s.materials) ∧
      read_at (gltf_parse ex fname).model.scenes
        (to_size_t (gltf_parse ex fname).model.defaultScene) = .ok scene ∧
      gltf_instances ex (gltf_parse ex fname).model scene.nodes = .ok s.instances ∧
      s.lights = [gltf_light ex.toFloatOps] := by
  unfold load_gltf at h
  by_cases hp : (gltf_parse ex fname).ret = false ∨ (gltf_parse ex fname).err ≠ ""
  · rw [if_pos hp] at h
    simp only [bind, Except.bind, throw, throwThe, MonadExceptOf.throw] at h
    cases h
  rw [if_neg hp] at h
  cases e0 : gltf_meshes (gltf_parse ex fname).model (gltf_parse ex fname).model.meshes with
  | error err =>
    simp only [bind, Except.bind, e0, pure, Except.pure] at h
    cases h
  | ok meshes =>
  cases e1 : gltf_images (gltf_parse ex fname).model.images with
  | error err =>
    simp only [bind, Except.bind, e0, e1, pure, Except.pure] at h
    cases h
  | ok textures0 =>
  cases e2 : gltf_materials (gltf_parse ex fname).model textures0 []
      (gltf_parse ex fname).model.materials with
  | error err =>
    simp only [bind, Except.bind, e0, e1, e2, pure, Except.pure] at h
    cases h
  | ok tm =>
  obtain ⟨textures1, materials⟩ := tm
  cases e3 : read_at (gltf_parse ex fname).model.scenes
      (to_size_t (gltf_parse ex fname).model.defaultScene) with
  | error err =>
    simp only [bind, Except.bind, e0, e1, e2, e3, pure, Except.pure] at h
    cases h
  | ok scene =>
  cases e4 : gltf_instances ex (gltf_parse ex fname).model scene.nodes with
  | error err =>
    simp only [bind, Except.bind, e0, e1, e2, e3, e4, pure, Except.pure] at h
    cases h
  | ok instances =>
  simp only [bind, Except.bind, e0, e1, e2, e3, e4, pure, Except.pure, Except.ok.injEq] at h
  subst h
  exact ⟨rfl, textures0, scene, rfl, e2, rfl, e4, rfl⟩

/-- The parts of a scene that `load_pbrt` has returned. -/
theorem load_pbrt_inv (ex : Externals) (file : String) (s : Scene)
    (h : load_pbrt ex file = .ok s) :
    ∃ world, pbrt_parse ex file = .scene world ∧
      s.meshes = (world.instances.foldl pbrt_instance ⟨[], [], []⟩).meshes.map
        (fun m => ({ geometries := m.geometries.map (assign_default_mat 0) } : Mesh)) ∧
      s.instances = (world.instances.foldl pbrt_instance ⟨[], [], []⟩).instances ∧
      s.materials = [DisneyMaterial.default] ∧ s.textures = [] ∧
      s.lights = [pbrt_light ex.toFloatOps] := by
  unfold load_pbrt at h
  cases e : pbrt_parse ex file with
  | threw what =>
    simp only [e, throw, throwThe, MonadExceptOf.throw] at h
    cases h
  | null =>
    simp only [e, throw, throwThe, MonadExceptOf.throw] at h
    cases h
  | scene world =>
    simp only [e, pure, Except.pure, Except.ok.injEq] at h
    subst h
    exact ⟨world, rfl, rfl, rfl, rfl, rfl, rfl⟩

/-- The state produced by `load_pbrt` from a scene is a scene. -/
theorem load_pbrt_ok (ex : Externals) (file : String) (world : pbrt_World)
    (h : pbrt_parse ex file = .scene world) : ∃ s, load_pbrt ex file = .ok s := by
  unfold load_pbrt
  rw [h]
  exact ⟨_, rfl⟩

theorem assign_default_mat_vertices (d : Nat) (g : Geometry) :
    (assign_default_mat d g).vertices = g.vertices ∧
    (assign_default_mat d g).indices = g.indices ∧
    (assign_default_mat d g).normals = g.normals ∧
    (assign_default_mat d g).uvs = g.uvs := by
  unfold assign_default_mat
  split <;> exact ⟨rfl, rfl, rfl, rfl⟩

/-! ## Triangle indices -/

theorem foldl_invariant {σ α : Type} (f : σ → α → σ) (P : σ → Prop) (xs : List α)
    (hstep : ∀ st x, x ∈ xs → P st → P (f st x)) : ∀ st, P st → P (xs.foldl f st) := by
  induction xs with
  | nil => intro st h; exact h
  | cons x rest ih =>
    intro st h
    exact ih (fun st y hy hp => hstep st y (List.mem_cons_of_mem _ hy) hp) _
      (hstep st x (List.mem_cons_self _ _) h)

theorem mem_gltf_triangles (a : List Nat) (t : UVec3) (h : t ∈ gltf_triangles a) :
    ∀ i ∈ t.comps, i ∈ a := by
  unfold gltf_triangles at h
  obtain ⟨j, hj, rfl⟩ := List.mem_map.1 h
  have hj2 : j < a.length / 3 := List.mem_range.1 hj
  have h0 : j * 3 < a.length := by omega
  have h1 : j * 3 + 1 < a.length := by omega
  have h2 : j * 3 + 2 < a.length := by omega
  intro i hi
  simp only [UVec3.comps, List.mem_cons, List.mem_singleton, List.mem_nil_iff, or_false] at hi
  rcases hi with hi | hi | hi
  · rw [hi, List.getD_eq_getElem _ _ h0]; exact List.getElem_mem _
  · rw [hi, List.getD_eq_getElem _ _ h1]; exact List.getElem_mem _
  · rw [hi, List.getD_eq_getElem _ _ h2]; exact List.getElem_mem _

theorem gltf_primitive_indices (model : gltf_Model) (p : gltf_Primitive) (g : Geometry)
    (h : gltf_primitive model p = .ok g) (hr : gltf_primitive_in_range model p) :
    g.indices_in_range := by
  obtain ⟨_, pos, uvs, idx, e0, _, e2, hv, _, _, _, hi⟩ := gltf_primitive_inv model p g h
  have hr2 := hr pos ((read_at_ok _ _ _).1 e0) idx ((read_at_ok _ _ _).1 e2)
  intro t ht i hi2
  rw [hv]
  rcases hi with ⟨h16, hidx⟩ | ⟨h32, hidx⟩
  · rw [if_pos h16] at hr2
    rw [hidx] at ht
    exact hr2 i (mem_gltf_triangles _ t ht i hi2)
  · have h16 : ¬ idx.componentType = TINYGLTF_COMPONENT_TYPE_UNSIGNED_SHORT := by
      rw [h32]; decide
    rw [if_neg h16] at hr2
    rw [hidx] at ht
    exact hr2 i (mem_gltf_triangles _ t ht i hi2)

theorem pbrt_geometries_mem (shapes : List pbrt_Shape) (g : Geometry)
    (h : g ∈ pbrt_geometries shapes) : ∃ s ∈ shapes, pbrt_geometry s = some g := by
  induction shapes with
  | nil => simp [pbrt_geometries] at h
  | cons s rest ih =>
    unfold pbrt_geometries at h
    cases e : pbrt_geometry s with
    | none =>
      rw [e] at h
      obtain ⟨s2, hs2, e2⟩ := ih h
      exact ⟨s2, List.mem_cons_of_mem _ hs2, e2⟩
    | some g0 =>
      rw [e] at h
      rcases List.mem_cons.1 h with h1 | h1
      · exact ⟨s, List.mem_cons_self _ _, by rw [e, h1]⟩
      · obtain ⟨s2, hs2, e2⟩ := ih h1
        exact ⟨s2, List.mem_cons_of_mem _ hs2, e2⟩

theorem str_find_assign {V : Type} (m : StrMap V) (k : String) (v : V) (k2 : String) :
    (m.assign k v).find k2 = if k = k2 then some v else m.find k2 := by
  induction m with
  | nil => simp [StrMap.assign, StrMap.find]
  | cons e rest ih =>
    obtain ⟨k1, v1⟩ := e
    by_cases h1 : k1 = k
    · subst h1
      by_cases h2 : k1 = k2
      · simp [StrMap.assign, StrMap.find, h2]
      · simp [StrMap.assign, StrMap.find, h2]
    · by_cases h2 : k1 = k2
      · subst h2
        have h3 : ¬ k = k1 := fun e => h1 e.symm
        simp [StrMap.assign, StrMap.find, h1, h3]
      · simp [StrMap.assign, StrMap.find, h1, h2, ih]

theorem str_find_none_iff {V : Type} (m : StrMap V) (k : String) :
    m.find k = none ↔ k ∉ m.map Prod.fst := by
  induction m with
  | nil => simp [StrMap.find]
  | cons e rest ih =>
    obtain ⟨k1, v⟩ := e
    by_cases h : k1 = k
    · subst h
      simp [StrMap.find]
    · have h2 : ¬ k = k1 := fun e => h e.symm
      simp [StrMap.find, h, ih, h2]

theorem str_find_some_mem {V : Type} (m : StrMap V) (k : String) (v : V)
    (h : m.find k = some v) : (k, v) ∈ m := by
  induction m with
  | nil => simp [StrMap.find] at h
  | cons e rest ih =>
    obtain ⟨k1, v1⟩ := e
    by_cases hk : k1 = k
    · subst hk
      simp [StrMap.find] at h
      simp [h]
    · simp [StrMap.find, hk] at h
      exact List.mem_cons_of_mem _ (ih h)

theorem str_assign_of_not_mem {V : Type} (m : StrMap V) (k : String) (v : V)
    (h : k ∉ m.map Prod.fst) : m.assign k v = m ++ [(k, v)] := by
  induction m with
  | nil => simp [StrMap.assign]
  | cons e rest ih =>
    obtain ⟨k1, v1⟩ := e
    simp only [List.map_cons, List.mem_cons, not_or] at h
    have hk : ¬ k1 = k := fun e => h.1 e.symm
    simp [StrMap.assign, hk, ih h.2]

/-- Every mesh of the instance loop of `load_pbrt` is the non-empty conversion of the shapes
of an instanced object, and every mesh id in the cache or in an instance is a mesh. -/
theorem pbrt_loop_inv (insts : List pbrt_Instance) :
    (∀ m ∈ (insts.foldl pbrt_instance ⟨[], [], []⟩).meshes, m.geometries ≠ [] ∧
      ∃ inst ∈ insts, m.geometries = pbrt_geometries inst.object.shapes) ∧
    (∀ n id, (insts.foldl pbrt_instance ⟨[], [], []⟩).pbrt_objects.find n = some id →
      id < (insts.foldl pbrt_instance ⟨[], [], []⟩).meshes.length) ∧
    (∀ i ∈ (insts.foldl pbrt_instance ⟨[], [], []⟩).instances,
      i.mesh_id < (insts.foldl pbrt_instance ⟨[], [], []⟩).meshes.length) := by
  apply foldl_invariant pbrt_instance (fun st =>
    (∀ m ∈ st.meshes, m.geometries ≠ [] ∧
      ∃ inst ∈ insts, m.geometries = pbrt_geometries inst.object.shapes) ∧
    (∀ n id, st.pbrt_objects.find n = some id → id < st.meshes.length) ∧
    (∀ i ∈ st.instances, i.mesh_id < st.meshes.length)) insts
  · intro st inst hin ⟨h1, h2, h3⟩
    unfold pbrt_instance
    cases hf : st.pbrt_objects.find inst.object.name with
    | some id =>
      refine ⟨h1, h2, ?_⟩
      intro i hi
      rcases List.mem_append.1 hi with hi | hi
      · exact h3 i hi
      · rw [List.mem_singleton.1 hi]
        exact h2 _ _ hf
    | none =>
      by_cases he : (pbrt_geometries inst.object.shapes).isEmpty = true
      · simp only [he, if_true]
        exact ⟨h1, h2, h3⟩
      · simp only [he, Bool.false_eq_true, if_false]
        refine ⟨?_, ?_, ?_⟩
        · intro m hm
          rcases List.mem_append.1 hm with hm | hm
          · exact h1 m hm
          · rw [List.mem_singleton.1 hm]
            exact ⟨fun e => he (by simpa using e), inst, hin, rfl⟩
        · intro n id hn
          rw [str_find_assign] at hn
          rw [List.length_append, List.length_singleton]
          by_cases hk : inst.object.name = n
          · rw [if_pos hk] at hn
            cases hn
            exact Nat.lt_succ_self _
          · rw [if_neg hk] at hn
            exact Nat.lt_succ_of_lt (h2 n id hn)
        · intro i hi
          rw [List.length_append, List.length_singleton]
          rcases List.mem_append.1 hi with hi | hi
          · exact Nat.lt_succ_of_lt (h3 i hi)
          · rw [List.mem_singleton.1 hi]
            exact Nat.lt_succ_self _
  · exact ⟨by simp, by simp [StrMap.find], by simp⟩

theorem pbrt_geometry_indices (g : pbrt_Shape) (geom : Geometry)
    (h : pbrt_geometry g = some geom) (hr : pbrt_shape_in_range g) :
    geom.indices_in_range := by
  cases g with
  | TriangleMesh vertex index texcoord =>
    simp only [pbrt_geometry, Option.some.injEq] at h
    subst h
    intro t ht i hi
    simp only [List.mem_map] at ht
    obtain ⟨v, hv, rfl⟩ := ht
    have hr2 := hr v hv
    simp only [UVec3.comps, List.mem_cons, List.mem_singleton, List.mem_nil_iff,
      or_false] at hi
    simp only [List.length_map]
    simp only [List.mem_cons, List.mem_singleton, List.mem_nil_iff, or_false,
      forall_eq_or_imp, forall_eq] at hr2
    obtain ⟨hx, hy, hz⟩ := hr2
    unfold to_uint32 at hi
    rcases hi with hi | hi | hi <;> omega
  | QuadMesh => simp [pbrt_geometry] at h
  | Other => simp [pbrt_geometry] at h

theorem forall2_right_mem {α β : Type} (R : α → β → Prop) (l1 : List α) (l2 : List β)
    (h : List.Forall₂ R l1 l2) : ∀ b ∈ l2, ∃ a ∈ l1, R a b := by
  induction h with
  | nil => intro b hb; cases hb
  | cons hab _ ih =>
    intro b hb
    rcases List.mem_cons.1 hb with hb | hb
    · subst hb
      exact ⟨_, List.mem_cons_self _ _, hab⟩
    · obtain ⟨a, ha, hr⟩ := ih b hb
      exact ⟨a, List.mem_cons_of_mem _ ha, hr⟩

theorem assign_default_mat_indices_in_range (d : Nat) (g : Geometry)
    (h : g.indices_in_range) : (assign_default_mat d g).indices_in_range := by
  unfold Geometry.indices_in_range
  rw [(assign_default_mat_vertices d g).1, (assign_default_mat_vertices d g).2.1]
  exact h

theorem load_obj_indices (ex : Externals) (file : String) (s : Scene)
    (h : load_obj ex file = .ok s) : s.indices_in_range := by
  obtain ⟨gs, hgs, _, _, _, hm⟩ := load_obj_inv ex file s h
  have hall : ∀ g ∈ gs, g.indices_in_range := by
    intro g hg
    obtain ⟨shape, _, hs⟩ := forall2_right_mem _ _ _ (load_obj_shapes_inv _ _ _ _ gs hgs) g hg
    obtain ⟨keys, _, _, _, hb, _⟩ := load_obj_shape_inv _ _ _ shape g hs
    exact hb
  intro m hm2 g hg
  rcases hm with ⟨_, hmesh, _⟩ | ⟨_, hmesh, _⟩
  · rw [hmesh, List.mem_singleton] at hm2
    subst hm2
    obtain ⟨g0, hg0, rfl⟩ := List.mem_map.1 hg
    exact assign_default_mat_indices_in_range _ g0 (hall g0 hg0)
  · rw [hmesh, List.mem_singleton] at hm2
    subst hm2
    exact hall g hg

theorem load_gltf_indices (ex : Externals) (fname : String) (s : Scene)
    (h : load_gltf ex fname = .ok s) (hr : gltf_model_in_range (gltf_parse ex fname).model) :
    s.indices_in_range := by
  obtain ⟨hm, _⟩ := load_gltf_inv ex fname s h
  intro m hm2 g hg
  obtain ⟨gm, hgm, hps⟩ := forall2_right_mem _ _ _ (gltf_meshes_inv _ _ _ hm) m hm2
  obtain ⟨p, hp, hprim⟩ := forall2_right_mem _ _ _ (gltf_primitives_inv _ _ _ hps) g hg
  exact gltf_primitive_indices _ p g hprim (hr gm hgm p hp)

theorem load_pbrt_indices (ex : Externals) (file : String) (s : Scene)
    (h : load_pbrt ex file = .ok s) (hr : pbrt_world_in_range (pbrt_parse ex file).world) :
    s.indices_in_range := by
  obtain ⟨world, hw, hm, _⟩ := load_pbrt_inv ex file s h
  rw [hw] at hr
  intro m hm2 g hg
  rw [hm] at hm2
  obtain ⟨m0, hm0, rfl⟩ := List.mem_map.1 hm2
  obtain ⟨g0, hg0, rfl⟩ := List.mem_map.1 hg
  obtain ⟨_, inst, hinst, hgeo⟩ := (pbrt_loop_inv world.instances).1 m0 hm0
  rw [hgeo] at hg0
  obtain ⟨shape, hshape, hconv⟩ := pbrt_geometries_mem _ g0 hg0
  exact assign_default_mat_indices_in_range _ g0
    (pbrt_geometry_indices shape g0 hconv (hr inst hinst shape hshape))

/-- C2, as amended: in a scene returned by `load_obj` every component of every index triple
is less than the vertex count of its geometry; `load_gltf` and `load_pbrt` copy the index
triples of the file, and the same holds for their scenes when the indices of the file are in
range of its positions. -/
theorem loaded_indices_in_range (ex : Externals) (file : String) (s : Scene)
    (h : load_obj ex file = .ok s ∨
      (load_gltf ex file = .ok s ∧ gltf_model_in_range (gltf_parse ex file).model) ∨
      (load_pbrt ex file = .ok s ∧ pbrt_world_in_range (pbrt_parse ex file).world)) :
    s.indices_in_range := by
  rcases h with h | ⟨h, hr⟩ | ⟨h, hr⟩
  · exact load_obj_indices ex file s h
  · exact load_gltf_indices ex file s h hr
  · exact load_pbrt_indices ex file s h hr

theorem exists_of_isOk {α : Type} (x : Except LoadError α) (h : x.isOk = true) :
    ∃ a, x = .ok a := by
  cases x with
  | ok a => exact ⟨a, rfl⟩
  | error e => simp [Except.isOk, Except.toBool] at h

/-- Sample loads through the three adapters whose indices are in range. -/
theorem loaded_indices_in_range_witness :
    (∃ s, load_obj (sample_externals sample_obj no_gltf .null) "quad.obj" = .ok s ∧
      s.indices_in_range) ∧
    (∃ s, load_gltf (sample_externals no_obj gltf_triangle .null) "tri.gltf" = .ok s ∧
      s.indices_in_range) ∧
    (∃ s, load_pbrt (sample_externals no_obj no_gltf pbrt_two_instances) "two.pbrt" = .ok s ∧
      s.indices_in_range) := by
  obtain ⟨s1, h1⟩ := exists_of_isOk
    (load_obj (sample_externals sample_obj no_gltf .null) "quad.obj") (by decide)
  obtain ⟨s2, h2⟩ := exists_of_isOk
    (load_gltf (sample_externals no_obj gltf_triangle .null) "tri.gltf") (by decide)
  obtain ⟨s3, h3⟩ := exists_of_isOk
    (load_pbrt (sample_externals no_obj no_gltf pbrt_two_instances) "two.pbrt") (by decide)
  exact ⟨⟨s1, h1, loaded_indices_in_range _ _ s1 (Or.inl h1)⟩,
    ⟨s2, h2, loaded_indices_in_range _ _ s2 (Or.inr (Or.inl ⟨h2, by decide⟩))⟩,
    ⟨s3, h3, loaded_indices_in_range _ _ s3 (Or.inr (Or.inr ⟨h3, by decide⟩))⟩⟩

/-- C2 fails for `load_gltf`: a primitive with one position and the indices 0, 1, 2 loads,
and its triangle addresses the vertices 1 and 2, which the geometry does not have. -/
theorem gltf_indices_out_of_range :
    load_gltf (sample_externals no_obj gltf_one_vertex .null) "tri.gltf" =
      .ok gltf_one_vertex_scene ∧ ¬ gltf_one_vertex_scene.indices_in_range :=
  ⟨rfl, by decide⟩

/-! ## Triangle counts -/

theorem accumulate_step_to_int32 (a x : Nat) :
    accumulate_step (to_int32 a) x = to_int32 (a + x) := by
  unfold accumulate_step to_int32 to_size_t
  split <;> split <;> omega

theorem to_int32_zero : to_int32 0 = 0 := by decide

theorem unique_tris_fold (ms : List Mesh) :
    ∀ a : Nat, ms.foldl (fun acc m => accumulate_step acc m.num_tris) (to_int32 a) =
      to_int32 (a + (ms.map Mesh.num_tris).sum) := by
  induction ms with
  | nil => intro a; simp
  | cons m rest ih =>
    intro a
    simp only [List.foldl_cons, List.map_cons, List.sum_cons]
    rw [accumulate_step_to_int32, ih, Nat.add_assoc]

/-- What `unique_tris` returns: the sum of the triangle counts of the meshes, truncated to
an `int` and converted to `size_t`. -/
theorem unique_tris_eq (s : Scene) :
    s.unique_tris = to_size_t (to_int32 (mesh_tris s)) := by
  unfold Scene.unique_tris mesh_tris
  rw [← to_int32_zero, unique_tris_fold s.meshes 0, Nat.zero_add]

theorem total_tris_from_eq (meshes : List Mesh) (is : List Instance) :
    ∀ a : Nat, (∀ i ∈ is, i.mesh_id < meshes.length) →
      total_tris_from meshes (to_int32 a) is =
        .ok (to_int32 (a + (is.map (fun i => (meshes.getD i.mesh_id ⟨[]⟩).num_tris)).sum)) := by
  induction is with
  | nil => intro a _; simp [total_tris_from, pure, Except.pure]
  | cons i rest ih =>
    intro a hv
    have hi : i.mesh_id < meshes.length := hv i (List.mem_cons_self _ _)
    simp only [total_tris_from, read_at_of_lt _ _ hi, bind, Except.bind, List.map_cons,
      List.sum_cons]
    rw [accumulate_step_to_int32, ih _ (fun j hj => hv j (List.mem_cons_of_mem _ hj))]
    rw [List.getD_eq_getElem _ _ hi, Nat.add_assoc]
    rfl

/-- What `total_tris` returns when every instance references a mesh: the sum over the
instances of the triangle count of the referenced mesh, truncated to an `int` and
converted to `size_t`. -/
theorem total_tris_eq (s : Scene) (hv : ∀ i ∈ s.instances, i.mesh_id < s.meshes.length) :
    s.total_tris = .ok (to_size_t (to_int32 (instanced_tris s))) := by
  unfold Scene.total_tris instanced_tris
  rw [← to_int32_zero, total_tris_from_eq s.meshes s.instances 0 hv, Nat.zero_add]
  rfl

theorem to_size_t_to_int32_small (n : Nat) (h : n < 2147483648) :
    to_size_t (to_int32 n) = n := by
  unfold to_size_t to_int32
  split <;> omega

/-- The triangle counts are the sums of the claim as long as the sums stay below `2^31`. -/
theorem tris_of_small (s : Scene) (hv : ∀ i ∈ s.instances, i.mesh_id < s.meshes.length)
    (hu : mesh_tris s < 2147483648) (ht : instanced_tris s < 2147483648) :
    s.unique_tris = mesh_tris s ∧ s.total_tris = .ok (instanced_tris s) := by
  rw [unique_tris_eq, total_tris_eq s hv, to_size_t_to_int32_small _ hu,
    to_size_t_to_int32_small _ ht]
  exact ⟨rfl, rfl⟩

theorem tri_mesh_num_tris (n : Nat) : (tri_mesh n).num_tris = n % 18446744073709551616 := by
  simp [tri_mesh, Mesh.num_tris, Geometry.num_tris]

theorem instanced_scene_valid (n k : Nat) :
    ∀ i ∈ (instanced_scene n k).instances, i.mesh_id < (instanced_scene n k).meshes.length := by
  intro i hi
  simp only [instanced_scene, List.mem_replicate] at hi
  rw [hi.2]
  simp [instanced_scene]

theorem instanced_scene_tris (n k : Nat) :
    instanced_tris (instanced_scene n k) = k * (n % 18446744073709551616) := by
  simp [instanced_tris, instanced_scene, tri_mesh_num_tris]

/-- C3 fails on the code: for one mesh of 1048576 triangles instanced 2048 times every
instance references the mesh and the sum over the instances is 2147483648, but
`total_tris` returns 18446744071562067968: `std::accumulate` is given the `int` literal `0`
as initial value, so the running sum is an `int`. -/
theorem total_tris_wraps :
    (∀ i ∈ (instanced_scene 1048576 2048).instances,
      i.mesh_id < (instanced_scene 1048576 2048).meshes.length) ∧
    instanced_tris (instanced_scene 1048576 2048) = 2147483648 ∧
    (instanced_scene 1048576 2048).total_tris = .ok 18446744071562067968 := by
  refine ⟨instanced_scene_valid _ _, ?_, ?_⟩
  · rw [instanced_scene_tris]
  · rw [total_tris_eq _ (instanced_scene_valid _ _), instanced_scene_tris]
    rfl

/-! ## Default material -/

/-- The default material pass of `load_pbrt`: one material is appended, and every geometry
gets its index `0`. -/
theorem load_pbrt_default_material (ex : Externals) (file : String) (s : Scene)
    (h : load_pbrt ex file = .ok s) :
    s.materials = [DisneyMaterial.default] ∧
      ∀ m ∈ s.meshes, ∀ g ∈ m.geometries, g.material_id = 0 := by
  obtain ⟨world, _, hm, _, hmat, _⟩ := load_pbrt_inv ex file s h
  refine ⟨hmat, ?_⟩
  intro m hm2 g hg
  rw [hm] at hm2
  obtain ⟨m0, hm0, rfl⟩ := List.mem_map.1 hm2
  obtain ⟨g0, hg0, rfl⟩ := List.mem_map.1 hg
  obtain ⟨_, inst, _, hgeo⟩ := (pbrt_loop_inv world.instances).1 m0 hm0
  rw [hgeo] at hg0
  obtain ⟨shape, _, hconv⟩ := pbrt_geometries_mem _ g0 hg0
  cases shape with
  | TriangleMesh vertex index texcoord =>
    simp only [pbrt_geometry, Option.some.injEq] at hconv
    subst hconv
    simp [assign_default_mat, Geometry.empty]
  | QuadMesh => simp [pbrt_geometry] at hconv
  | Other => simp [pbrt_geometry] at hconv

/-- The default material pass of `load_obj`: when some geometry has no material id, one
material is appended and its index is assigned to every geometry without a material id. -/
theorem load_obj_default_material (ex : Externals) (file : String) (s : Scene)
    (h : load_obj ex file = .ok s) :
    ∃ gs, load_obj_shapes ex.toFloatOps (obj_parse ex file).attrib file
        (obj_parse ex file).shapes = .ok gs ∧
      (((∃ g ∈ gs, g.material_id = UINT32_MAX) ∧
          s.materials = (obj_materials ex file).materials ++ [DisneyMaterial.default] ∧
          s.meshes = [⟨gs.map (assign_default_mat
            ((obj_materials ex file).materials.length % 4294967296))⟩] ∧
          (obj_materials ex file).materials.length % 4294967296 < s.materials.length) ∨
        ((∀ g ∈ gs, g.material_id ≠ UINT32_MAX) ∧
          s.materials = (obj_materials ex file).materials ∧ s.meshes = [⟨gs⟩])) := by
  obtain ⟨gs, hgs, _, _, _, hm⟩ := load_obj_inv ex file s h
  refine ⟨gs, hgs, ?_⟩
  rcases hm with ⟨hn, hmesh, hmat⟩ | ⟨hn, hmesh, hmat⟩
  · left
    refine ⟨?_, hmat, hmesh, ?_⟩
    · simpa [need_default_mat] using hn
    · rw [hmat, List.length_append, List.length_singleton]
      exact Nat.lt_succ_of_le (Nat.mod_le _ _)
  · right
    refine ⟨?_, hmat, hmesh⟩
    simpa [need_default_mat] using hn

/-- C4 fails on the code for `load_gltf`: the primitive of `gltf_triangle` has material `-1`;
the load succeeds, the geometry keeps the material id `uint32_t(-1)` and no material is
appended, so the id is not an index into `materials`. -/
theorem gltf_no_default_material :
    load_gltf (sample_externals no_obj gltf_triangle .null) "tri.gltf" =
      .ok gltf_triangle_scene ∧
    gltf_triangle_scene.materials = [] ∧
    gltf_triangle_scene.meshes.map (fun m => m.geometries.map (fun g => g.material_id)) =
      [[4294967295]] :=
  ⟨rfl, rfl, rfl⟩

/-! ## Texture colour space of load_gltf -/

theorem gltf_images_inv (imgs : List gltf_Image) :
    ∀ texs, gltf_images imgs = .ok texs →
      texs.length = imgs.length ∧ ∀ t ∈ texs, t.color_space = .LINEAR := by
  induction imgs with
  | nil =>
    intro texs h
    simp only [gltf_images, pure, Except.pure, Except.ok.injEq] at h
    subst h
    simp
  | cons img rest ih =>
    intro texs h
    unfold gltf_images at h
    by_cases hp : img.pixel_type ≠ TINYGLTF_COMPONENT_TYPE_UNSIGNED_BYTE
    · rw [if_pos hp] at h
      simp only [bind, Except.bind, throw, throwThe, MonadExceptOf.throw] at h
      cases h
    rw [if_neg hp] at h
    cases e : gltf_images rest with
    | error err =>
      simp only [bind, Except.bind, e, pure, Except.pure] at h
      cases h
    | ok out =>
    simp only [bind, Except.bind, e, pure, Except.pure, Except.ok.injEq] at h
    subst h
    obtain ⟨hl, hc⟩ := ih out e
    refine ⟨by simp [hl], ?_⟩
    intro t ht
    rcases List.mem_cons.1 ht with ht | ht
    · rw [ht]
    · exact hc t ht

theorem set_srgb_inv (textures textures1 : List Image) (i : Nat)
    (h : set_srgb textures i = .ok textures1) :
    i < textures.length ∧ textures1.length = textures.length ∧
    ∀ j t1, textures1[j]? = some t1 →
      (t1.color_space = .SRGB ↔ j = i ∨ ∃ t0, textures[j]? = some t0 ∧ t0.color_space = .SRGB) := by
  unfold set_srgb at h
  cases e : textures[i]? with
  | none => simp [e] at h
  | some t =>
    simp only [e, pure, Except.pure, Except.ok.injEq] at h
    subst h
    have hi : i < textures.length := by
      by_contra hc
      rw [List.getElem?_eq_none (by omega)] at e
      cases e
    refine ⟨hi, by simp, ?_⟩
    intro j t1 hj
    by_cases hji : j = i
    · subst hji
      rw [List.getElem?_set_self hi] at hj
      cases hj
      simp
    · rw [List.getElem?_set_ne (fun e => hji e.symm)] at hj
      constructor
      · intro hs
        exact Or.inr ⟨t1, hj, hs⟩
      · rintro (h1 | ⟨t0, h0, hs⟩)
        · exact absurd h1 hji
        · rw [hj] at h0
          cases h0
          exact hs

/-- One step of the material loop of `load_gltf`: the texture count is kept, and a texture
is SRGB afterwards exactly when it was SRGB before or is the base-colour image of the
material. -/
theorem gltf_material_inv (model : gltf_Model) (textures textures1 : List Image)
    (m : gltf_Material) (mat : DisneyMaterial)
    (h : gltf_material model textures m = .ok (textures1, mat)) :
    textures1.length = textures.length ∧
    ∀ j t1, textures1[j]? = some t1 →
      (t1.color_space = .SRGB ↔
        (∃ t0, textures[j]? = some t0 ∧ t0.color_space = .SRGB) ∨ base_color_image model m j) := by
  unfold gltf_material at h
  cases e0 : read_at m.baseColorFactor 0 with
  | error err => simp only [bind, Except.bind, e0] at h; cases h
  | ok r =>
  cases e1 : read_at m.baseColorFactor 1 with
  | error err => simp only [bind, Except.bind, e0, e1] at h; cases h
  | ok g =>
  cases e2 : read_at m.baseColorFactor 2 with
  | error err => simp only [bind, Except.bind, e0, e1, e2] at h; cases h
  | ok b =>
  simp only [bind, Except.bind, e0, e1, e2] at h
  by_cases hi : m.baseColorTexture_index ≠ -1
  · rw [if_pos hi] at h
    cases e3 : read_at model.textures (to_size_t m.baseColorTexture_index) with
    | error err => simp only [e3] at h; cases h
    | ok tex =>
    cases e4 : set_srgb textures (to_size_t tex.source) with
    | error err => simp only [e3, e4] at h; cases h
    | ok textures2 =>
    simp only [e3, e4, pure, Except.pure, Except.ok.injEq, Prod.mk.injEq] at h
    obtain ⟨h1, _⟩ := h
    subst h1
    obtain ⟨_, hl, hs⟩ := set_srgb_inv _ _ _ e4
    refine ⟨hl, ?_⟩
    intro j t1 hj
    rw [hs j t1 hj]
    have e3b := (read_at_ok _ _ _).1 e3
    constructor
    · rintro (h1 | h1)
      · exact Or.inr ⟨hi, tex, e3b, h1.symm⟩
      · exact Or.inl h1
    · rintro (h1 | ⟨_, tex2, htex2, h2⟩)
      · exact Or.inr h1
      · rw [Option.mem_def, e3b] at htex2
        cases htex2
        exact Or.inl h2.symm
  · rw [if_neg hi] at h
    simp only [pure, Except.pure, Except.ok.injEq, Prod.mk.injEq] at h
    obtain ⟨h1, _⟩ := h
    subst h1
    refine ⟨rfl, ?_⟩
    intro j t1 hj
    constructor
    · intro hs
      exact Or.inl ⟨t1, hj, hs⟩
    · rintro (⟨t0, h0, hs⟩ | ⟨hc, _⟩)
      · rw [hj] at h0
        cases h0
        exact hs
      · exact absurd hc hi

/-- The material loop of `load_gltf`: the texture count is kept, and a texture is SRGB
afterwards exactly when it was SRGB before or is the base-colour image of one of the
materials. -/
theorem gltf_materials_inv (model : gltf_Model) (ms : List gltf_Material) :
    ∀ (textures textures1 : List Image) (mats mats1 : List DisneyMaterial),
      gltf_materials model textures mats ms = .ok (textures1, mats1) →
      textures1.length = textures.length ∧
      ∀ j t1, textures1[j]? = some t1 →
        (t1.color_space = .SRGB ↔
          (∃ t0, textures[j]? = some t0 ∧ t0.color_space = .SRGB) ∨
            ∃ m ∈ ms, base_color_image model m j) := by
  induction ms with
  | nil =>
    intro textures textures1 mats mats1 h
    simp only [gltf_materials, pure, Except.pure, Except.ok.injEq, Prod.mk.injEq] at h
    obtain ⟨h1, _⟩ := h
    subst h1
    refine ⟨rfl, ?_⟩
    intro j t1 hj
    constructor
    · intro hs
      exact Or.inl ⟨t1, hj, hs⟩
    · rintro (⟨t0, h0, hs⟩ | ⟨m, hm, _⟩)
      · rw [hj] at h0
        cases h0
        exact hs
      · cases hm
  | cons m rest ih =>
    intro textures textures1 mats mats1 h
    unfold gltf_materials at h
    cases e : gltf_material model textures m with
    | error err => simp only [bind, Except.bind, e] at h; cases h
    | ok r =>
    obtain ⟨textures2, mat⟩ := r
    simp only [bind, Except.bind, e] at h
    obtain ⟨hl2, hs2⟩ := gltf_material_inv model textures textures2 m mat e
    obtain ⟨hl1, hs1⟩ := ih textures2 textures1 _ mats1 h
    refine ⟨hl1.trans hl2, ?_⟩
    intro j t1 hj
    rw [hs1 j t1 hj]
    constructor
    · rintro (⟨t2, h2, hs⟩ | ⟨m2, hm2, hb⟩)
      · rcases (hs2 j t2 h2).1 hs with h0 | hb
        · exact Or.inl h0
        · exact Or.inr ⟨m, List.mem_cons_self _ _, hb⟩
      · exact Or.inr ⟨m2, List.mem_cons_of_mem _ hm2, hb⟩
    · rintro (⟨t0, h0, hs⟩ | ⟨m2, hm2, hb⟩)
      · have hj2 : j < textures2.length := by
          rw [hl2]
          by_contra hc
          rw [List.getElem?_eq_none (by omega)] at h0
          cases h0
        exact Or.inl ⟨textures2[j], List.getElem?_eq_getElem hj2,
          (hs2 j _ (List.getElem?_eq_getElem hj2)).2 (Or.inl ⟨t0, h0, hs⟩)⟩
      · rcases List.mem_cons.1 hm2 with hm2 | hm2
        · subst hm2
          have hj2 : j < textures2.length := by
            rw [← hl1]
            by_contra hc
            rw [List.getElem?_eq_none (by omega)] at hj
            cases hj
          exact Or.inl ⟨textures2[j], List.getElem?_eq_getElem hj2,
            (hs2 j _ (List.getElem?_eq_getElem hj2)).2 (Or.inr hb)⟩
        · exact Or.inr ⟨m2, hm2, hb⟩

/-- C5: after a successful `load_gltf` there is one texture per image; texture `i` is SRGB
if and only if the base-colour texture reference of some material resolves to image `i`,
and every other texture is LINEAR; a step of the material loop keeps every SRGB texture
SRGB. -/
theorem gltf_texture_color_space (ex : Externals) (fname : String) (s : Scene)
    (h : load_gltf ex fname = .ok s) :
    s.textures.length = (gltf_parse ex fname).model.images.length ∧
    (∀ i t, s.textures[i]? = some t →
      (t.color_space = .SRGB ↔
        ∃ m ∈ (gltf_parse ex fname).model.materials,
          base_color_image (gltf_parse ex fname).model m i) ∧
      (t.color_space = .LINEAR ↔
        ¬ ∃ m ∈ (gltf_parse ex fname).model.materials,
          base_color_image (gltf_parse ex fname).model m i)) ∧
    (∀ (textures : List Image) (m : gltf_Material) (textures1 : List Image)
      (mat : DisneyMaterial),
      gltf_material (gltf_parse ex fname).model textures m = .ok (textures1, mat) →
      ∀ (i : Nat) (t : Image), textures[i]? = some t → t.color_space = .SRGB →
        ∃ t1 : Image, textures1[i]? = some t1 ∧ t1.color_space = .SRGB) := by
  obtain ⟨_, textures0, scene, himg, hmat, _⟩ := load_gltf_inv ex fname s h
  obtain ⟨hl0, hlin⟩ := gltf_images_inv _ _ himg
  obtain ⟨hl1, hs⟩ := gltf_materials_inv _ _ _ _ _ _ hmat
  have hiff : ∀ i t, s.textures[i]? = some t →
      (t.color_space = .SRGB ↔
        ∃ m ∈ (gltf_parse ex fname).model.materials,
          base_color_image (gltf_parse ex fname).model m i) := by
    intro i t ht
    rw [hs i t ht]
    constructor
    · rintro (⟨t0, h0, hs0⟩ | hm)
      · have := hlin t0 (List.getElem?_mem h0)
        rw [this] at hs0
        cases hs0
      · exact hm
    · intro hm
      exact Or.inr hm
  refine ⟨hl1.trans hl0, ?_, ?_⟩
  · intro i t ht
    refine ⟨hiff i t ht, ?_⟩
    rw [← hiff i t ht]
    cases t.color_space <;> simp
  · intro textures m textures1 mat hstep i t hi hsrgb
    obtain ⟨hl, hstep2⟩ := gltf_material_inv _ _ _ _ _ hstep
    have hi2 : i < textures1.length := by
      rw [hl]
      by_contra hc
      rw [List.getElem?_eq_none (by omega)] at hi
      cases hi
    exact ⟨textures1[i], List.getElem?_eq_getElem hi2,
      (hstep2 i _ (List.getElem?_eq_getElem hi2)).2 (Or.inl ⟨t, hi, hsrgb⟩)⟩

/-- The sample model with two images: the load succeeds with two textures, tagged by base-colour use. -/
theorem gltf_texture_color_space_witness :
    ∃ s, load_gltf (sample_externals no_obj gltf_textured .null) "tex.gltf" = .ok s ∧
      s.textures.length = 2 ∧
      (∀ i t, s.textures[i]? = some t →
        (t.color_space = .SRGB ↔
          ∃ m ∈ gltf_textured.model.materials, base_color_image gltf_textured.model m i)) := by
  obtain ⟨s, hs⟩ := exists_of_isOk
    (load_gltf (sample_externals no_obj gltf_textured .null) "tex.gltf") (by decide)
  have h := gltf_texture_color_space _ _ s hs
  exact ⟨s, hs, h.1, fun i t ht => (h.2.1 i t ht).1⟩

/-! ## Format dispatch -/

/-- C6, as amended: with `ext` the extension of the file name, compared exactly, the
constructor runs `load_obj` for `obj` and `load_gltf` for `gltf` or `glb`; in a build that
defines `PBRT_PARSER_ENABLED` it runs `load_pbrt` for `pbrt` or `pbf`; for every other `ext`,
and for `pbrt` and `pbf` in a build without `PBRT_PARSER_ENABLED`, it fails with the message
`Unsupported file type ` followed by `ext`, whatever the parsers would return. -/
theorem scene_new_dispatch (pbrt_parser_enabled : Bool) (ex : Externals) (fname : String) :
    (ex.get_file_extension fname = "obj" →
      Scene.new pbrt_parser_enabled ex fname = load_obj ex fname) ∧
    (ex.get_file_extension fname = "gltf" ∨ ex.get_file_extension fname = "glb" →
      Scene.new pbrt_parser_enabled ex fname = load_gltf ex fname) ∧
    (pbrt_parser_enabled = true →
      ex.get_file_extension fname = "pbrt" ∨ ex.get_file_extension fname = "pbf" →
      Scene.new pbrt_parser_enabled ex fname = load_pbrt ex fname) ∧
    (ex.get_file_extension fname ≠ "obj" → ex.get_file_extension fname ≠ "gltf" →
      ex.get_file_extension fname ≠ "glb" →
      (pbrt_parser_enabled = false ∨
        (ex.get_file_extension fname ≠ "pbrt" ∧ ex.get_file_extension fname ≠ "pbf")) →
      Scene.new pbrt_parser_enabled ex fname =
        .error (.runtime_error ("Unsupported file type " ++ ex.get_file_extension fname))) := by
  refine ⟨?_, ?_, ?_, ?_⟩
  · intro h
    simp only [Scene.new, h, if_true]
  · intro h
    have hobj : ex.get_file_extension fname ≠ "obj" := by
      rcases h with h | h <;> rw [h] <;> decide
    simp only [Scene.new, hobj, if_false, h, if_true]
  · intro hb h
    have hobj : ex.get_file_extension fname ≠ "obj" := by
      rcases h with h | h <;> rw [h] <;> decide
    have hg : ¬ (ex.get_file_extension fname = "gltf" ∨ ex.get_file_extension fname = "glb") := by
      rcases h with h | h <;> rw [h] <;> decide
    simp only [Scene.new, hobj, if_false, hg, hb, h, and_self, if_true]
  · intro hobj hgltf hglb hp
    have hg : ¬ (ex.get_file_extension fname = "gltf" ∨ ex.get_file_extension fname = "glb") := by
      rintro (h | h)
      · exact hgltf h
      · exact hglb h
    have hpb : ¬ (pbrt_parser_enabled = true ∧
        (ex.get_file_extension fname = "pbrt" ∨ ex.get_file_extension fname = "pbf")) := by
      rintro ⟨hb, h⟩
      rcases hp with hp | ⟨h1, h2⟩
      · rw [hb] at hp
        cases hp
      · rcases h with h | h
        · exact h1 h
        · exact h2 h
    simp only [Scene.new, hobj, if_false, hg, hpb]
    rfl

/-- The dispatch on sample file names: `obj`, `glb` and `pbf` reach their adapters, `OBJ` and `xyz` are rejected. -/
theorem scene_new_dispatch_witness :
    Scene.new true (sample_externals sample_obj gltf_triangle pbrt_two_instances) "quad.obj" =
      load_obj (sample_externals sample_obj gltf_triangle pbrt_two_instances) "quad.obj" ∧
    Scene.new true (sample_externals sample_obj gltf_triangle pbrt_two_instances) "tri.glb" =
      load_gltf (sample_externals sample_obj gltf_triangle pbrt_two_instances) "tri.glb" ∧
    Scene.new true (sample_externals sample_obj gltf_triangle pbrt_two_instances) "two.pbf" =
      load_pbrt (sample_externals sample_obj gltf_triangle pbrt_two_instances) "two.pbf" ∧
    Scene.new true (sample_externals sample_obj gltf_triangle pbrt_two_instances) "quad.OBJ" =
      .error (.runtime_error "Unsupported file type OBJ") ∧
    Scene.new true (sample_externals sample_obj gltf_triangle pbrt_two_instances) "a.xyz" =
      .error (.runtime_error "Unsupported file type xyz") :=
  ⟨(scene_new_dispatch true _ "quad.obj").1 (by decide),
    (scene_new_dispatch true _ "tri.glb").2.1 (by decide),
    (scene_new_dispatch true _ "two.pbf").2.2.1 rfl (by decide),
    (scene_new_dispatch true _ "quad.OBJ").2.2.2 (by decide) (by decide) (by decide) (by decide),
    (scene_new_dispatch true _ "a.xyz").2.2.2 (by decide) (by decide) (by decide) (by decide)⟩

/-- C6 fails in a build that does not define `PBRT_PARSER_ENABLED`: for the extension
`pbrt` the constructor fails with `Unsupported file type pbrt` and the PBRT adapter, which
would have loaded the file, is not run. -/
theorem scene_new_pbrt_disabled :
    Scene.new false (sample_externals no_obj no_gltf pbrt_two_instances) "two.pbrt" =
      .error (.runtime_error "Unsupported file type pbrt") ∧
    (load_pbrt (sample_externals no_obj no_gltf pbrt_two_instances) "two.pbrt").isOk = true :=
  ⟨rfl, by decide⟩

/-! ## Object caching of load_pbrt -/

theorem pbrt_geometries_eq_filterMap (shapes : List pbrt_Shape) :
    pbrt_geometries shapes = shapes.filterMap pbrt_geometry := by
  induction shapes with
  | nil => rfl
  | cons g rest ih =>
    unfold pbrt_geometries
    cases e : pbrt_geometry g with
    | none => simp [List.filterMap_cons, e, ih]
    | some geom => simp [List.filterMap_cons, e, ih]

theorem pbrt_geometry_isSome (g : pbrt_Shape) :
    (pbrt_geometry g).isSome = g.is_triangle_mesh := by
  cases g <;> rfl

theorem pbrt_geometries_isEmpty (o : pbrt_Object) :
    (pbrt_geometries o.shapes).isEmpty = !o.has_triangle_mesh := by
  unfold pbrt_Object.has_triangle_mesh
  induction o.shapes with
  | nil => rfl
  | cons g rest ih =>
    unfold pbrt_geometries
    cases g with
    | TriangleMesh v i t => simp [pbrt_geometry, pbrt_Shape.is_triangle_mesh]
    | QuadMesh => simpa [pbrt_geometry, pbrt_Shape.is_triangle_mesh] using ih
    | Other => simpa [pbrt_geometry, pbrt_Shape.is_triangle_mesh] using ih

theorem pbrt_cache_init : PbrtCache [] ⟨[], [], []⟩ := by
  refine ⟨by simp, by simp, by simp, ?_, ?_⟩
  · exact List.Forall₂.nil
  · exact List.Forall₂.nil

/-- The body of the instance loop keeps the invariant. -/
theorem pbrt_instance_cache (done : List pbrt_Instance) (st : PbrtState) (inst : pbrt_Instance)
    (hagree : pbrt_names_agree (done ++ [inst])) (hinv : PbrtCache done st) :
    PbrtCache (done ++ [inst]) (pbrt_instance st inst) := by
  obtain ⟨i1, i2, i3, i4, i5⟩ := hinv
  have i5mono : List.Forall₂ (fun e m => ∃ x ∈ done ++ [inst], x.object.name = e.1 ∧
      m.geometries = pbrt_geometries x.object.shapes) st.pbrt_objects st.meshes :=
    i5.imp (fun e m ⟨x, hx, h⟩ => ⟨x, List.mem_append_left _ hx, h⟩)
  unfold pbrt_instance
  cases hf : st.pbrt_objects.find inst.object.name with
  | some id =>
    have hin : inst.object.name ∈ st.pbrt_objects.map Prod.fst :=
      List.mem_map.2 ⟨_, str_find_some_mem _ _ _ hf, rfl⟩
    obtain ⟨x, hx, hxt, hxn⟩ := (i3 _).1 hin
    have hobj : x.object = inst.object :=
      hagree x (List.mem_append_left _ hx) inst (by simp) hxn
    have hkept : inst.object.has_triangle_mesh = true := by rw [← hobj]; exact hxt
    refine ⟨i1, i2, ?_, ?_, i5mono⟩
    · intro n
      rw [i3 n]
      constructor
      · rintro ⟨y, hy, h⟩
        exact ⟨y, List.mem_append_left _ hy, h⟩
      · rintro ⟨y, hy, hyt, hyn⟩
        rcases List.mem_append.1 hy with hy | hy
        · exact ⟨y, hy, hyt, hyn⟩
        · rw [List.mem_singleton.1 hy] at hyn
          exact ⟨x, hx, hxt, hxn.trans hyn⟩
    · have : pbrt_kept (done ++ [inst]) = pbrt_kept done ++ [inst] := by
        simp [pbrt_kept, List.filter_append, List.filter, hkept]
      rw [this]
      exact List.rel_append i4 (List.Forall₂.cons ⟨rfl, hf⟩ List.Forall₂.nil)
  | none =>
    have hnot : inst.object.name ∉ st.pbrt_objects.map Prod.fst :=
      (str_find_none_iff _ _).1 hf
    by_cases he : (pbrt_geometries inst.object.shapes).isEmpty = true
    · simp only [he, if_true]
      have hkept : inst.object.has_triangle_mesh = false := by
        rw [pbrt_geometries_isEmpty] at he
        simpa using he
      refine ⟨i1, i2, ?_, ?_, i5mono⟩
      · intro n
        rw [i3 n]
        constructor
        · rintro ⟨y, hy, h⟩
          exact ⟨y, List.mem_append_left _ hy, h⟩
        · rintro ⟨y, hy, hyt, hyn⟩
          rcases List.mem_append.1 hy with hy | hy
          · exact ⟨y, hy, hyt, hyn⟩
          · rw [List.mem_singleton.1 hy, hkept] at hyt
            cases hyt
      · have : pbrt_kept (done ++ [inst]) = pbrt_kept done := by
          simp [pbrt_kept, List.filter_append, List.filter, hkept]
        rw [this]
        exact i4
    · simp only [he, Bool.false_eq_true, if_false]
      have hkept : inst.object.has_triangle_mesh = true := by
        rw [pbrt_geometries_isEmpty] at he
        simpa using he
      rw [str_assign_of_not_mem _ _ _ hnot]
      refine ⟨?_, ?_, ?_, ?_, ?_⟩
      · simp only [List.map_append, List.map_cons, List.map_nil]
        exact List.Nodup.append i1 (List.nodup_singleton _) (List.disjoint_singleton.2 hnot)
      · simp only [List.map_append, List.map_cons, List.map_nil, List.length_append,
          List.length_singleton, List.range_succ, i2]
      · intro n
        simp only [List.map_append, List.map_cons, List.map_nil, List.mem_append,
          List.mem_singleton, i3 n]
        constructor
        · rintro (⟨y, hy, h⟩ | h)
          · exact ⟨y, Or.inl hy, h⟩
          · exact ⟨inst, Or.inr rfl, hkept, h.symm⟩
        · rintro ⟨y, hy | hy, hyt, hyn⟩
          · exact Or.inl ⟨y, hy, hyt, hyn⟩
          · rw [hy] at hyn
            exact Or.inr hyn.symm
      · have : pbrt_kept (done ++ [inst]) = pbrt_kept done ++ [inst] := by
          simp [pbrt_kept, List.filter_append, List.filter, hkept]
        rw [this]
        refine List.rel_append ?_ (List.Forall₂.cons ⟨rfl, ?_⟩ List.Forall₂.nil)
        · refine i4.imp ?_
          rintro y i ⟨ht, hfind⟩
          refine ⟨ht, ?_⟩
          rw [← str_assign_of_not_mem _ _ _ hnot, str_find_assign]
          have hne : inst.object.name ≠ y.object.name := by
            intro e
            apply hnot
            rw [e]
            exact List.mem_map.2 ⟨_, str_find_some_mem _ _ _ hfind, rfl⟩
          rw [if_neg hne]
          exact hfind
        · rw [← str_assign_of_not_mem _ _ _ hnot, str_find_assign, if_pos rfl]
      · exact List.rel_append i5mono
          (List.Forall₂.cons ⟨inst, by simp, rfl, rfl⟩ List.Forall₂.nil)

/-- The invariant holds after the instance loop over any list whose names agree. -/
theorem pbrt_loop_cache (insts : List pbrt_Instance) (hagree : pbrt_names_agree insts) :
    PbrtCache insts (insts.foldl pbrt_instance ⟨[], [], []⟩) := by
  induction insts using List.reverseRecOn with
  | nil => exact pbrt_cache_init
  | append_singleton done inst ih =>
    rw [List.foldl_append]
    apply pbrt_instance_cache done _ inst hagree
    apply ih
    intro a ha b hb
    exact hagree a (List.mem_append_left _ ha) b (List.mem_append_left _ hb)

theorem cache_entry_at (objects : StrMap Nat) (k : Nat)
    (h2 : objects.map Prod.snd = List.range k) (n : String) (id : Nat)
    (h : (n, id) ∈ objects) : objects[id]? = some (n, id) := by
  obtain ⟨j, hj, hje⟩ := List.mem_iff_getElem.1 h
  have hlen : (objects.map Prod.snd).length = objects.length := List.length_map _ _
  have hj2 : j < (objects.map Prod.snd).length := by rw [hlen]; exact hj
  have h3 : (objects.map Prod.snd)[j] = id := by
    rw [List.getElem_map, hje]
  have hj3 : j < (List.range k).length := by rw [← h2]; exact hj2
  have h4 : (objects.map Prod.snd)[j] = (List.range k)[j] := by
    simp only [h2]
  rw [h3, List.getElem_range] at h4
  subst h4
  rw [List.getElem?_eq_getElem hj, hje]

/-- A cached id is the index of the mesh converted from the object of that name. -/
theorem cache_find_mesh (done : List pbrt_Instance) (st : PbrtState)
    (hinv : PbrtCache done st) (n : String) (id : Nat)
    (h : st.pbrt_objects.find n = some id) :
    ∃ m0, st.meshes[id]? = some m0 ∧ ∃ x ∈ done, x.object.name = n ∧
      m0.geometries = pbrt_geometries x.object.shapes := by
  obtain ⟨_, i2, _, _, i5⟩ := hinv
  have he := cache_entry_at _ _ i2 n id (str_find_some_mem _ _ _ h)
  have hid : id < st.pbrt_objects.length := by
    by_contra hc
    rw [List.getElem?_eq_none (by omega)] at he
    cases he
  have hid2 : id < st.meshes.length := by rw [← i5.length_eq]; exact hid
  have hrel := i5.get hid hid2
  rw [List.getElem?_eq_getElem hid] at he
  simp only [List.get_eq_getElem] at hrel
  obtain ⟨x, hx, hxn, hxg⟩ := hrel
  refine ⟨st.meshes[id], List.getElem?_eq_getElem hid2, x, hx, ?_, hxg⟩
  rw [hxn]
  have := Option.some.inj he
  rw [this]

theorem pbrt_object_geometries_shapes (o : pbrt_Object) :
    List.Forall₂ (fun shape g => ∃ g0, pbrt_geometry shape = some g0 ∧
        g = assign_default_mat 0 g0)
      (o.shapes.filter pbrt_Shape.is_triangle_mesh) (pbrt_object_geometries o) := by
  unfold pbrt_object_geometries
  induction o.shapes with
  | nil => exact List.Forall₂.nil
  | cons g rest ih =>
    cases g with
    | TriangleMesh v i t =>
      simp only [List.filter, pbrt_Shape.is_triangle_mesh, List.filterMap_cons, pbrt_geometry,
        List.map_cons]
      exact List.Forall₂.cons ⟨_, rfl, rfl⟩ ih
    | QuadMesh =>
      simpa only [List.filter, pbrt_Shape.is_triangle_mesh, List.filterMap_cons,
        pbrt_geometry] using ih
    | Other =>
      simpa only [List.filter, pbrt_Shape.is_triangle_mesh, List.filterMap_cons,
        pbrt_geometry] using ih

/-- C7: when instances with the same object name reference the same object, `load_pbrt`
returns a scene in which (1) there is one mesh per distinct object name among the instances
whose object has a triangle-mesh shape; (3) the instances emitted are, in input order,
those of the instances whose object has a triangle-mesh shape, each with the transform of
its instance and (4) a mesh id whose mesh has one geometry per triangle-mesh shape of the
object, in shape order; (2) two emitted instances have the same mesh id exactly when their
objects have the same name; and every mesh is the conversion of such an object. -/
theorem load_pbrt_object_caching (ex : Externals) (file : String) (world : pbrt_World)
    (hparse : pbrt_parse ex file = .scene world)
    (hagree : pbrt_names_agree world.instances) :
    ∃ s, load_pbrt ex file = .ok s ∧
      s.meshes.length =
        ((pbrt_kept world.instances).map (fun inst => inst.object.name)).dedup.length ∧
      List.Forall₂ (fun inst i => i.transform = pbrt_transform inst.xfm ∧
          ∃ m, s.meshes[i.mesh_id]? = some m ∧ m.geometries = pbrt_object_geometries inst.object)
        (pbrt_kept world.instances) s.instances ∧
      (∀ (a b : Nat) (insta instb : pbrt_Instance) (ia ib : Instance),
        (pbrt_kept world.instances)[a]? = some insta →
        (pbrt_kept world.instances)[b]? = some instb →
        s.instances[a]? = some ia → s.instances[b]? = some ib →
        (ia.mesh_id = ib.mesh_id ↔ insta.object.name = instb.object.name)) ∧
      (∀ m ∈ s.meshes, ∃ inst ∈ pbrt_kept world.instances,
        m.geometries = pbrt_object_geometries inst.object) ∧
      (∀ o : pbrt_Object, List.Forall₂ (fun shape g => ∃ g0, pbrt_geometry shape = some g0 ∧
          g = assign_default_mat 0 g0)
        (o.shapes.filter pbrt_Shape.is_triangle_mesh) (pbrt_object_geometries o)) := by
  obtain ⟨s, hs⟩ := load_pbrt_ok ex file world hparse
  obtain ⟨world2, hw2, hm, hi, _⟩ := load_pbrt_inv ex file s hs
  rw [hparse] at hw2
  cases hw2
  have hinv := pbrt_loop_cache world.instances hagree
  have hinv2 := hinv
  obtain ⟨i1, i2, i3, i4, i5⟩ := hinv2
  refine ⟨s, hs, ?_, ?_, ?_, ?_, pbrt_object_geometries_shapes⟩
  · have hkeys : ((List.foldl pbrt_instance ⟨[], [], []⟩ world.instances).pbrt_objects.map
        Prod.fst).length =
        (List.foldl pbrt_instance ⟨[], [], []⟩ world.instances).pbrt_objects.length :=
      List.length_map _ _
    rw [hm, List.length_map, ← i5.length_eq, ← hkeys]
    apply List.Perm.length_eq
    rw [List.perm_ext_iff_of_nodup i1 (List.nodup_dedup _)]
    intro n
    rw [i3 n, List.mem_dedup, List.mem_map]
    constructor
    · rintro ⟨x, hx, hxt, hxn⟩
      exact ⟨x, List.mem_filter.2 ⟨hx, hxt⟩, hxn⟩
    · rintro ⟨x, hx, hxn⟩
      obtain ⟨hx1, hx2⟩ := List.mem_filter.1 hx
      exact ⟨x, hx1, hx2, hxn⟩
  · rw [hi]
    have hall : ∀ x ∈ pbrt_kept world.instances, x ∈ world.instances :=
      fun x hx => (List.mem_filter.1 hx).1
    have i4b : List.Forall₂ (fun (inst : pbrt_Instance) (i : Instance) =>
        inst ∈ world.instances ∧ (i.transform = pbrt_transform inst.xfm ∧
          (List.foldl pbrt_instance ⟨[], [], []⟩ world.instances).pbrt_objects.find
            inst.object.name = some i.mesh_id))
        (pbrt_kept world.instances)
        (List.foldl pbrt_instance ⟨[], [], []⟩ world.instances).instances :=
      (List.forall₂_and_left _ _).2 ⟨hall, i4⟩
    refine i4b.imp ?_
    rintro inst i ⟨hin, ht, hfind⟩
    refine ⟨ht, ?_⟩
    obtain ⟨m0, hm0, x, hx, hxn, hxg⟩ := cache_find_mesh _ _ hinv _ _ hfind
    have hobj : x.object = inst.object := hagree x hx inst hin hxn
    refine ⟨⟨m0.geometries.map (assign_default_mat 0)⟩, ?_, ?_⟩
    · rw [hm, List.getElem?_map, hm0]
      rfl
    · simp only [hxg, hobj, pbrt_object_geometries, pbrt_geometries_eq_filterMap]
  · intro a b insta instb ia ib ha hb hia hib
    rw [hi] at hia hib
    have hla : a < (pbrt_kept world.instances).length := by
      by_contra hc
      rw [List.getElem?_eq_none (by omega)] at ha
      cases ha
    have hlb : b < (pbrt_kept world.instances).length := by
      by_contra hc
      rw [List.getElem?_eq_none (by omega)] at hb
      cases hb
    have hla2 := hla
    have hlb2 := hlb
    rw [i4.length_eq] at hla2 hlb2
    have ra := i4.get hla hla2
    have rb := i4.get hlb hlb2
    simp only [List.get_eq_getElem] at ra rb
    rw [List.getElem?_eq_getElem hla] at ha
    rw [List.getElem?_eq_getElem hlb] at hb
    rw [List.getElem?_eq_getElem hla2] at hia
    rw [List.getElem?_eq_getElem hlb2] at hib
    rw [Option.some.inj ha, Option.some.inj hia] at ra
    rw [Option.some.inj hb, Option.some.inj hib] at rb
    constructor
    · intro hid
      have ea := cache_entry_at _ _ i2 _ _ (str_find_some_mem _ _ _ ra.2)
      have eb := cache_entry_at _ _ i2 _ _ (str_find_some_mem _ _ _ rb.2)
      rw [hid, eb] at ea
      exact (Prod.mk.inj (Option.some.inj ea)).1.symm
    · intro hn
      have := ra.2
      rw [hn, rb.2] at this
      exact (Option.some.inj this).symm
  · intro m hmem
    rw [hm] at hmem
    obtain ⟨m0, hm0, rfl⟩ := List.mem_map.1 hmem
    obtain ⟨hne, inst, hinst, hgeo⟩ := (pbrt_loop_inv world.instances).1 m0 hm0
    refine ⟨inst, List.mem_filter.2 ⟨hinst, ?_⟩, ?_⟩
    · have h1 := pbrt_geometries_isEmpty inst.object
      rw [← hgeo] at h1
      cases hgs : m0.geometries with
      | nil => exact absurd hgs hne
      | cons g gs =>
        rw [hgs] at h1
        simpa using h1.symm
    · simp only [hgeo, pbrt_object_geometries, pbrt_geometries_eq_filterMap]

/-- Three sample instances, two of one object and one of an object without triangle mesh: one mesh and two instances. -/
theorem load_pbrt_object_caching_witness :
    ∃ s, load_pbrt (sample_externals no_obj no_gltf pbrt_three_instances) "three.pbrt" = .ok s ∧
      s.meshes.length = 1 ∧ s.instances.length = 2 := by
  obtain ⟨s, hs, h1, h2, _⟩ := load_pbrt_object_caching
    (sample_externals no_obj no_gltf pbrt_three_instances) "three.pbrt"
    pbrt_three_instances.world rfl (by decide)
  exact ⟨s, hs, h1, h2.length_eq.symm⟩

/-! ## Mesh non-emptiness -/

theorem load_obj_shapes_length (fl : FloatOps) (attrib : attrib_t) (file : String)
    (shapes : List shape_t) (gs : List Geometry)
    (h : load_obj_shapes fl attrib file shapes = .ok gs) : gs.length = shapes.length :=
  (load_obj_shapes_inv fl attrib file shapes gs h).length_eq.symm

/-- The meshes of a scene returned by `load_obj`: one mesh, with one geometry per shape. -/
theorem load_obj_meshes (ex : Externals) (file : String) (s : Scene)
    (h : load_obj ex file = .ok s) :
    ∃ m, s.meshes = [m] ∧ m.geometries.length = (obj_parse ex file).shapes.length := by
  obtain ⟨gs, hgs, _, _, _, hm⟩ := load_obj_inv ex file s h
  have hl := load_obj_shapes_length _ _ _ _ gs hgs
  rcases hm with ⟨_, hmesh, _⟩ | ⟨_, hmesh, _⟩
  · exact ⟨_, hmesh, by simp [hl]⟩
  · exact ⟨_, hmesh, hl⟩

/-- The meshes of a scene returned by `load_gltf`: one mesh per glTF mesh, with one geometry
per primitive. -/
theorem load_gltf_meshes (ex : Externals) (fname : String) (s : Scene)
    (h : load_gltf ex fname = .ok s) :
    List.Forall₂ (fun gm m => m.geometries.length = gm.primitives.length)
      (gltf_parse ex fname).model.meshes s.meshes := by
  obtain ⟨hm, _⟩ := load_gltf_inv ex fname s h
  refine (gltf_meshes_inv _ _ _ hm).imp ?_
  intro gm m hp
  exact (gltf_primitives_inv _ _ _ hp).length_eq.symm

/-- C8, as amended: every mesh of a scene returned by `load_pbrt` has at least one geometry;
`load_obj` emits one mesh with one geometry per shape and `load_gltf` one mesh per glTF mesh
with one geometry per primitive, so their meshes have at least one geometry when the OBJ
parse has at least one shape and every glTF mesh has at least one primitive. -/
theorem loaded_meshes_nonempty (ex : Externals) (file : String) (s : Scene)
    (h : (load_obj ex file = .ok s ∧ (obj_parse ex file).shapes ≠ []) ∨
      (load_gltf ex file = .ok s ∧
        ∀ gm ∈ (gltf_parse ex file).model.meshes, gm.primitives ≠ []) ∨
      load_pbrt ex file = .ok s) :
    s.meshes_nonempty := by
  rcases h with ⟨h, hne⟩ | ⟨h, hne⟩ | h
  · obtain ⟨m, hm, hl⟩ := load_obj_meshes ex file s h
    intro m2 hm2
    rw [hm, List.mem_singleton] at hm2
    subst hm2
    intro he
    rw [he, List.length_nil] at hl
    exact hne (List.length_eq_zero.1 hl.symm)
  · intro m hm
    obtain ⟨gm, hgm, hl⟩ := forall2_right_mem _ _ _ (load_gltf_meshes ex file s h) m hm
    intro he
    rw [he, List.length_nil] at hl
    exact hne gm hgm (List.length_eq_zero.1 hl.symm)
  · obtain ⟨world, _, hm, _⟩ := load_pbrt_inv ex file s h
    intro m hm2
    rw [hm] at hm2
    obtain ⟨m0, hm0, rfl⟩ := List.mem_map.1 hm2
    obtain ⟨hne, _⟩ := (pbrt_loop_inv world.instances).1 m0 hm0
    intro he
    exact hne (List.map_eq_nil_iff.1 he)

/-- Sample loads through the three adapters whose meshes have geometries. -/
theorem loaded_meshes_nonempty_witness :
    (∃ s, load_obj (sample_externals sample_obj no_gltf .null) "quad.obj" = .ok s ∧
      s.meshes_nonempty) ∧
    (∃ s, load_gltf (sample_externals no_obj gltf_triangle .null) "tri.gltf" = .ok s ∧
      s.meshes_nonempty) ∧
    (∃ s, load_pbrt (sample_externals no_obj no_gltf pbrt_three_instances) "three.pbrt" = .ok s ∧
      s.meshes_nonempty) := by
  obtain ⟨s1, h1⟩ := exists_of_isOk
    (load_obj (sample_externals sample_obj no_gltf .null) "quad.obj") (by decide)
  obtain ⟨s2, h2⟩ := exists_of_isOk
    (load_gltf (sample_externals no_obj gltf_triangle .null) "tri.gltf") (by decide)
  obtain ⟨s3, h3⟩ := exists_of_isOk
    (load_pbrt (sample_externals no_obj no_gltf pbrt_three_instances) "three.pbrt") (by decide)
  exact ⟨⟨s1, h1, loaded_meshes_nonempty _ _ s1 (Or.inl ⟨h1, by decide⟩)⟩,
    ⟨s2, h2, loaded_meshes_nonempty _ _ s2 (Or.inr (Or.inl ⟨h2, by decide⟩))⟩,
    ⟨s3, h3, loaded_meshes_nonempty _ _ s3 (Or.inr (Or.inr h3))⟩⟩

/-- C8 fails for `load_obj` and `load_gltf`: a parse that succeeds with no shape loads, and
the one mesh of the scene has no geometry; a glTF mesh without primitives loads as a mesh
without geometry. -/
theorem obj_gltf_empty_mesh :
    (load_obj (sample_externals obj_no_shapes no_gltf .null) "empty.obj" =
      .ok obj_no_shapes_scene ∧ ¬ obj_no_shapes_scene.meshes_nonempty) ∧
    (load_gltf (sample_externals no_obj gltf_no_primitives .null) "empty.gltf" =
      .ok gltf_no_primitives_scene ∧ ¬ gltf_no_primitives_scene.meshes_nonempty) :=
  ⟨⟨rfl, by decide⟩, ⟨rfl, by decide⟩⟩

/-! ## Parallel attribute arrays -/

theorem assign_default_mat_parallel (d : Nat) (g : Geometry) (h : g.parallel) :
    (assign_default_mat d g).parallel := by
  unfold Geometry.parallel
  rw [(assign_default_mat_vertices d g).1, (assign_default_mat_vertices d g).2.2.1,
    (assign_default_mat_vertices d g).2.2.2]
  exact h

theorem to_uint32_eq_max (i : Int) (hi : is_int32 i) : to_uint32 i = UINT32_MAX ↔ i = -1 := by
  unfold to_uint32 UINT32_MAX
  unfold is_int32 at hi
  omega

theorem load_obj_shape_parallel (fl : FloatOps) (attrib : attrib_t) (file : String)
    (shape : shape_t) (g : Geometry) (h : load_obj_shape fl attrib file shape = .ok g)
    (hu : obj_shape_uniform shape) : g.parallel := by
  obtain ⟨keys, _, hmem, hv, _, hn, ht, _⟩ := load_obj_shape_inv fl attrib file shape g h
  obtain ⟨hint, hnu, htu⟩ := hu
  have hkey : ∀ k ∈ keys, ∃ c ∈ shape.mesh.indices, k = corner_key c := by
    intro k hk
    obtain ⟨f, _, i, _, c, hc, hkc⟩ := (hmem k).1 hk
    exact ⟨c, List.getElem?_mem hc, hkc⟩
  constructor
  · intro hne
    rcases hnu with hall | hall
    · exfalso
      apply hne
      apply List.length_eq_zero.1
      rw [hn, List.length_eq_zero, List.filter_eq_nil_iff]
      intro k hk
      obtain ⟨c, hc, rfl⟩ := hkey k hk
      simp [corner_key, hall c hc, to_uint32_neg_one]
    · rw [hn, hv]
      congr 1
      rw [List.filter_eq_self]
      intro k hk
      obtain ⟨c, hc, rfl⟩ := hkey k hk
      have := (to_uint32_eq_max c.normal_index (hint c hc).2.1).not.2 (hall c hc)
      simpa [corner_key] using this
  · intro hne
    rcases htu with hall | hall
    · exfalso
      apply hne
      apply List.length_eq_zero.1
      rw [ht, List.length_eq_zero, List.filter_eq_nil_iff]
      intro k hk
      obtain ⟨c, hc, rfl⟩ := hkey k hk
      simp [corner_key, hall c hc, to_uint32_neg_one]
    · rw [ht, hv]
      congr 1
      rw [List.filter_eq_self]
      intro k hk
      obtain ⟨c, hc, rfl⟩ := hkey k hk
      have := (to_uint32_eq_max c.texcoord_index (hint c hc).2.2).not.2 (hall c hc)
      simpa [corner_key] using this

theorem gltf_primitive_parallel_geom (model : gltf_Model) (p : gltf_Primitive) (g : Geometry)
    (h : gltf_primitive model p = .ok g) (hp : gltf_primitive_parallel model p) :
    g.parallel := by
  obtain ⟨_, pos, uvs, idx, e0, e1, _, hv, huv, hnor, _⟩ := gltf_primitive_inv model p g h
  constructor
  · intro hne
    exact absurd hnor hne
  · intro hne
    rw [huv] at hne ⊢
    rw [hv]
    unfold gltf_uvs at e1
    cases hf : p.attributes.find "TEXCOORD_0" with
    | none =>
      simp only [hf, pure, Except.pure, Except.ok.injEq] at e1
      exact absurd e1.symm hne
    | some i =>
      simp only [hf] at e1
      cases er : read_at model.accessors (to_size_t i) with
      | error err => simp only [er, bind, Except.bind] at e1; cases e1
      | ok uv =>
        simp only [er, bind, Except.bind, pure, Except.pure, Except.ok.injEq] at e1
        subst e1
        exact hp pos ((read_at_ok _ _ _).1 e0) i hf uv ((read_at_ok _ _ _).1 er) hne

theorem pbrt_geometry_parallel (g : pbrt_Shape) (geom : Geometry)
    (h : pbrt_geometry g = some geom) (hp : pbrt_shape_parallel g) : geom.parallel := by
  cases g with
  | TriangleMesh vertex index texcoord =>
    simp only [pbrt_geometry, Option.some.injEq] at h
    subst h
    constructor
    · intro hne
      exact absurd rfl hne
    · intro hne
      simp only [List.length_map]
      apply hp
      intro he
      apply hne
      simp [he]
  | QuadMesh => simp [pbrt_geometry] at h
  | Other => simp [pbrt_geometry] at h

/-- C9, as amended: the normals and uvs of every geometry, when not empty, have the length
of the vertices, for a scene of `load_obj` whose shapes each carry normal indices on all
corners or on none, and likewise uv indices; for a scene of `load_gltf` (which reads no
normals) when each non-empty `TEXCOORD_0` accessor has the element count of the `POSITION`
accessor; and for a scene of `load_pbrt` (which reads no normals) when the texture
coordinates of each triangle mesh, if any, are as many as its vertices. -/
theorem loaded_attributes_parallel (ex : Externals) (file : String) (s : Scene)
    (h : (load_obj ex file = .ok s ∧
        ∀ shape ∈ (obj_parse ex file).shapes, obj_shape_uniform shape) ∨
      (load_gltf ex file = .ok s ∧
        ∀ gm ∈ (gltf_parse ex file).model.meshes, ∀ p ∈ gm.primitives,
          gltf_primitive_parallel (gltf_parse ex file).model p) ∨
      (load_pbrt ex file = .ok s ∧
        ∀ inst ∈ (pbrt_parse ex file).world.instances, ∀ g ∈ inst.object.shapes,
          pbrt_shape_parallel g)) :
    s.attributes_parallel := by
  rcases h with ⟨h, hu⟩ | ⟨h, hu⟩ | ⟨h, hu⟩
  · obtain ⟨gs, hgs, _, _, _, hm⟩ := load_obj_inv ex file s h
    have hall : ∀ g ∈ gs, g.parallel := by
      intro g hg
      obtain ⟨shape, hshape, hs⟩ :=
        forall2_right_mem _ _ _ (load_obj_shapes_inv _ _ _ _ gs hgs) g hg
      exact load_obj_shape_parallel _ _ _ shape g hs (hu shape hshape)
    intro m hm2 g hg
    rcases hm with ⟨_, hmesh, _⟩ | ⟨_, hmesh, _⟩
    · rw [hmesh, List.mem_singleton] at hm2
      subst hm2
      obtain ⟨g0, hg0, rfl⟩ := List.mem_map.1 hg
      exact assign_default_mat_parallel _ g0 (hall g0 hg0)
    · rw [hmesh, List.mem_singleton] at hm2
      subst hm2
      exact hall g hg
  · obtain ⟨hm, _⟩ := load_gltf_inv ex file s h
    intro m hm2 g hg
    obtain ⟨gm, hgm, hps⟩ := forall2_right_mem _ _ _ (gltf_meshes_inv _ _ _ hm) m hm2
    obtain ⟨p, hp, hprim⟩ := forall2_right_mem _ _ _ (gltf_primitives_inv _ _ _ hps) g hg
    exact gltf_primitive_parallel_geom _ p g hprim (hu gm hgm p hp)
  · obtain ⟨world, hw, hm, _⟩ := load_pbrt_inv ex file s h
    rw [hw] at hu
    intro m hm2 g hg
    rw [hm] at hm2
    obtain ⟨m0, hm0, rfl⟩ := List.mem_map.1 hm2
    obtain ⟨g0, hg0, rfl⟩ := List.mem_map.1 hg
    obtain ⟨_, inst, hinst, hgeo⟩ := (pbrt_loop_inv world.instances).1 m0 hm0
    rw [hgeo] at hg0
    obtain ⟨shape, hshape, hconv⟩ := pbrt_geometries_mem _ g0 hg0
    exact assign_default_mat_parallel _ g0
      (pbrt_geometry_parallel shape g0 hconv (hu inst hinst shape hshape))

/-- Sample loads through the three adapters whose attribute arrays are parallel. -/
theorem loaded_attributes_parallel_witness :
    (∃ s, load_obj (sample_externals sample_obj no_gltf .null) "quad.obj" = .ok s ∧
      s.attributes_parallel) ∧
    (∃ s, load_gltf (sample_externals no_obj gltf_triangle .null) "tri.gltf" = .ok s ∧
      s.attributes_parallel) ∧
    (∃ s, load_pbrt (sample_externals no_obj no_gltf pbrt_three_instances) "three.pbrt" = .ok s ∧
      s.attributes_parallel) := by
  obtain ⟨s1, h1⟩ := exists_of_isOk
    (load_obj (sample_externals sample_obj no_gltf .null) "quad.obj") (by decide)
  obtain ⟨s2, h2⟩ := exists_of_isOk
    (load_gltf (sample_externals no_obj gltf_triangle .null) "tri.gltf") (by decide)
  obtain ⟨s3, h3⟩ := exists_of_isOk
    (load_pbrt (sample_externals no_obj no_gltf pbrt_three_instances) "three.pbrt") (by decide)
  exact ⟨⟨s1, h1, loaded_attributes_parallel _ _ s1 (Or.inl ⟨h1, by decide⟩)⟩,
    ⟨s2, h2, loaded_attributes_parallel _ _ s2 (Or.inr (Or.inl ⟨h2, by decide⟩))⟩,
    ⟨s3, h3, loaded_attributes_parallel _ _ s3 (Or.inr (Or.inr ⟨h3, by decide⟩))⟩⟩

/-- C9 fails: `load_gltf` copies a `TEXCOORD_0` accessor of one element next to three
positions, and `load_obj` pushes one normal for a shape of three vertices of which one
corner carries a normal index. -/
theorem attributes_not_parallel :
    (load_gltf (sample_externals no_obj gltf_one_uv .null) "uv.gltf" = .ok gltf_one_uv_scene ∧
      ¬ gltf_one_uv_scene.attributes_parallel) ∧
    (load_obj (sample_externals obj_mixed_normals no_gltf .null) "mixed.obj" =
      .ok obj_mixed_normals_scene ∧ ¬ obj_mixed_normals_scene.attributes_parallel) :=
  ⟨⟨rfl, by decide⟩, ⟨rfl, by decide⟩⟩

/-! ## Instance references -/

/-- The instances of the node loop of `load_gltf`: each comes from a node of the list that
references a mesh. -/
theorem gltf_instances_inv (ex : Externals) (model : gltf_Model) (nids : List Int) :
    ∀ out, gltf_instances ex model nids = .ok out →
      ∀ i ∈ out, ∃ nid ∈ nids, ∃ n ∈ model.nodes[to_size_t nid]?, n.mesh ≠ -1 ∧
        i = ⟨ex.read_node_transform n, to_size_t n.mesh⟩ := by
  induction nids with
  | nil =>
    intro out h
    simp only [gltf_instances, pure, Except.pure, Except.ok.injEq] at h
    subst h
    intro i hi
    cases hi
  | cons nid rest ih =>
    intro out h
    unfold gltf_instances at h
    cases e : read_at model.nodes (to_size_t nid) with
    | error err => simp only [e, bind, Except.bind] at h; cases h
    | ok n =>
    cases e2 : gltf_instances ex model rest with
    | error err => simp only [e, e2, bind, Except.bind] at h; cases h
    | ok out2 =>
    simp only [e, e2, bind, Except.bind] at h
    have hn := (read_at_ok _ _ _).1 e
    have hrest : ∀ i ∈ out2, ∃ nid2 ∈ nid :: rest, ∃ n ∈ model.nodes[to_size_t nid2]?,
        n.mesh ≠ -1 ∧ i = ⟨ex.read_node_transform n, to_size_t n.mesh⟩ := by
      intro i hi
      obtain ⟨nid2, h2, r⟩ := ih out2 e2 i hi
      exact ⟨nid2, List.mem_cons_of_mem _ h2, r⟩
    by_cases hm : n.mesh ≠ -1
    · rw [if_pos hm] at h
      simp only [pure, Except.pure, Except.ok.injEq] at h
      subst h
      intro i hi
      rcases List.mem_cons.1 hi with hi | hi
      · exact ⟨nid, List.mem_cons_self _ _, n, hn, hm, hi⟩
      · exact hrest i hi
    · rw [if_neg hm] at h
      simp only [pure, Except.pure, Except.ok.injEq] at h
      subst h
      exact hrest

theorem to_size_t_le (i : Int) (h : 0 ≤ i) : (to_size_t i : Int) ≤ i := by
  unfold to_size_t
  omega

/-- C10, as amended: in a scene returned by `load_obj` or `load_pbrt` every instance has a
mesh id less than the number of meshes; `load_gltf` copies the mesh index of each node, and
the same holds for its scenes when every node of the default scene that references a mesh
references a mesh of the file. -/
theorem loaded_instances_valid (ex : Externals) (file : String) (s : Scene)
    (h : load_obj ex file = .ok s ∨
      (load_gltf ex file = .ok s ∧ gltf_nodes_in_range (gltf_parse ex file).model) ∨
      load_pbrt ex file = .ok s) :
    s.instances_valid := by
  rcases h with h | ⟨h, hr⟩ | h
  · obtain ⟨gs, _, hi, _, _, hm⟩ := load_obj_inv ex file s h
    intro i hi2
    rw [hi, List.mem_singleton] at hi2
    subst hi2
    rcases hm with ⟨_, hmesh, _⟩ | ⟨_, hmesh, _⟩ <;> rw [hmesh] <;> exact Nat.zero_lt_one
  · obtain ⟨hm, _, scene, _, _, hscene, hinst, _⟩ := load_gltf_inv ex file s h
    have hlen : s.meshes.length = (gltf_parse ex file).model.meshes.length :=
      (gltf_meshes_inv _ _ _ hm).length_eq.symm
    intro i hi
    obtain ⟨nid, hnid, n, hn, hmesh, rfl⟩ := gltf_instances_inv ex _ _ _ hinst i hi
    obtain ⟨h0, h1⟩ := hr scene ((read_at_ok _ _ _).1 hscene) nid hnid n hn hmesh
    have := to_size_t_le n.mesh h0
    show to_size_t n.mesh < s.meshes.length
    rw [hlen]
    omega
  · obtain ⟨world, _, hm, hi, _⟩ := load_pbrt_inv ex file s h
    intro i hi2
    rw [hi] at hi2
    rw [hm, List.length_map]
    exact (pbrt_loop_inv world.instances).2.2 i hi2

/-- Sample loads through the three adapters whose instances reference meshes of the scene. -/
theorem loaded_instances_valid_witness :
    (∃ s, load_obj (sample_externals sample_obj no_gltf .null) "quad.obj" = .ok s ∧
      s.instances_valid) ∧
    (∃ s, load_gltf (sample_externals no_obj gltf_triangle .null) "tri.gltf" = .ok s ∧
      s.instances_valid) ∧
    (∃ s, load_pbrt (sample_externals no_obj no_gltf pbrt_three_instances) "three.pbrt" = .ok s ∧
      s.instances_valid) := by
  obtain ⟨s1, h1⟩ := exists_of_isOk
    (load_obj (sample_externals sample_obj no_gltf .null) "quad.obj") (by decide)
  obtain ⟨s2, h2⟩ := exists_of_isOk
    (load_gltf (sample_externals no_obj gltf_triangle .null) "tri.gltf") (by decide)
  obtain ⟨s3, h3⟩ := exists_of_isOk
    (load_pbrt (sample_externals no_obj no_gltf pbrt_three_instances) "three.pbrt") (by decide)
  exact ⟨⟨s1, h1, loaded_instances_valid _ _ s1 (Or.inl h1)⟩,
    ⟨s2, h2, loaded_instances_valid _ _ s2 (Or.inr (Or.inl ⟨h2, by decide⟩))⟩,
    ⟨s3, h3, loaded_instances_valid _ _ s3 (Or.inr (Or.inr h3))⟩⟩

/-- C10 fails for `load_gltf`: a node that references mesh 3 of a file without meshes loads
as an instance with mesh id 3 in a scene without meshes. -/
theorem gltf_instance_out_of_range :
    load_gltf (sample_externals no_obj gltf_dangling_node .null) "node.gltf" =
      .ok gltf_dangling_node_scene ∧ ¬ gltf_dangling_node_scene.instances_valid :=
  ⟨rfl, by decide⟩

/-! ## The order of the vertex index map -/

theorem vert_idx_less_iff (a b : UVec3) :
    VertIdxLess a b = true ↔
      a.x < b.x ∨ (a.x = b.x ∧ (a.y < b.y ∨ (a.y = b.y ∧ a.z < b.z))) := by
  simp only [VertIdxLess, Bool.or_eq_true, Bool.and_eq_true, decide_eq_true_eq]
  constructor
  · rintro ((h | ⟨h1, h2⟩) | ⟨⟨h1, h2⟩, h3⟩)
    · exact Or.inl h
    · exact Or.inr ⟨h1, Or.inl h2⟩
    · exact Or.inr ⟨h1, Or.inr ⟨h2, h3⟩⟩
  · rintro (h | ⟨h1, h2 | ⟨h2, h3⟩⟩)
    · exact Or.inl (Or.inl h)
    · exact Or.inl (Or.inr ⟨h1, h2⟩)
    · exact Or.inr ⟨⟨h1, h2⟩, h3⟩

theorem uvec3_eq_iff (a b : UVec3) : uvec3_eq a b = true ↔ a = b := by
  cases a with | mk ax ay az =>
  cases b with | mk bx b2 bz =>
  simp only [uvec3_eq, Bool.and_eq_true, decide_eq_true_eq, UVec3.mk.injEq, and_assoc]

/-- C20: `VertIdxLess` is the strict lexicographic order on index triples: it compares the
components in the order x, y, z; it is irreflexive and transitive; of `less(a, b)`,
`a == b` and `less(b, a)` exactly one holds; and two triples are the same key of the map
(neither is less than the other) if and only if `operator==` holds, that is if and only if
their three components are equal. -/
theorem vert_idx_less_strict_order (a b c : UVec3) :
    (VertIdxLess a b = true ↔
      a.x < b.x ∨ (a.x = b.x ∧ (a.y < b.y ∨ (a.y = b.y ∧ a.z < b.z)))) ∧
    VertIdxLess a a = false ∧
    (VertIdxLess a b = true → VertIdxLess b c = true → VertIdxLess a c = true) ∧
    ((VertIdxLess a b = true ∨ uvec3_eq a b = true ∨ VertIdxLess b a = true) ∧
      ¬ (VertIdxLess a b = true ∧ uvec3_eq a b = true) ∧
      ¬ (VertIdxLess a b = true ∧ VertIdxLess b a = true) ∧
      ¬ (uvec3_eq a b = true ∧ VertIdxLess b a = true)) ∧
    (key_equiv a b = true ↔ uvec3_eq a b = true) ∧
    (uvec3_eq a b = true ↔ a.x = b.x ∧ a.y = b.y ∧ a.z = b.z) := by
  have hba := vert_idx_less_iff b a
  have hab := vert_idx_less_iff a b
  have hbc := vert_idx_less_iff b c
  have hac := vert_idx_less_iff a c
  have heq : uvec3_eq a b = true ↔ a.x = b.x ∧ a.y = b.y ∧ a.z = b.z := by
    simp only [uvec3_eq, Bool.and_eq_true, decide_eq_true_eq, and_assoc]
  refine ⟨hab, ?_, ?_, ⟨?_, ?_, ?_, ?_⟩, ?_, heq⟩
  · cases h : VertIdxLess a a with
    | false => rfl
    | true =>
      have := (vert_idx_less_iff a a).1 h
      omega
  · intro h1 h2
    rw [hab] at h1
    rw [hbc] at h2
    rw [hac]
    omega
  · by_cases h1 : VertIdxLess a b = true
    · exact Or.inl h1
    · by_cases h2 : VertIdxLess b a = true
      · exact Or.inr (Or.inr h2)
      · refine Or.inr (Or.inl ?_)
        rw [hab] at h1
        rw [hba] at h2
        rw [heq]
        omega
  · rintro ⟨h1, h2⟩
    rw [hab] at h1
    rw [heq] at h2
    omega
  · rintro ⟨h1, h2⟩
    rw [hab] at h1
    rw [hba] at h2
    omega
  · rintro ⟨h1, h2⟩
    rw [heq] at h1
    rw [hba] at h2
    omega
  · rw [key_equiv_iff, uvec3_eq_iff]

/-- The order on sample triples: `(1, 2, 3) < (1, 2, 4) < (1, 3, 0)`, hence
`(1, 2, 3) < (1, 3, 0)`. -/
theorem vert_idx_less_strict_order_witness :
    VertIdxLess ⟨1, 2, 3⟩ ⟨1, 3, 0⟩ = true :=
  (vert_idx_less_strict_order ⟨1, 2, 3⟩ ⟨1, 2, 4⟩ ⟨1, 3, 0⟩).2.2.1 (by decide) (by decide)

/-! ## Lights and the scene of load_obj -/

/-- C11: a scene returned by `load_obj`, `load_gltf` or `load_pbrt` has exactly one light;
its width and height are 5 and its emission is 5 on every channel; the three adapters
generate the same light; and the light does not depend on the file: two loads with the same
float operations give the same lights, whatever the files and the parsers return. -/
theorem loaded_light (ex ex2 : Externals) (file file2 : String) (s s2 : Scene)
    (h : load_obj ex file = .ok s ∨ load_gltf ex file = .ok s ∨ load_pbrt ex file = .ok s)
    (h2 : load_obj ex2 file2 = .ok s2 ∨ load_gltf ex2 file2 = .ok s2 ∨
      load_pbrt ex2 file2 = .ok s2)
    (hfl : ex.toFloatOps = ex2.toFloatOps) :
    (∃ l, s.lights = [l] ∧ l.width = 5 ∧ l.height = 5 ∧ l.emission = ⟨5, 5, 5, 5⟩) ∧
    (obj_light ex.toFloatOps = gltf_light ex.toFloatOps ∧
      gltf_light ex.toFloatOps = pbrt_light ex.toFloatOps) ∧
    s.lights = [obj_light ex.toFloatOps] ∧
    s.lights = s2.lights := by
  have key : ∀ (e : Externals) (f : String) (t : Scene),
      (load_obj e f = .ok t ∨ load_gltf e f = .ok t ∨ load_pbrt e f = .ok t) →
      t.lights = [obj_light e.toFloatOps] := by
    intro e f t ht
    rcases ht with ht | ht | ht
    · obtain ⟨_, _, _, hl, _⟩ := load_obj_inv e f t ht
      exact hl
    · obtain ⟨_, _, _, _, _, _, _, hl⟩ := load_gltf_inv e f t ht
      exact hl
    · obtain ⟨_, _, _, _, _, _, hl⟩ := load_pbrt_inv e f t ht
      exact hl
  refine ⟨⟨obj_light ex.toFloatOps, key ex file s h, rfl, rfl, rfl⟩, ⟨rfl, rfl⟩,
    key ex file s h, ?_⟩
  rw [key ex file s h, key ex2 file2 s2 h2, hfl]

/-- Sample loads through `load_obj` and `load_pbrt`: each scene has the one light, and the
lights of the two scenes are equal. -/
theorem loaded_light_witness :
    ∃ s s2, load_obj (sample_externals sample_obj no_gltf .null) "quad.obj" = .ok s ∧
      load_pbrt (sample_externals no_obj no_gltf pbrt_three_instances) "three.pbrt" = .ok s2 ∧
      (∃ l, s.lights = [l] ∧ l.width = 5 ∧ l.height = 5 ∧ l.emission = ⟨5, 5, 5, 5⟩) ∧
      s.lights = s2.lights := by
  obtain ⟨s1, h1⟩ := exists_of_isOk
    (load_obj (sample_externals sample_obj no_gltf .null) "quad.obj") (by decide)
  obtain ⟨s3, h3⟩ := exists_of_isOk
    (load_pbrt (sample_externals no_obj no_gltf pbrt_three_instances) "three.pbrt") (by decide)
  have h := loaded_light _ _ "quad.obj" "three.pbrt" s1 s3 (Or.inl h1) (Or.inr (Or.inr h3)) rfl
  exact ⟨s1, s3, h1, h3, h.1, h.2.2.2⟩

/-- C15: a scene returned by `load_obj` has exactly one mesh, whose geometries are, in
order, the geometries built from the shapes of the parse (with the default material id
assigned where the shape has none), so there are as many geometries as shapes; and exactly
one instance, with the identity transform and mesh id 0. -/
theorem load_obj_scene_shape (ex : Externals) (file : String) (s : Scene)
    (h : load_obj ex file = .ok s) :
    ∃ m, s.meshes = [m] ∧
      m.geometries.length = (obj_parse ex file).shapes.length ∧
      List.Forall₂ (fun shape g => ∃ g0,
          load_obj_shape ex.toFloatOps (obj_parse ex file).attrib file shape = .ok g0 ∧
          g.vertices = g0.vertices ∧ g.normals = g0.normals ∧ g.uvs = g0.uvs ∧
          g.indices = g0.indices ∧
          (g.material_id = g0.material_id ∨ g0.material_id = UINT32_MAX))
        (obj_parse ex file).shapes m.geometries ∧
      s.instances = [⟨Mat4.identity, 0⟩] := by
  obtain ⟨gs, hgs, hi, _, _, hm⟩ := load_obj_inv ex file s h
  have hf := load_obj_shapes_inv _ _ _ _ gs hgs
  rcases hm with ⟨_, hmesh, _⟩ | ⟨_, hmesh, _⟩
  · refine ⟨_, hmesh, ?_, ?_, hi⟩
    · simp [hf.length_eq]
    · rw [List.forall₂_map_right_iff]
      refine hf.imp ?_
      intro shape g0 hg0
      obtain ⟨e1, e2, e3, e4⟩ := assign_default_mat_vertices
        ((obj_materials ex file).materials.length % 4294967296) g0
      refine ⟨g0, hg0, e1, e3, e4, e2, ?_⟩
      unfold assign_default_mat
      by_cases hmax : g0.material_id = UINT32_MAX
      · exact Or.inr hmax
      · rw [if_neg hmax]
        exact Or.inl rfl
  · refine ⟨_, hmesh, hf.length_eq.symm, ?_, hi⟩
    refine hf.imp ?_
    intro shape g0 hg0
    exact ⟨g0, hg0, rfl, rfl, rfl, rfl, Or.inl rfl⟩

/-- The sample OBJ parse loads as one mesh of one geometry and one instance. -/
theorem load_obj_scene_shape_witness :
    ∃ s m, load_obj (sample_externals sample_obj no_gltf .null) "quad.obj" = .ok s ∧
      s.meshes = [m] ∧ m.geometries.length = 1 ∧ s.instances = [⟨Mat4.identity, 0⟩] := by
  obtain ⟨s1, h1⟩ := exists_of_isOk
    (load_obj (sample_externals sample_obj no_gltf .null) "quad.obj") (by decide)
  obtain ⟨m, hm, hl, _, hi⟩ := load_obj_scene_shape _ _ s1 h1
  exact ⟨s1, m, h1, hm, hl, hi⟩

/-! ## Index grouping and instances of load_gltf -/

theorem gltf_triangles_length (a : List Nat) : (gltf_triangles a).length = a.length / 3 := by
  simp [gltf_triangles]

theorem gltf_triangles_get (a : List Nat) (k : Nat) (hk : k < a.length / 3) :
    ∃ x y z, a[3 * k]? = some x ∧ a[3 * k + 1]? = some y ∧ a[3 * k + 2]? = some z ∧
      (gltf_triangles a)[k]? = some ⟨x, y, z⟩ := by
  have h0 : k * 3 < a.length := by omega
  have h1 : k * 3 + 1 < a.length := by omega
  have h2 : k * 3 + 2 < a.length := by omega
  have e : 3 * k = k * 3 := Nat.mul_comm 3 k
  refine ⟨a[k * 3], a[k * 3 + 1], a[k * 3 + 2], ?_, ?_, ?_, ?_⟩
  · rw [e]; exact List.getElem?_eq_getElem h0
  · rw [e]; exact List.getElem?_eq_getElem h1
  · rw [e]; exact List.getElem?_eq_getElem h2
  · unfold gltf_triangles
    rw [List.getElem?_map, List.getElem?_range hk]
    simp only [Option.map_some']
    rw [List.getD_eq_getElem _ _ h0, List.getD_eq_getElem _ _ h1, List.getD_eq_getElem _ _ h2]

/-- The body of the primitive loop succeeds on a triangle primitive whose accessor
references are in range and whose index component type is supported. -/
theorem gltf_primitive_ok (model : gltf_Model) (p : gltf_Primitive) (pos idx : gltf_Accessor)
    (uvs : List Vec2)
    (hmode : p.mode = TINYGLTF_MODE_TRIANGLES)
    (hpos : read_at model.accessors (to_size_t (gltf_attribute p.attributes "POSITION")) =
      .ok pos)
    (huv : gltf_uvs model p = .ok uvs)
    (hidx : read_at model.accessors (to_size_t p.indices) = .ok idx)
    (htype : idx.componentType = TINYGLTF_COMPONENT_TYPE_UNSIGNED_SHORT ∨
      idx.componentType = TINYGLTF_COMPONENT_TYPE_UNSIGNED_INT) :
    ∃ g, gltf_primitive model p = .ok g ∧ g.indices = gltf_triangles (gltf_index_view idx) := by
  unfold gltf_primitive gltf_index_view
  have hm : ¬ p.mode ≠ TINYGLTF_MODE_TRIANGLES := not_not.2 hmode
  rw [if_neg hm]
  simp only [bind, Except.bind, hpos, huv, hidx, pure, Except.pure]
  by_cases h16 : idx.componentType = TINYGLTF_COMPONENT_TYPE_UNSIGNED_SHORT
  · rw [if_pos h16, if_pos h16]
    exact ⟨_, rfl, rfl⟩
  · rw [if_neg h16, if_neg h16]
    have h32 := htype.resolve_left h16
    rw [if_pos h32]
    exact ⟨_, rfl, rfl⟩

/-- C17: a triangle primitive whose accessor references are in range and whose index
accessor has a supported component type loads, whatever the number `n` of its indices; the
geometry has `n / 3` triangles, triangle `k` is `(i[3k], i[3k+1], i[3k+2])`, so the last
`n mod 3` indices are not used; and a 16-bit and a 32-bit index accessor that hold the same
values give the same triangles. -/
theorem gltf_index_grouping (model : gltf_Model) (p : gltf_Primitive) (pos idx : gltf_Accessor)
    (uvs : List Vec2)
    (hmode : p.mode = TINYGLTF_MODE_TRIANGLES)
    (hpos : read_at model.accessors (to_size_t (gltf_attribute p.attributes "POSITION")) =
      .ok pos)
    (huv : gltf_uvs model p = .ok uvs)
    (hidx : read_at model.accessors (to_size_t p.indices) = .ok idx)
    (htype : idx.componentType = TINYGLTF_COMPONENT_TYPE_UNSIGNED_SHORT ∨
      idx.componentType = TINYGLTF_COMPONENT_TYPE_UNSIGNED_INT) :
    (∃ g, gltf_primitive model p = .ok g ∧
      g.indices.length = (gltf_index_view idx).length / 3 ∧
      (∀ k, k < (gltf_index_view idx).length / 3 →
        ∃ x y z, (gltf_index_view idx)[3 * k]? = some x ∧
          (gltf_index_view idx)[3 * k + 1]? = some y ∧
          (gltf_index_view idx)[3 * k + 2]? = some z ∧
          g.indices[k]? = some ⟨x, y, z⟩)) ∧
    (∀ (model2 : gltf_Model) (p2 : gltf_Primitive) (idx2 : gltf_Accessor) (g g2 : Geometry),
      gltf_primitive model p = .ok g → gltf_primitive model2 p2 = .ok g2 →
      read_at model2.accessors (to_size_t p2.indices) = .ok idx2 →
      idx.componentType = TINYGLTF_COMPONENT_TYPE_UNSIGNED_SHORT →
      idx2.componentType = TINYGLTF_COMPONENT_TYPE_UNSIGNED_INT →
      idx.u16_view = idx2.u32_view → g.indices = g2.indices) := by
  obtain ⟨g, hg, hi⟩ := gltf_primitive_ok model p pos idx uvs hmode hpos huv hidx htype
  refine ⟨⟨g, hg, ?_, ?_⟩, ?_⟩
  · rw [hi, gltf_triangles_length]
  · intro k hk
    rw [hi]
    exact gltf_triangles_get _ k hk
  · intro model2 p2 idx2 g1 g2 h1 h2 hidx2 h16 h32 hview
    rw [hg] at h1
    cases h1
    obtain ⟨_, _, _, idx3, _, _, e3, _, _, _, _, hind⟩ := gltf_primitive_inv model2 p2 g2 h2
    rw [hidx2] at e3
    cases e3
    have hne : ¬ idx2.componentType = TINYGLTF_COMPONENT_TYPE_UNSIGNED_SHORT := by
      rw [h32]; decide
    rcases hind with ⟨hc, _⟩ | ⟨_, hind⟩
    · exact absurd hc hne
    · rw [hi, hind, gltf_index_view, if_pos h16, hview]

/-- The primitive of `gltf_seven_indices`: seven indices load as two triangles. -/
theorem gltf_index_grouping_witness :
    ∃ g, gltf_primitive gltf_seven_indices.model ⟨[("POSITION", 0)], -1, 1, 4⟩ = .ok g ∧
      g.indices.length = 7 / 3 :=
  match (gltf_index_grouping gltf_seven_indices.model ⟨[("POSITION", 0)], -1, 1, 4⟩
    ⟨5126, [⟨0, 0, 0⟩, ⟨1, 0, 0⟩, ⟨0, 1, 0⟩, ⟨1, 1, 0⟩], [], [], []⟩
    ⟨5123, [], [], [0, 1, 2, 2, 1, 3, 0], []⟩ [] rfl rfl rfl rfl (Or.inl rfl)).1 with
  | ⟨g, hg, hl, _⟩ => ⟨g, hg, hl⟩

theorem gltf_instances_eq (ex : Externals) (model : gltf_Model) (nids : List Int) :
    ∀ out, gltf_instances ex model nids = .ok out →
      (∀ nid ∈ nids, ∃ n, model.nodes[to_size_t nid]? = some n) ∧
      out = ((nids.filterMap (fun nid => model.nodes[to_size_t nid]?)).filter
        (fun n => decide (n.mesh ≠ -1))).map
          (fun n => ⟨ex.read_node_transform n, to_size_t n.mesh⟩) := by
  induction nids with
  | nil =>
    intro out h
    simp only [gltf_instances, pure, Except.pure, Except.ok.injEq] at h
    subst h
    simp
  | cons nid rest ih =>
    intro out h
    unfold gltf_instances at h
    cases e : read_at model.nodes (to_size_t nid) with
    | error err => simp only [e, bind, Except.bind] at h; cases h
    | ok n =>
    cases e2 : gltf_instances ex model rest with
    | error err => simp only [e, e2, bind, Except.bind] at h; cases h
    | ok out2 =>
    simp only [e, e2, bind, Except.bind] at h
    have hn := (read_at_ok _ _ _).1 e
    obtain ⟨hall, hout⟩ := ih out2 e2
    refine ⟨?_, ?_⟩
    · intro nid2 h2
      rcases List.mem_cons.1 h2 with h2 | h2
      · subst h2; exact ⟨n, hn⟩
      · exact hall nid2 h2
    · by_cases hm : n.mesh ≠ -1
      · rw [if_pos hm] at h
        simp only [pure, Except.pure, Except.ok.injEq] at h
        subst h
        simp [List.filterMap_cons, hn, List.filter, hm, hout]
      · rw [if_neg hm] at h
        simp only [pure, Except.pure, Except.ok.injEq] at h
        subst h
        simp [List.filterMap_cons, hn, List.filter, hm, hout]

/-- C18: the instances of a scene returned by `load_gltf` are exactly, in order, one per
entry of the node list of the default scene whose node references a mesh (`mesh != -1`),
with the transform of that node and its mesh index converted to `size_t`; every entry of
the node list names a node, entries without a mesh and nodes that are not listed give no
instance, and the number of instances is the number of entries that reference a mesh. -/
theorem gltf_instance_list (ex : Externals) (fname : String) (s : Scene)
    (h : load_gltf ex fname = .ok s) :
    ∃ scene, (gltf_parse ex fname).model.scenes[to_size_t
        (gltf_parse ex fname).model.defaultScene]? = some scene ∧
      (gltf_scene_nodes (gltf_parse ex fname).model scene).length = scene.nodes.length ∧
      s.instances = ((gltf_scene_nodes (gltf_parse ex fname).model scene).filter
        (fun n => decide (n.mesh ≠ -1))).map
          (fun n => ⟨ex.read_node_transform n, to_size_t n.mesh⟩) ∧
      s.instances.length = ((gltf_scene_nodes (gltf_parse ex fname).model scene).filter
        (fun n => decide (n.mesh ≠ -1))).length ∧
      (∀ n : gltf_Node, 0 ≤ n.mesh → is_int32 n.mesh → (to_size_t n.mesh : Int) = n.mesh) := by
  obtain ⟨_, _, scene, _, _, hscene, hinst, _⟩ := load_gltf_inv ex fname s h
  obtain ⟨hall, hout⟩ := gltf_instances_eq ex _ _ _ hinst
  refine ⟨scene, (read_at_ok _ _ _).1 hscene, ?_, hout, ?_, ?_⟩
  · unfold gltf_scene_nodes
    generalize scene.nodes = nids at hall
    induction nids with
    | nil => rfl
    | cons nid rest ih =>
      obtain ⟨n, hn⟩ := hall nid (List.mem_cons_self _ _)
      simp only [List.filterMap_cons, hn, List.length_cons]
      rw [ih (fun x hx => hall x (List.mem_cons_of_mem _ hx))]
  · rw [hout, List.length_map]
    rfl
  · intro n h0 hi
    unfold to_size_t
    unfold is_int32 at hi
    omega

/-- The default scene of `gltf_seven_indices` lists three entries, two of which reference
a mesh: the load gives two instances. -/
theorem gltf_instance_list_witness :
    ∃ s, load_gltf (sample_externals no_obj gltf_seven_indices .null) "seven.gltf" = .ok s ∧
      s.instances.length = 2 := by
  obtain ⟨s, hs⟩ := exists_of_isOk
    (load_gltf (sample_externals no_obj gltf_seven_indices .null) "seven.gltf") (by decide)
  obtain ⟨scene, hscene, _, _, hlen, _⟩ := gltf_instance_list _ _ s hs
  have e : scene = ⟨"scene", [1, 0, 0]⟩ := by
    have : (gltf_parse (sample_externals no_obj gltf_seven_indices .null) "seven.gltf").model.scenes[
      to_size_t (gltf_parse (sample_externals no_obj gltf_seven_indices .null)
        "seven.gltf").model.defaultScene]? = some ⟨"scene", [1, 0, 0]⟩ := by decide
    rw [this] at hscene
    exact (Option.some.inj hscene).symm
  subst e
  exact ⟨s, hs, hlen⟩

/-! ## Fatal conditions of load_gltf -/

theorem gltf_uvs_ok (model : gltf_Model) (p : gltf_Primitive)
    (hr : gltf_primitive_refs model p) : ∃ uvs, gltf_uvs model p = .ok uvs := by
  unfold gltf_uvs
  cases hf : p.attributes.find "TEXCOORD_0" with
  | none => exact ⟨_, rfl⟩
  | some i =>
    have hi := hr.2.1 i hf
    simp only [read_at_of_lt _ _ hi, bind, Except.bind, pure, Except.pure]
    exact ⟨_, rfl⟩

theorem gltf_primitive_total (model : gltf_Model) (p : gltf_Primitive)
    (hr : gltf_primitive_refs model p) :
    (gltf_primitive_fatal model p → is_thrown (gltf_primitive model p)) ∧
    (¬ gltf_primitive_fatal model p → ∃ g, gltf_primitive model p = .ok g) := by
  obtain ⟨uvs, huv⟩ := gltf_uvs_ok model p hr
  have hpos := read_at_of_lt _ _ hr.1
  have hidx := read_at_of_lt _ _ hr.2.2
  have hget : model.accessors[to_size_t p.indices]? =
      some (model.accessors.get ⟨to_size_t p.indices, hr.2.2⟩) :=
    List.getElem?_eq_getElem hr.2.2
  by_cases hm : p.mode ≠ TINYGLTF_MODE_TRIANGLES
  · refine ⟨fun _ => ?_, fun hn => absurd (Or.inl hm) hn⟩
    unfold gltf_primitive
    rw [if_pos hm]
    exact ⟨"Unsupported primitive mode! Only triangles are supported", rfl⟩
  · by_cases ht : (model.accessors.get ⟨to_size_t p.indices, hr.2.2⟩).componentType =
        TINYGLTF_COMPONENT_TYPE_UNSIGNED_SHORT ∨
      (model.accessors.get ⟨to_size_t p.indices, hr.2.2⟩).componentType =
        TINYGLTF_COMPONENT_TYPE_UNSIGNED_INT
    · refine ⟨?_, fun _ => ?_⟩
      · rintro (h | ⟨idx, hidx2, h1, h2⟩)
        · exact absurd h hm
        · rw [Option.mem_def, hget] at hidx2
          cases hidx2
          rcases ht with ht | ht
          · exact absurd ht h1
          · exact absurd ht h2
      · obtain ⟨g, hg, _⟩ := gltf_primitive_ok model p _ _ uvs (not_not.1 hm) hpos huv hidx ht
        exact ⟨g, hg⟩
    · refine ⟨fun _ => ?_, fun hn => ?_⟩
      · unfold gltf_primitive
        rw [if_neg hm]
        simp only [bind, Except.bind, hpos, huv, hidx, pure, Except.pure]
        rw [if_neg (fun h => ht (Or.inl h)), if_neg (fun h => ht (Or.inr h))]
        exact ⟨"Unsupported index component type", rfl⟩
      · exfalso
        apply hn
        refine Or.inr ⟨_, hget, fun h => ht (Or.inl h), fun h => ht (Or.inr h)⟩

theorem gltf_primitives_total (model : gltf_Model) (ps : List gltf_Primitive)
    (hr : ∀ p ∈ ps, gltf_primitive_refs model p) :
    ((∃ p ∈ ps, gltf_primitive_fatal model p) → is_thrown (gltf_primitives model ps)) ∧
    ((¬ ∃ p ∈ ps, gltf_primitive_fatal model p) → ∃ gs, gltf_primitives model ps = .ok gs) := by
  induction ps with
  | nil =>
    refine ⟨?_, fun _ => ⟨[], rfl⟩⟩
    rintro ⟨p, hp, _⟩
    cases hp
  | cons p rest ih =>
    obtain ⟨ih1, ih2⟩ := ih (fun q hq => hr q (List.mem_cons_of_mem _ hq))
    obtain ⟨t1, t2⟩ := gltf_primitive_total model p (hr p (List.mem_cons_self _ _))
    by_cases hf : gltf_primitive_fatal model p
    · obtain ⟨msg, hmsg⟩ := t1 hf
      refine ⟨fun _ => ⟨msg, ?_⟩, fun hn => absurd ⟨p, List.mem_cons_self _ _, hf⟩ hn⟩
      simp only [gltf_primitives, bind, Except.bind, hmsg]
    · obtain ⟨g, hg⟩ := t2 hf
      by_cases hrest : ∃ q ∈ rest, gltf_primitive_fatal model q
      · obtain ⟨msg, hmsg⟩ := ih1 hrest
        refine ⟨fun _ => ⟨msg, ?_⟩, fun hn => ?_⟩
        · simp only [gltf_primitives, bind, Except.bind, hg, hmsg]
        · obtain ⟨q, hq, hqf⟩ := hrest
          exact absurd ⟨q, List.mem_cons_of_mem _ hq, hqf⟩ hn
      · obtain ⟨gs, hgs⟩ := ih2 hrest
        refine ⟨?_, fun _ => ⟨g :: gs, ?_⟩⟩
        · rintro ⟨q, hq, hqf⟩
          rcases List.mem_cons.1 hq with hq | hq
          · subst hq; exact absurd hqf hf
          · exact absurd ⟨q, hq, hqf⟩ hrest
        · simp only [gltf_primitives, bind, Except.bind, hg, hgs, pure, Except.pure]

theorem gltf_meshes_total (model : gltf_Model) (ms : List gltf_Mesh)
    (hr : ∀ m ∈ ms, ∀ p ∈ m.primitives, gltf_primitive_refs model p) :
    ((∃ m ∈ ms, ∃ p ∈ m.primitives, gltf_primitive_fatal model p) →
      is_thrown (gltf_meshes model ms)) ∧
    ((¬ ∃ m ∈ ms, ∃ p ∈ m.primitives, gltf_primitive_fatal model p) →
      ∃ out, gltf_meshes model ms = .ok out) := by
  induction ms with
  | nil =>
    refine ⟨?_, fun _ => ⟨[], rfl⟩⟩
    rintro ⟨m, hm, _⟩
    cases hm
  | cons m rest ih =>
    obtain ⟨ih1, ih2⟩ := ih (fun q hq => hr q (List.mem_cons_of_mem _ hq))
    obtain ⟨t1, t2⟩ := gltf_primitives_total model m.primitives (hr m (List.mem_cons_self _ _))
    by_cases hf : ∃ p ∈ m.primitives, gltf_primitive_fatal model p
    · obtain ⟨msg, hmsg⟩ := t1 hf
      refine ⟨fun _ => ⟨msg, ?_⟩, fun hn => absurd ⟨m, List.mem_cons_self _ _, hf⟩ hn⟩
      simp only [gltf_meshes, bind, Except.bind, hmsg]
    · obtain ⟨g, hg⟩ := t2 hf
      by_cases hrest : ∃ q ∈ rest, ∃ p ∈ q.primitives, gltf_primitive_fatal model p
      · obtain ⟨msg, hmsg⟩ := ih1 hrest
        refine ⟨fun _ => ⟨msg, ?_⟩, fun hn => ?_⟩
        · simp only [gltf_meshes, bind, Except.bind, hg, hmsg]
        · obtain ⟨q, hq, hqf⟩ := hrest
          exact absurd ⟨q, List.mem_cons_of_mem _ hq, hqf⟩ hn
      · obtain ⟨gs, hgs⟩ := ih2 hrest
        refine ⟨?_, fun _ => ⟨⟨g⟩ :: gs, ?_⟩⟩
        · rintro ⟨q, hq, hqf⟩
          rcases List.mem_cons.1 hq with hq | hq
          · subst hq; exact absurd hqf hf
          · exact absurd ⟨q, hq, hqf⟩ hrest
        · simp only [gltf_meshes, bind, Except.bind, hg, hgs, pure, Except.pure]

theorem gltf_images_total (imgs : List gltf_Image) :
    ((∃ img ∈ imgs, img.pixel_type ≠ TINYGLTF_COMPONENT_TYPE_UNSIGNED_BYTE) →
      is_thrown (gltf_images imgs)) ∧
    ((¬ ∃ img ∈ imgs, img.pixel_type ≠ TINYGLTF_COMPONENT_TYPE_UNSIGNED_BYTE) →
      ∃ out, gltf_images imgs = .ok out) := by
  induction imgs with
  | nil =>
    refine ⟨?_, fun _ => ⟨[], rfl⟩⟩
    rintro ⟨m, hm, _⟩
    cases hm
  | cons img rest ih =>
    obtain ⟨ih1, ih2⟩ := ih
    by_cases hf : img.pixel_type ≠ TINYGLTF_COMPONENT_TYPE_UNSIGNED_BYTE
    · refine ⟨fun _ => ⟨"Unsupported image pixel type", ?_⟩,
        fun hn => absurd ⟨img, List.mem_cons_self _ _, hf⟩ hn⟩
      unfold gltf_images
      rw [if_pos hf]
      rfl
    · by_cases hrest : ∃ q ∈ rest, q.pixel_type ≠ TINYGLTF_COMPONENT_TYPE_UNSIGNED_BYTE
      · obtain ⟨msg, hmsg⟩ := ih1 hrest
        refine ⟨fun _ => ⟨msg, ?_⟩, fun hn => ?_⟩
        · unfold gltf_images
          rw [if_neg hf]
          simp only [bind, Except.bind, hmsg, pure, Except.pure]
        · obtain ⟨q, hq, hqf⟩ := hrest
          exact absurd ⟨q, List.mem_cons_of_mem _ hq, hqf⟩ hn
      · obtain ⟨out, hout⟩ := ih2 hrest
        refine ⟨?_, fun _ => ⟨⟨img.name, img.width, img.height, img.component, img.image,
          .LINEAR⟩ :: out, ?_⟩⟩
        · rintro ⟨q, hq, hqf⟩
          rcases List.mem_cons.1 hq with hq | hq
          · subst hq; exact absurd hqf hf
          · exact absurd ⟨q, hq, hqf⟩ hrest
        · unfold gltf_images
          rw [if_neg hf]
          simp only [bind, Except.bind, hout, pure, Except.pure]

theorem gltf_material_ok (model : gltf_Model) (textures : List Image) (m : gltf_Material)
    (hl : textures.length = model.images.length) (hr : gltf_material_refs model m) :
    ∃ r, gltf_material model textures m = .ok r ∧ r.1.length = textures.length := by
  obtain ⟨h3, ht⟩ := hr
  have h0 : 0 < m.baseColorFactor.length := by omega
  have h1 : 1 < m.baseColorFactor.length := by omega
  have h2 : 2 < m.baseColorFactor.length := by omega
  unfold gltf_material
  simp only [read_at_of_lt _ _ h0, read_at_of_lt _ _ h1, read_at_of_lt _ _ h2, bind,
    Except.bind]
  by_cases hi : m.baseColorTexture_index ≠ -1
  · rw [if_pos hi]
    obtain ⟨tex, htex, hsrc⟩ := ht hi
    rw [(read_at_ok _ _ _).2 htex]
    have hs : to_size_t tex.source < textures.length := by rw [hl]; exact hsrc
    simp only [set_srgb, List.getElem?_eq_getElem hs, pure, Except.pure]
    exact ⟨_, rfl, by simp⟩
  · rw [if_neg hi]
    exact ⟨_, rfl, rfl⟩

theorem gltf_materials_ok (model : gltf_Model) (ms : List gltf_Material) :
    ∀ (textures : List Image) (mats : List DisneyMaterial),
      textures.length = model.images.length → (∀ m ∈ ms, gltf_material_refs model m) →
      ∃ r, gltf_materials model textures mats ms = .ok r := by
  induction ms with
  | nil => intro textures mats _ _; exact ⟨_, rfl⟩
  | cons m rest ih =>
    intro textures mats hl hr
    obtain ⟨⟨t1, mat⟩, e, hl1⟩ := gltf_material_ok model textures m hl
      (hr m (List.mem_cons_self _ _))
    obtain ⟨r, hr2⟩ := ih t1 (mats ++ [mat]) (hl1.trans hl)
      (fun q hq => hr q (List.mem_cons_of_mem _ hq))
    refine ⟨r, ?_⟩
    simp only [gltf_materials, bind, Except.bind, e]
    exact hr2

theorem gltf_instances_ok (ex : Externals) (model : gltf_Model) (nids : List Int)
    (hr : ∀ nid ∈ nids, to_size_t nid < model.nodes.length) :
    ∃ out, gltf_instances ex model nids = .ok out := by
  induction nids with
  | nil => exact ⟨_, rfl⟩
  | cons nid rest ih =>
    obtain ⟨out, hout⟩ := ih (fun q hq => hr q (List.mem_cons_of_mem _ hq))
    have hn := read_at_of_lt _ _ (hr nid (List.mem_cons_self _ _))
    unfold gltf_instances
    simp only [hn, hout, bind, Except.bind]
    split
    · exact ⟨_, rfl⟩
    · exact ⟨_, rfl⟩

/-- C16, as amended: given a successful parse in which every reference `load_gltf` follows
is in range (the accessor references of the primitives, three base colour factors, the base
colour texture of a material and the image it names, the default scene and the nodes it
lists), the load throws if some primitive's mode is not triangles, or some primitive's index
accessor has a component type other than unsigned short and unsigned int, or some image's
pixel type is not unsigned byte; otherwise it returns a scene with one mesh per glTF mesh,
one geometry per primitive and one texture per image; so it fails exactly in the three
cases. -/
theorem load_gltf_fatal (ex : Externals) (fname : String)
    (hret : (gltf_parse ex fname).ret = true) (herr : (gltf_parse ex fname).err = "")
    (hrefs : gltf_refs_in_range (gltf_parse ex fname).model) :
    (gltf_fatal (gltf_parse ex fname).model → is_thrown (load_gltf ex fname)) ∧
    (¬ gltf_fatal (gltf_parse ex fname).model →
      ∃ s, load_gltf ex fname = .ok s ∧
        List.Forall₂ (fun gm m => m.geometries.length = gm.primitives.length)
          (gltf_parse ex fname).model.meshes s.meshes ∧
        s.textures.length = (gltf_parse ex fname).model.images.length) ∧
    ((¬ ∃ s, load_gltf ex fname = .ok s) ↔ gltf_fatal (gltf_parse ex fname).model) := by
  obtain ⟨hprim, hmat, scene, hscene, hnodes⟩ := hrefs
  have hp : ¬ ((gltf_parse ex fname).ret = false ∨ (gltf_parse ex fname).err ≠ "") := by
    rw [hret, herr]; simp
  obtain ⟨m1, m2⟩ := gltf_meshes_total _ _ hprim
  obtain ⟨i1, i2⟩ := gltf_images_total (gltf_parse ex fname).model.images
  have hthrown : gltf_fatal (gltf_parse ex fname).model → is_thrown (load_gltf ex fname) := by
    intro hf
    unfold load_gltf
    rw [if_neg hp]
    by_cases hmf : ∃ m ∈ (gltf_parse ex fname).model.meshes, ∃ p ∈ m.primitives,
        gltf_primitive_fatal (gltf_parse ex fname).model p
    · obtain ⟨msg, hmsg⟩ := m1 hmf
      exact ⟨msg, by simp only [bind, Except.bind, hmsg, pure, Except.pure]⟩
    · obtain ⟨meshes, hmeshes⟩ := m2 hmf
      obtain ⟨msg, hmsg⟩ := i1 (hf.resolve_left hmf)
      exact ⟨msg, by simp only [bind, Except.bind, hmeshes, hmsg, pure, Except.pure]⟩
  have hok : ¬ gltf_fatal (gltf_parse ex fname).model → ∃ s, load_gltf ex fname = .ok s := by
    intro hf
    obtain ⟨meshes, hmeshes⟩ := m2 (fun h => hf (Or.inl h))
    obtain ⟨textures, htextures⟩ := i2 (fun h => hf (Or.inr h))
    obtain ⟨⟨t1, mats⟩, hmats⟩ := gltf_materials_ok _ _ textures []
      (gltf_images_inv _ _ htextures).1 hmat
    obtain ⟨insts, hinsts⟩ := gltf_instances_ok ex _ scene.nodes hnodes
    refine ⟨⟨meshes, insts, mats, t1, [gltf_light ex.toFloatOps]⟩, ?_⟩
    unfold load_gltf
    rw [if_neg hp]
    simp only [bind, Except.bind, hmeshes, htextures, hmats, (read_at_ok _ _ _).2 hscene,
      hinsts, pure, Except.pure]
  refine ⟨hthrown, ?_, ?_⟩
  · intro hf
    obtain ⟨s, hs⟩ := hok hf
    obtain ⟨_, textures0, _, himg, hm, _⟩ := load_gltf_inv ex fname s hs
    refine ⟨s, hs, load_gltf_meshes ex fname s hs, ?_⟩
    rw [(gltf_materials_inv _ _ _ _ _ _ hm).1, (gltf_images_inv _ _ himg).1]
  · constructor
    · intro hn
      by_contra hf
      exact hn (hok hf)
    · rintro hf ⟨s, hs⟩
      obtain ⟨msg, hmsg⟩ := hthrown hf
      rw [hmsg] at hs
      cases hs

/-- The triangle model loads as one mesh; the line-list model throws. -/
theorem load_gltf_fatal_witness :
    (∃ s, load_gltf (sample_externals no_obj gltf_triangle .null) "tri.gltf" = .ok s ∧
      s.textures.length = 0) ∧
    is_thrown (load_gltf (sample_externals no_obj gltf_lines .null) "lines.gltf") :=
  ⟨match (load_gltf_fatal (sample_externals no_obj gltf_triangle .null) "tri.gltf"
      rfl rfl (by decide)).2.1 (by decide) with
    | ⟨s, hs, _, ht⟩ => ⟨s, hs, ht⟩,
    (load_gltf_fatal (sample_externals no_obj gltf_lines .null) "lines.gltf"
      rfl rfl (by decide)).1 (by decide)⟩

/-- C16 fails: the accessor references of `gltf_no_default_scene` are in range and none of
the three conditions holds, but the model has no default scene and the load does not return
a scene: it reads `model.scenes[-1]`. -/
theorem gltf_no_default_scene_fails :
    (gltf_no_default_scene.ret = true ∧ gltf_no_default_scene.err = "") ∧
    (∀ m ∈ gltf_no_default_scene.model.meshes, ∀ p ∈ m.primitives,
      gltf_primitive_refs gltf_no_default_scene.model p) ∧
    ¬ gltf_fatal gltf_no_default_scene.model ∧
    load_gltf (sample_externals no_obj gltf_no_default_scene .null) "tri.gltf" =
      .error .out_of_range :=
  ⟨⟨rfl, rfl⟩, by decide, by decide, rfl⟩

/-! ## Non-triangular faces -/

theorem exists_first {α : Type} (P : α → Prop) (l : List α) (h : ∃ x ∈ l, P x) :
    ∃ pre b post, l = pre ++ b :: post ∧ (∀ x ∈ pre, ¬ P x) ∧ P b := by
  induction l with
  | nil =>
    obtain ⟨x, hx, _⟩ := h
    cases hx
  | cons a rest ih =>
    by_cases ha : P a
    · exact ⟨[], a, rest, rfl, (fun x hx => by cases hx), ha⟩
    · obtain ⟨x, hx, hpx⟩ := h
      rcases List.mem_cons.1 hx with hx | hx
      · subst hx; exact absurd hpx ha
      · obtain ⟨pre, b, post, e, hpre, hb⟩ := ih ⟨x, hx, hpx⟩
        refine ⟨a :: pre, b, post, by rw [e]; rfl, ?_, hb⟩
        intro y hy
        rcases List.mem_cons.1 hy with hy | hy
        · subst hy; exact ha
        · exact hpre y hy

theorem obj_face_throws (fl : FloatOps) (attrib : attrib_t) (file : String) (shape : shape_t)
    (st : ShapeState) (f n : Nat) (hn : shape.mesh.num_face_vertices[f]? = some n)
    (h3 : n ≠ 3) :
    obj_face fl attrib file shape st f = .error (.runtime_error (non_triangle_message file shape)) := by
  unfold obj_face
  rw [(read_at_ok _ _ _).2 hn]
  simp only [bind, Except.bind, h3, ne_eq, not_false_eq_true, if_true]
  rfl

theorem obj_face_ok_at (fl : FloatOps) (attrib : attrib_t) (file : String) (shape : shape_t)
    (st : ShapeState) (f : Nat) (hn : shape.mesh.num_face_vertices[f]? = some 3)
    (h2 : f * 3 + 2 < shape.mesh.indices.length)
    (hrange : ∀ c ∈ shape.mesh.indices, corner_in_range attrib c) :
    ∃ st1, obj_face fl attrib file shape st f = .ok st1 := by
  have h0 : f * 3 < shape.mesh.indices.length := by omega
  have h1 : f * 3 + 1 < shape.mesh.indices.length := by omega
  obtain ⟨⟨st0, t0⟩, e0⟩ := obj_corner_ok fl attrib st (shape.mesh.indices.get ⟨f * 3, h0⟩)
    (hrange _ (List.get_mem _ _ _))
  obtain ⟨⟨st1, t1⟩, e1⟩ := obj_corner_ok fl attrib st0
    (shape.mesh.indices.get ⟨f * 3 + 1, h1⟩) (hrange _ (List.get_mem _ _ _))
  obtain ⟨⟨st2, t2⟩, e2⟩ := obj_corner_ok fl attrib st1
    (shape.mesh.indices.get ⟨f * 3 + 2, h2⟩) (hrange _ (List.get_mem _ _ _))
  refine ⟨{ st2 with geom := { st2.geom with indices := st2.geom.indices ++ [⟨t0, t1, t2⟩] } },
    ?_⟩
  simp only [obj_face, (read_at_ok _ _ _).2 hn, read_at_of_lt _ _ h0, read_at_of_lt _ _ h1,
    read_at_of_lt _ _ h2]
  simp only [bind, Except.bind, e0, e1, e2]
  rfl

/-- The face loop over faces that are triangles with their corners in `indices`, followed
by a face that is not a triangle, throws. -/
theorem obj_faces_throws (fl : FloatOps) (attrib : attrib_t) (file : String) (shape : shape_t)
    (hrange : ∀ c ∈ shape.mesh.indices, corner_in_range attrib c)
    (pre : List Nat) (b n : Nat) (post : List Nat)
    (hb : shape.mesh.num_face_vertices[b]? = some n) (h3 : n ≠ 3) :
    ∀ st : ShapeState,
      (∀ f ∈ pre, shape.mesh.num_face_vertices[f]? = some 3 ∧
        f * 3 + 2 < shape.mesh.indices.length) →
      obj_faces fl attrib file shape st (pre ++ b :: post) =
        .error (.runtime_error (non_triangle_message file shape)) := by
  induction pre with
  | nil =>
    intro st _
    simp only [List.nil_append, obj_faces, bind, Except.bind,
      obj_face_throws fl attrib file shape st b n hb h3]
  | cons f rest ih =>
    intro st hpre
    obtain ⟨hn, h2⟩ := hpre f (List.mem_cons_self _ _)
    obtain ⟨st1, e⟩ := obj_face_ok_at fl attrib file shape st f hn h2 hrange
    simp only [List.cons_append, obj_faces, bind, Except.bind, e]
    exact ih st1 (fun g hg => hpre g (List.mem_cons_of_mem _ hg))

theorem sum_of_all_three (l : List Nat) (h : ∀ x ∈ l, x = 3) : l.sum = 3 * l.length := by
  induction l with
  | nil => rfl
  | cons a rest ih =>
    rw [List.sum_cons, List.length_cons, h a (List.mem_cons_self _ _),
      ih (fun x hx => h x (List.mem_cons_of_mem _ hx))]
    omega

/-- The shape loop body throws for a well-formed shape with a face that is not a triangle. -/
theorem load_obj_shape_throws (fl : FloatOps) (attrib : attrib_t) (file : String)
    (shape : shape_t) (hwf : obj_shape_wf attrib shape) (hbad : shape.has_non_triangle) :
    load_obj_shape fl attrib file shape =
      .error (.runtime_error (non_triangle_message file shape)) := by
  obtain ⟨hface, hlen, hrange⟩ := hwf
  obtain ⟨pre, n, post, e, hpre, hn⟩ :=
    exists_first (fun n => n ≠ 3) shape.mesh.num_face_vertices hbad
  have hpre3 : ∀ x ∈ pre, x = 3 := fun x hx => not_not.1 (hpre x hx)
  have hsum : shape.mesh.indices.length = 3 * pre.length + n + post.sum := by
    rw [hlen, e, List.sum_append, List.sum_cons, sum_of_all_three pre hpre3]
    omega
  have hF : shape.mesh.num_face_vertices.length = pre.length + (post.length + 1) := by
    rw [e, List.length_append, List.length_cons]
  have hrange2 : List.range shape.mesh.num_face_vertices.length =
      List.range pre.length ++ pre.length :: (List.range post.length).map
        (fun i => pre.length + (i + 1)) := by
    rw [hF, List.range_add, List.range_succ_eq_map, List.map_cons, List.map_map]
    rfl
  have hb : shape.mesh.num_face_vertices[pre.length]? = some n := by
    rw [e, List.getElem?_append_right (le_refl _), Nat.sub_self, List.getElem?_cons_zero]
  have hgood : ∀ f ∈ List.range pre.length,
      shape.mesh.num_face_vertices[f]? = some 3 ∧ f * 3 + 2 < shape.mesh.indices.length := by
    intro f hf
    have hf2 : f < pre.length := List.mem_range.1 hf
    refine ⟨?_, by omega⟩
    rw [e, List.getElem?_append_left hf2, List.getElem?_eq_getElem hf2]
    exact congrArg some (hpre3 _ (List.getElem_mem _))
  cases hm : shape.mesh.material_ids with
  | nil => exact absurd hm hface
  | cons m0 ms =>
    simp only [load_obj_shape, hm, read_at, List.getElem?_cons_zero, obj_minmax_matid, bind,
      Except.bind, pure, Except.pure, hrange2]
    rw [obj_faces_throws fl attrib file shape hrange _ _ n _ hb hn _ hgood]

/-- The shape loop over well-formed shapes: it returns the geometries when every face is a
triangle, and throws for the first shape that has another face. -/
theorem load_obj_shapes_total (fl : FloatOps) (attrib : attrib_t) (file : String)
    (shapes : List shape_t) (hwf : ∀ shape ∈ shapes, obj_shape_wf attrib shape) :
    ((∀ shape ∈ shapes, ¬ shape.has_non_triangle) →
      ∃ gs, load_obj_shapes fl attrib file shapes = .ok gs) ∧
    (∀ pre bad post, shapes = pre ++ bad :: post →
      (∀ shape ∈ pre, ¬ shape.has_non_triangle) → bad.has_non_triangle →
      load_obj_shapes fl attrib file shapes =
        .error (.runtime_error (non_triangle_message file bad))) := by
  have hok : ∀ shape, obj_shape_wf attrib shape → ¬ shape.has_non_triangle →
      ∃ g, load_obj_shape fl attrib file shape = .ok g := by
    intro shape ⟨hface, hlen, hrange⟩ hn
    have htri : ∀ n ∈ shape.mesh.num_face_vertices, n = 3 := by
      intro n hmem
      by_contra h3
      exact hn ⟨n, hmem, h3⟩
    exact load_obj_shape_ok fl attrib file shape hface htri
      (by rw [hlen, sum_of_all_three _ htri]) hrange
  induction shapes with
  | nil =>
    refine ⟨fun _ => ⟨[], rfl⟩, ?_⟩
    intro pre bad post e
    cases pre <;> cases e
  | cons s rest ih =>
    obtain ⟨ih1, ih2⟩ := ih (fun q hq => hwf q (List.mem_cons_of_mem _ hq))
    refine ⟨?_, ?_⟩
    · intro hall
      obtain ⟨g, hg⟩ := hok s (hwf s (List.mem_cons_self _ _)) (hall s (List.mem_cons_self _ _))
      obtain ⟨gs, hgs⟩ := ih1 (fun q hq => hall q (List.mem_cons_of_mem _ hq))
      exact ⟨g :: gs, by simp only [load_obj_shapes, bind, Except.bind, hg, hgs, pure,
        Except.pure]⟩
    · intro pre bad post e hpre hbad
      cases pre with
      | nil =>
        simp only [List.nil_append, List.cons.injEq] at e
        obtain ⟨e1, _⟩ := e
        subst e1
        simp only [load_obj_shapes, bind, Except.bind,
          load_obj_shape_throws fl attrib file s (hwf s (List.mem_cons_self _ _)) hbad]
      | cons p pre2 =>
        simp only [List.cons_append, List.cons.injEq] at e
        obtain ⟨e1, e2⟩ := e
        subst e1
        obtain ⟨g, hg⟩ := hok s (hwf s (List.mem_cons_self _ _))
          (hpre s (List.mem_cons_self _ _))
        simp only [load_obj_shapes, bind, Except.bind, hg,
          ih2 pre2 bad post e2 (fun q hq => hpre q (List.mem_cons_of_mem _ hq)) hbad]

theorem load_obj_of_shapes_ok (ex : Externals) (file : String) (gs : List Geometry)
    (hret : (obj_parse ex file).ret = true) (herr : (obj_parse ex file).err = "")
    (h : load_obj_shapes ex.toFloatOps (obj_parse ex file).attrib file
      (obj_parse ex file).shapes = .ok gs) : ∃ s, load_obj ex file = .ok s := by
  have hp : ¬ ((obj_parse ex file).ret = false ∨ (obj_parse ex file).err ≠ "") := by
    rw [hret, herr]; simp
  unfold load_obj
  rw [if_neg hp]
  simp only [bind, Except.bind, h, pure, Except.pure]
  split
  · exact ⟨_, rfl⟩
  · exact ⟨_, rfl⟩

theorem obj_texture_names_append (ms : List material_t) (m : material_t) :
    obj_texture_names (ms ++ [m]) =
      if m.diffuse_texname = "" ∨ m.diffuse_texname ∈ obj_texture_names ms then
        obj_texture_names ms
      else obj_texture_names ms ++ [m.diffuse_texname] := by
  have hmem : ∀ n, n ∈ obj_texture_names ms ↔
      n ∈ ((ms.map material_t.diffuse_texname).filter (fun n => decide (n ≠ ""))).reverse := by
    intro n
    unfold obj_texture_names
    rw [List.mem_reverse, List.mem_dedup]
  by_cases he : m.diffuse_texname = ""
  · rw [if_pos (Or.inl he)]
    unfold obj_texture_names
    rw [List.map_append, List.filter_append]
    simp [he]
  · by_cases hm : m.diffuse_texname ∈ obj_texture_names ms
    · rw [if_pos (Or.inr hm)]
      have hm2 := (hmem _).1 hm
      unfold obj_texture_names
      rw [List.map_append, List.filter_append, List.reverse_append]
      simp only [List.map_cons, List.map_nil, List.filter_cons, List.filter_nil, ne_eq, he,
        not_false_eq_true, decide_True, if_true, List.reverse_cons, List.reverse_nil,
        List.nil_append, List.singleton_append]
      rw [List.dedup_cons_of_mem hm2]
    · have hn : ¬ (m.diffuse_texname = "" ∨ m.diffuse_texname ∈ obj_texture_names ms) := by
        rintro (h | h)
        · exact he h
        · exact hm h
      rw [if_neg hn]
      have hm2 : m.diffuse_texname ∉ _ := fun h => hm ((hmem _).2 h)
      unfold obj_texture_names
      rw [List.map_append, List.filter_append, List.reverse_append]
      simp only [List.map_cons, List.map_nil, List.filter_cons, List.filter_nil, ne_eq, he,
        not_false_eq_true, decide_True, if_true, List.reverse_cons, List.reverse_nil,
        List.nil_append, List.singleton_append]
      rw [List.dedup_cons_of_not_mem hm2, List.reverse_cons]

theorem obj_texture_names_nodup (ms : List material_t) : (obj_texture_names ms).Nodup := by
  unfold obj_texture_names
  exact List.nodup_reverse.2 (List.nodup_dedup _)

theorem obj_material_rel_mono (names : List String) (n : String) (m : material_t)
    (d : DisneyMaterial) (h : obj_material_rel names m d) :
    obj_material_rel (names ++ [n]) m d := by
  obtain ⟨ht, he, hn⟩ := h
  refine ⟨ht, he, fun hne => ?_⟩
  obtain ⟨hmem, hid⟩ := hn hne
  exact ⟨List.mem_append_left _ hmem, by rw [List.indexOf_append_of_mem hmem]; exact hid⟩

/-- The body of the material loop keeps the invariant. -/
theorem obj_material_inv (ex : Externals) (base_dir : String) (ms : List material_t)
    (st : ObjMatState) (m : material_t) (hinv : ObjMatInv ex base_dir ms st) :
    ObjMatInv ex base_dir (ms ++ [m]) (obj_material ex base_dir st m) := by
  obtain ⟨hfind, htex, hmat⟩ := hinv
  have htr : ∀ id, obj_material_translated m
      { DisneyMaterial.default with
        base_color := ⟨m.diffuse.x, m.diffuse.y, m.diffuse.z⟩
        specular := clamp (m.shininess / 500) 0 1
        roughness := 1 - clamp (m.shininess / 500) 0 1
        specular_transmission := clamp (1 - m.dissolve) 0 1
        color_tex_id := id } := fun id => ⟨rfl, rfl, rfl, rfl, rfl⟩
  by_cases he : m.diffuse_texname = ""
  · have hnames : obj_texture_names (ms ++ [m]) = obj_texture_names ms := by
      rw [obj_texture_names_append, if_pos (Or.inl he)]
    unfold ObjMatInv
    rw [hnames]
    have hst : obj_material ex base_dir st m = { st with materials := st.materials ++
        [{ DisneyMaterial.default with
          base_color := ⟨m.diffuse.x, m.diffuse.y, m.diffuse.z⟩
          specular := clamp (m.shininess / 500) 0 1
          roughness := 1 - clamp (m.shininess / 500) 0 1
          specular_transmission := clamp (1 - m.dissolve) 0 1 }] } := by
      unfold obj_material
      simp only [he, ne_eq, not_true_eq_false, if_false]
    rw [hst]
    refine ⟨hfind, htex, List.rel_append hmat (List.Forall₂.cons ?_ List.Forall₂.nil)⟩
    exact ⟨htr _, fun _ => rfl, fun hne => absurd he hne⟩
  · cases hf : st.texture_ids.find m.diffuse_texname with
    | some v =>
      have hin : m.diffuse_texname ∈ obj_texture_names ms := by
        by_contra hnot
        have := hfind m.diffuse_texname
        rw [if_neg hnot, hf] at this
        cases this
      have hv : v = to_int32 ((obj_texture_names ms).indexOf m.diffuse_texname) := by
        have := hfind m.diffuse_texname
        rw [if_pos hin, hf] at this
        exact Option.some.inj this
      have hnames : obj_texture_names (ms ++ [m]) = obj_texture_names ms := by
        rw [obj_texture_names_append, if_pos (Or.inr hin)]
      unfold ObjMatInv
      rw [hnames]
      have hst : obj_material ex base_dir st m = { st with materials := st.materials ++
          [{ DisneyMaterial.default with
            base_color := ⟨m.diffuse.x, m.diffuse.y, m.diffuse.z⟩
            specular := clamp (m.shininess / 500) 0 1
            roughness := 1 - clamp (m.shininess / 500) 0 1
            specular_transmission := clamp (1 - m.dissolve) 0 1
            color_tex_id := v }] } := by
        unfold obj_material
        simp only [he, ne_eq, not_false_eq_true, if_true, hf, Option.getD_some]
      rw [hst]
      refine ⟨hfind, htex, List.rel_append hmat (List.Forall₂.cons ?_ List.Forall₂.nil)⟩
      exact ⟨htr _, fun h => absurd h he, fun _ => ⟨hin, hv⟩⟩
    | none =>
      have hin : m.diffuse_texname ∉ obj_texture_names ms := by
        intro hin
        have := hfind m.diffuse_texname
        rw [if_pos hin, hf] at this
        cases this
      have hnames : obj_texture_names (ms ++ [m]) =
          obj_texture_names ms ++ [m.diffuse_texname] := by
        rw [obj_texture_names_append, if_neg]
        rintro (h | h)
        · exact he h
        · exact hin h
      have hlen : st.textures.length = (obj_texture_names ms).length := by
        rw [htex, List.length_map]
      have hidx : (obj_texture_names ms ++ [m.diffuse_texname]).indexOf m.diffuse_texname =
          (obj_texture_names ms).length := by
        rw [List.indexOf_append_of_not_mem hin, List.indexOf_cons_self]
        rfl
      unfold ObjMatInv
      rw [hnames]
      have hst : obj_material ex base_dir st m =
          { texture_ids := st.texture_ids.assign m.diffuse_texname (to_int32 st.textures.length)
            textures := st.textures ++ [obj_texture ex base_dir m.diffuse_texname]
            materials := st.materials ++
              [{ DisneyMaterial.default with
                base_color := ⟨m.diffuse.x, m.diffuse.y, m.diffuse.z⟩
                specular := clamp (m.shininess / 500) 0 1
                roughness := 1 - clamp (m.shininess / 500) 0 1
                specular_transmission := clamp (1 - m.dissolve) 0 1
                color_tex_id := to_int32 st.textures.length }] } := by
        unfold obj_material
        simp only [he, ne_eq, not_false_eq_true, if_true, hf, str_find_assign,
          Option.getD_some]
        rfl
      rw [hst]
      refine ⟨?_, ?_, List.rel_append (hmat.imp (fun a b hab =>
        obj_material_rel_mono _ _ a b hab)) (List.Forall₂.cons ?_ List.Forall₂.nil)⟩
      · intro n
        show (st.texture_ids.assign m.diffuse_texname (to_int32 st.textures.length)).find n = _
        rw [str_find_assign]
        by_cases hn : m.diffuse_texname = n
        · subst hn
          rw [if_pos rfl, if_pos (List.mem_append_right _ (List.mem_singleton_self _)), hidx,
            hlen]
        · rw [if_neg hn, hfind n]
          by_cases hn2 : n ∈ obj_texture_names ms
          · rw [if_pos hn2, if_pos (List.mem_append_left _ hn2),
              List.indexOf_append_of_mem hn2]
          · rw [if_neg hn2, if_neg]
            intro h
            rcases List.mem_append.1 h with h | h
            · exact hn2 h
            · exact hn (List.mem_singleton.1 h).symm
      · show st.textures ++ [obj_texture ex base_dir m.diffuse_texname] = _
        rw [htex, List.map_append]
        rfl
      · refine ⟨htr _, fun h => absurd h he, fun _ =>
          ⟨List.mem_append_right _ (List.mem_singleton_self _), ?_⟩⟩
        show to_int32 st.textures.length = _
        rw [hidx, hlen]

/-- The material loop: the state after the materials `ms`. -/
theorem obj_materials_inv (ex : Externals) (base_dir : String) (ms : List material_t) :
    ObjMatInv ex base_dir ms (ms.foldl (obj_material ex base_dir) ⟨[], [], []⟩) := by
  induction ms using List.reverseRecOn with
  | nil => exact ⟨fun n => rfl, rfl, List.Forall₂.nil⟩
  | append_singleton ms m ih =>
    rw [List.foldl_append]
    exact obj_material_inv ex base_dir ms _ m ih

theorem to_uint32_of_nonneg (i : Int) (h0 : 0 ≤ i) (h1 : i < 4294967296) :
    (to_uint32 i : Int) = i := by
  unfold to_uint32
  rw [Int.toNat_of_nonneg (Int.emod_nonneg _ (by norm_num)), Int.emod_eq_of_lt h0 h1]

theorem forall2_mem {α β : Type} (R : α → β → Prop) (l1 : List α) (l2 : List β)
    (h : List.Forall₂ R l1 l2) :
    List.Forall₂ (fun a b => R a b ∧ a ∈ l1 ∧ b ∈ l2) l1 l2 := by
  induction h with
  | nil => exact List.Forall₂.nil
  | cons hab _ ih =>
    refine List.Forall₂.cons ⟨hab, List.mem_cons_self _ _, List.mem_cons_self _ _⟩ ?_
    exact ih.imp (fun a b ⟨h1, h2, h3⟩ =>
      ⟨h1, List.mem_cons_of_mem _ h2, List.mem_cons_of_mem _ h3⟩)

theorem obj_materials_rel (ex : Externals) (file : String) :
    List.Forall₂ (obj_material_rel (obj_texture_names (obj_parse ex file).obj_materials))
      (obj_parse ex file).obj_materials (obj_materials ex file).materials :=
  (obj_materials_inv ex (obj_base_dir file) (obj_parse ex file).obj_materials).2.2

theorem obj_materials_length (ex : Externals) (file : String) :
    (obj_materials ex file).materials.length = (obj_parse ex file).obj_materials.length :=
  (obj_materials_rel ex file).length_eq.symm

/-- The material ids and the materials of a scene returned by `load_obj`, the default
material id being the number of parser materials as a `uint32_t`. -/
theorem load_obj_material_ids (ex : Externals) (file : String) (s : Scene)
    (h : load_obj ex file = .ok s)
    (hint : ∀ shape ∈ (obj_parse ex file).shapes, ∀ id ∈ shape.mesh.material_ids,
      is_int32 id) :
    ∃ gs, s.meshes = [⟨gs⟩] ∧
      List.Forall₂
        (obj_material_id_assigned ((obj_parse ex file).obj_materials.length % 4294967296))
        (obj_parse ex file).shapes gs ∧
      (((∃ shape ∈ (obj_parse ex file).shapes, shape.no_material) ∧
          s.materials = (obj_materials ex file).materials ++ [DisneyMaterial.default]) ∨
        ((¬ ∃ shape ∈ (obj_parse ex file).shapes, shape.no_material) ∧
          s.materials = (obj_materials ex file).materials)) := by
  obtain ⟨gs0, hgs, hcase⟩ := load_obj_default_material ex file s h
  have hf := forall2_mem _ _ _ (load_obj_shapes_inv _ _ _ _ gs0 hgs)
  have hid : List.Forall₂ (fun shape g => ∃ id0, shape.mesh.material_ids.head? = some id0 ∧
      is_int32 id0 ∧ g.material_id = to_uint32 id0 ∧
      shape ∈ (obj_parse ex file).shapes ∧ g ∈ gs0) (obj_parse ex file).shapes gs0 := by
    refine hf.imp ?_
    intro shape g ⟨hg, hs, hg2⟩
    obtain ⟨_, _, _, _, _, _, _, _, hmat⟩ := load_obj_shape_inv _ _ _ _ _ hg
    cases hm : shape.mesh.material_ids with
    | nil => rw [hm] at hmat; cases hmat
    | cons id0 rest =>
      rw [hm] at hmat
      refine ⟨id0, rfl, hint shape hs id0 (by rw [hm]; exact List.mem_cons_self _ _), ?_,
        hs, hg2⟩
      exact Option.some.inj hmat
  have hiff : (∃ g ∈ gs0, g.material_id = UINT32_MAX) ↔
      ∃ shape ∈ (obj_parse ex file).shapes, shape.no_material := by
    constructor
    · rintro ⟨g, hg, hmax⟩
      obtain ⟨shape, hs, id0, hh, hi, he, _⟩ := forall2_right_mem _ _ _ hid g hg
      refine ⟨shape, hs, ?_⟩
      unfold shape_t.no_material
      rw [hh, ← (to_uint32_eq_max id0 hi).1 (he ▸ hmax)]
    · rintro ⟨shape, hs, hno⟩
      obtain ⟨g, hg, id0, hh, hi, he, _⟩ := forall2_right_mem _ _ _ hid.flip shape hs
      refine ⟨g, hg, ?_⟩
      unfold shape_t.no_material at hno
      rw [hh] at hno
      rw [he, Option.some.inj hno]
      exact to_uint32_neg_one
  rw [obj_materials_length] at hcase
  rcases hcase with ⟨hex, hmats, hmesh, _⟩ | ⟨hall, hmats, hmesh⟩
  · refine ⟨_, hmesh, ?_, Or.inl ⟨hiff.1 hex, hmats⟩⟩
    rw [List.forall₂_map_right_iff]
    refine hid.imp ?_
    intro shape g ⟨id0, hh, hi, he, _, _⟩
    refine ⟨id0, hh, ?_, ?_, ?_⟩
    · intro h1
      have : g.material_id = UINT32_MAX := by rw [he, h1]; exact to_uint32_neg_one
      unfold assign_default_mat
      rw [if_pos this]
    · intro h1
      have : g.material_id ≠ UINT32_MAX := by
        rw [he]
        exact fun hx => h1 ((to_uint32_eq_max id0 hi).1 hx)
      unfold assign_default_mat
      rw [if_neg this]
      exact he
    · intro h0
      have : g.material_id ≠ UINT32_MAX := by
        rw [he]
        intro hx
        have := (to_uint32_eq_max id0 hi).1 hx
        omega
      unfold assign_default_mat
      rw [if_neg this, he]
      exact to_uint32_of_nonneg id0 h0 (by have := hi.2; omega)
  · refine ⟨_, hmesh, ?_, Or.inr ⟨fun hex => ?_, hmats⟩⟩
    · refine hid.imp ?_
      intro shape g ⟨id0, hh, hi, he, _, hg⟩
      have hne : id0 ≠ -1 := by
        intro h1
        apply hall g hg
        rw [he, h1]
        exact to_uint32_neg_one
      refine ⟨id0, hh, fun h1 => absurd h1 hne, fun _ => he, fun h0 => ?_⟩
      rw [he]
      exact to_uint32_of_nonneg id0 h0 (by have := hi.2; omega)
    · obtain ⟨g, hg, hmax⟩ := hiff.2 hex
      exact hall g hg hmax

/-- C13, as amended: with fewer than 2^32 parser materials (and material ids that are
values of the type `int`), the scene returned by `load_obj` has one geometry per shape,
whose material id is the id of the first face of its shape when that id is not `-1`, and
the number of parser materials when it is `-1`; the first materials are the translations
of the parser materials, in order; when some shape has the first-face id `-1`, the default
material follows them and `materials.size()` is the number of parser materials plus one,
and otherwise `materials.size()` is the number of parser materials. -/
theorem load_obj_material_assignment (ex : Externals) (file : String) (s : Scene)
    (h : load_obj ex file = .ok s)
    (hint : ∀ shape ∈ (obj_parse ex file).shapes, ∀ id ∈ shape.mesh.material_ids,
      is_int32 id)
    (hN : (obj_parse ex file).obj_materials.length < 4294967296) :
    ∃ gs, s.meshes = [⟨gs⟩] ∧
      List.Forall₂ (obj_material_id_assigned (obj_parse ex file).obj_materials.length)
        (obj_parse ex file).shapes gs ∧
      List.Forall₂ obj_material_translated (obj_parse ex file).obj_materials
        (s.materials.take (obj_parse ex file).obj_materials.length) ∧
      ((∃ shape ∈ (obj_parse ex file).shapes, shape.no_material) →
        s.materials.length = (obj_parse ex file).obj_materials.length + 1 ∧
        s.materials[(obj_parse ex file).obj_materials.length]? =
          some DisneyMaterial.default) ∧
      ((¬ ∃ shape ∈ (obj_parse ex file).shapes, shape.no_material) →
        s.materials.length = (obj_parse ex file).obj_materials.length) := by
  obtain ⟨gs, hmesh, hids, hcase⟩ := load_obj_material_ids ex file s h hint
  rw [Nat.mod_eq_of_lt hN] at hids
  have hlen := obj_materials_length ex file
  have htr : List.Forall₂ obj_material_translated (obj_parse ex file).obj_materials
      (obj_materials ex file).materials :=
    (obj_materials_rel ex file).imp (fun _ _ hr => hr.1)
  refine ⟨gs, hmesh, hids, ?_, ?_, ?_⟩
  · rcases hcase with ⟨_, hmats⟩ | ⟨_, hmats⟩
    · rw [hmats, ← hlen, List.take_left]
      exact htr
    · rw [hmats, ← hlen, List.take_length]
      exact htr
  · intro hex
    rcases hcase with ⟨_, hmats⟩ | ⟨hno, _⟩
    · rw [hmats, List.length_append, hlen, ← hlen,
        List.getElem?_append_right (le_refl _), Nat.sub_self]
      exact ⟨rfl, rfl⟩
    · exact absurd hex hno
  · intro hno
    rcases hcase with ⟨hex, _⟩ | ⟨_, hmats⟩
    · exact absurd hex hno
    · rw [hmats, hlen]

/-- The parse `obj_with_materials` loads, and its scene has the material ids and the
materials of C13: the first geometry keeps the id 0 and the second gets the id 4. -/
theorem load_obj_material_assignment_witness :
    ∃ s, load_obj (sample_externals obj_with_materials no_gltf .null) "m.obj" = .ok s ∧
      ∃ gs, s.meshes = [⟨gs⟩] ∧
        List.Forall₂ (obj_material_id_assigned 4) [sample_shape, plain_shape] gs ∧
        List.Forall₂ obj_material_translated obj_with_materials.obj_materials
          (s.materials.take 4) ∧
        ((∃ shape ∈ [sample_shape, plain_shape], shape.no_material) →
          s.materials.length = 4 + 1 ∧ s.materials[4]? = some DisneyMaterial.default) ∧
        ((¬ ∃ shape ∈ [sample_shape, plain_shape], shape.no_material) →
          s.materials.length = 4) := by
  obtain ⟨s, hs⟩ := exists_of_isOk
    (load_obj (sample_externals obj_with_materials no_gltf .null) "m.obj") (by decide)
  exact ⟨s, hs, load_obj_material_assignment
    (sample_externals obj_with_materials no_gltf .null) "m.obj" s hs (by decide) (by decide)⟩

theorem obj_many_materials_load (n : Nat) :
    ∃ s g, load_obj (sample_externals (obj_many_materials n) no_gltf .null) "many.obj" =
        .ok s ∧
      s.meshes = [⟨[g]⟩] ∧ s.materials.length = n + 1 ∧ g.material_id = n % 4294967296 := by
  have hshapes : ∃ gs, load_obj_shapes sample_float_ops sample_attrib "many.obj"
      [plain_shape] = .ok gs := exists_of_isOk _ (by decide)
  obtain ⟨gs0, hgs0⟩ := hshapes
  obtain ⟨s, hs⟩ := load_obj_of_shapes_ok
    (sample_externals (obj_many_materials n) no_gltf .null) "many.obj" gs0 rfl rfl hgs0
  have hint : ∀ shape ∈ [plain_shape], ∀ id ∈ shape.mesh.material_ids, is_int32 id := by
    decide
  obtain ⟨gs, hmesh, hids, hcase⟩ := load_obj_material_ids _ _ s hs hint
  have hlen : (obj_parse (sample_externals (obj_many_materials n) no_gltf .null)
      "many.obj").obj_materials.length = n := List.length_replicate _ _
  have hshape : (obj_parse (sample_externals (obj_many_materials n) no_gltf .null)
      "many.obj").shapes = [plain_shape] := rfl
  rw [hlen, hshape] at hids
  rw [hshape] at hcase
  cases hids with
  | cons hg hrest =>
    cases hrest
    obtain ⟨id0, hh, h1, _, _⟩ := hg
    have hid0 : id0 = -1 := (Option.some.inj hh).symm
    refine ⟨s, _, hs, hmesh, ?_, h1 hid0⟩
    rcases hcase with ⟨_, hmats⟩ | ⟨hno, _⟩
    · rw [hmats, List.length_append, obj_materials_length, hlen]
      rfl
    · exact absurd ⟨plain_shape, List.mem_singleton_self _, rfl⟩ hno

/-- C13 fails: with 4294967296 parser materials and one shape whose first-face id is `-1`,
the default material is appended at index 4294967296, but the geometry gets the material
id 0: `default_mat_id` is a `uint32_t`. -/
theorem obj_default_material_id_wraps :
    (obj_many_materials 4294967296).obj_materials.length = 4294967296 ∧
    (∀ shape ∈ (obj_many_materials 4294967296).shapes, shape.no_material) ∧
    ∃ s g, load_obj (sample_externals (obj_many_materials 4294967296) no_gltf .null)
        "many.obj" = .ok s ∧
      s.meshes = [⟨[g]⟩] ∧ s.materials.length = 4294967297 ∧ g.material_id = 0 :=
  ⟨List.length_replicate _ _, by decide, obj_many_materials_load 4294967296⟩

/-! ## OBJ texture registry -/

theorem to_int32_of_lt (n : Nat) (h : n < 2147483648) : to_int32 n = (n : Int) := by
  unfold to_int32
  have h1 : n % 4294967296 = n := Nat.mod_eq_of_lt (by omega)
  rw [h1, if_pos h]

theorem forall2_getElem?_left {α β : Type} (R : α → β → Prop) (l1 : List α) (l2 : List β)
    (h : List.Forall₂ R l1 l2) (i : Nat) (a : α) (ha : l1[i]? = some a) :
    ∃ b, l2[i]? = some b ∧ R a b := by
  induction h generalizing i with
  | nil => cases ha
  | cons hab _ ih =>
    cases i with
    | zero =>
      simp only [List.getElem?_cons_zero, Option.some.injEq] at ha
      subst ha
      exact ⟨_, List.getElem?_cons_zero, hab⟩
    | succ i =>
      simp only [List.getElem?_cons_succ] at ha
      obtain ⟨b, hb, hr⟩ := ih i ha
      exact ⟨b, by rw [List.getElem?_cons_succ]; exact hb, hr⟩

theorem first_occurrences_append {α : Type} [DecidableEq α] (l : List α) (a : α) :
    first_occurrences (l ++ [a]) =
      if a ∈ first_occurrences l then first_occurrences l else first_occurrences l ++ [a] := by
  unfold first_occurrences
  rw [List.reverse_append, List.reverse_cons, List.reverse_nil, List.nil_append,
    List.singleton_append]
  by_cases h : a ∈ l
  · rw [if_pos (by rw [List.mem_reverse, List.mem_dedup, List.mem_reverse]; exact h),
      List.dedup_cons_of_mem (List.mem_reverse.2 h)]
  · rw [if_neg (by rw [List.mem_reverse, List.mem_dedup, List.mem_reverse]; exact h),
      List.dedup_cons_of_not_mem (fun hx => h (List.mem_reverse.1 hx)), List.reverse_cons]

theorem mem_first_occurrences {α : Type} [DecidableEq α] (l : List α) (a : α) :
    a ∈ first_occurrences l ↔ a ∈ l := by
  unfold first_occurrences
  rw [List.mem_reverse, List.mem_dedup, List.mem_reverse]

theorem first_occurrences_nodup {α : Type} [DecidableEq α] (l : List α) :
    (first_occurrences l).Nodup :=
  List.nodup_reverse.2 (List.nodup_dedup _)

theorem first_occurrences_length {α : Type} [DecidableEq α] (l : List α) :
    (first_occurrences l).length = l.dedup.length := by
  unfold first_occurrences
  rw [List.length_reverse, ← List.card_toFinset, ← List.card_toFinset, List.toFinset_reverse]

theorem first_occurrences_prefix {α : Type} [DecidableEq α] (l1 l2 : List α) :
    ∃ rest, first_occurrences (l1 ++ l2) = first_occurrences l1 ++ rest := by
  induction l2 using List.reverseRecOn with
  | nil => exact ⟨[], by rw [List.append_nil, List.append_nil]⟩
  | append_singleton l2 a ih =>
    obtain ⟨rest, hrest⟩ := ih
    rw [← List.append_assoc, first_occurrences_append]
    split
    · exact ⟨rest, hrest⟩
    · exact ⟨rest ++ [a], by rw [hrest, List.append_assoc]⟩

/-- The rank of an element does not change when more elements follow. -/
theorem first_occurrences_indexOf {α : Type} [DecidableEq α] (l1 l2 : List α) (a : α)
    (h : a ∈ l1) :
    (first_occurrences (l1 ++ l2)).indexOf a = (first_occurrences l1).indexOf a := by
  obtain ⟨rest, hrest⟩ := first_occurrences_prefix l1 l2
  rw [hrest, List.indexOf_append_of_mem ((mem_first_occurrences l1 a).2 h)]

/-- The rank of an element is the number of distinct elements before its first
occurrence. -/
theorem first_occurrences_first {α : Type} [DecidableEq α] (l1 l2 : List α) (a : α)
    (h : a ∉ l1) :
    (first_occurrences (l1 ++ a :: l2)).indexOf a = l1.dedup.length := by
  have hsplit : l1 ++ a :: l2 = (l1 ++ [a]) ++ l2 := by
    rw [List.append_assoc]
    rfl
  have hnot : a ∉ first_occurrences l1 := fun hx => h ((mem_first_occurrences l1 a).1 hx)
  rw [hsplit, first_occurrences_indexOf _ _ _ (List.mem_append_right _ (List.mem_singleton_self _)),
    first_occurrences_append, if_neg hnot, List.indexOf_append_of_not_mem hnot,
    List.indexOf_cons_self, first_occurrences_length]
  rfl

theorem index_find_assign (m : IndexMap) (k : UVec3) (v : Nat) (k2 : UVec3) :
    (m.assign k v).find k2 = if k = k2 then some v else m.find k2 := by
  induction m with
  | nil =>
    simp only [IndexMap.assign, IndexMap.find]
    by_cases h : k = k2
    · rw [if_pos ((key_equiv_iff k k2).2 h), if_pos h]
    · rw [if_neg (fun hx => h ((key_equiv_iff k k2).1 hx)), if_neg h]
  | cons e rest ih =>
    obtain ⟨k1, v1⟩ := e
    by_cases h1 : k1 = k
    · subst h1
      simp only [IndexMap.assign, (key_equiv_iff k1 k1).2 rfl, if_true, IndexMap.find]
      by_cases h : k1 = k2
      · rw [if_pos ((key_equiv_iff k1 k2).2 h), if_pos h]
      · rw [if_neg (fun hx => h ((key_equiv_iff k1 k2).1 hx)), if_neg h,
          if_neg (fun hx => h ((key_equiv_iff k1 k2).1 hx))]
    · have hne : ¬ key_equiv k1 k = true := fun hx => h1 ((key_equiv_iff k1 k).1 hx)
      simp only [IndexMap.assign, hne, if_false, IndexMap.find, ih]
      by_cases h : k1 = k2
      · have hk : k ≠ k2 := fun hx => h1 (h.trans hx.symm)
        rw [if_pos ((key_equiv_iff k1 k2).2 h), if_neg hk,
          if_pos ((key_equiv_iff k1 k2).2 h)]
      · rw [if_neg (fun hx => h ((key_equiv_iff k1 k2).1 hx)),
          if_neg (fun hx => h ((key_equiv_iff k1 k2).1 hx))]

theorem remap_inv_init (attrib : attrib_t) (mat : Nat) :
    RemapFaceInv attrib ⟨[], { Geometry.empty with material_id := mat }⟩ [] :=
  ⟨⟨fun _ => rfl, List.Forall₂.nil⟩, rfl⟩

/-- The body of the corner loop keeps the invariant, and hands back the rank of the key of
the corner. -/
theorem obj_corner_remap (fl : FloatOps) (attrib : attrib_t) (st st1 : ShapeState)
    (c : index_t) (v : Nat) (seen : List UVec3) (hinv : RemapInv attrib st seen)
    (h : obj_corner fl attrib st c = .ok (st1, v)) :
    RemapInv attrib st1 (seen ++ [corner_key c]) ∧
      v = (first_occurrences (seen ++ [corner_key c])).indexOf (corner_key c) % 4294967296 ∧
      st1.geom.indices = st.geom.indices := by
  obtain ⟨hfind, hverts⟩ := hinv
  cases hf : st.index_mapping.find (corner_key c) with
  | some v0 =>
    rw [obj_corner_found fl attrib st c v0 hf] at h
    simp only [Except.ok.injEq, Prod.mk.injEq] at h
    obtain ⟨h1, h2⟩ := h
    subst h1; subst h2
    have hin : corner_key c ∈ first_occurrences seen := by
      by_contra hnot
      have := hfind (corner_key c)
      rw [if_neg hnot, hf] at this
      cases this
    have hv : v0 = (first_occurrences seen).indexOf (corner_key c) % 4294967296 := by
      have := hfind (corner_key c)
      rw [if_pos hin, hf] at this
      exact Option.some.inj this
    have hK : first_occurrences (seen ++ [corner_key c]) = first_occurrences seen := by
      rw [first_occurrences_append, if_pos hin]
    unfold RemapInv
    rw [hK]
    exact ⟨⟨hfind, hverts⟩, hv, rfl⟩
  | none =>
    obtain ⟨px, py, pz, ns, ts, hx, hy, hz, _, _, hv, hst⟩ :=
      obj_corner_new fl attrib st st1 c v hf h
    have hin : corner_key c ∉ first_occurrences seen := by
      intro hin
      have := hfind (corner_key c)
      rw [if_pos hin, hf] at this
      cases this
    have hK : first_occurrences (seen ++ [corner_key c]) =
        first_occurrences seen ++ [corner_key c] := by
      rw [first_occurrences_append, if_neg hin]
    have hidx : (first_occurrences seen ++ [corner_key c]).indexOf (corner_key c) =
        (first_occurrences seen).length := by
      rw [List.indexOf_append_of_not_mem hin, List.indexOf_cons_self]
      rfl
    have hlen : st.geom.vertices.length = (first_occurrences seen).length :=
      hverts.length_eq.symm
    have hpos : obj_position attrib (corner_key c) = .ok ⟨px, py, pz⟩ := by
      unfold obj_position
      simp only [bind, Except.bind, hx, hy, hz, pure, Except.pure]
    subst hst
    unfold RemapInv
    rw [hK]
    refine ⟨⟨?_, ?_⟩, by rw [hidx, hv, hlen], rfl⟩
    · intro k
      show (st.index_mapping.assign (corner_key c) v).find k = _
      rw [index_find_assign]
      by_cases hk : corner_key c = k
      · subst hk
        rw [if_pos rfl, if_pos (List.mem_append_right _ (List.mem_singleton_self _)), hidx, hv,
          hlen]
      · rw [if_neg hk, hfind k]
        by_cases hk2 : k ∈ first_occurrences seen
        · rw [if_pos hk2, if_pos (List.mem_append_left _ hk2),
            List.indexOf_append_of_mem hk2]
        · rw [if_neg hk2, if_neg]
          intro hx
          rcases List.mem_append.1 hx with hx | hx
          · exact hk2 hx
          · exact hk (List.mem_singleton.1 hx).symm
    · exact List.rel_append hverts (List.Forall₂.cons hpos List.Forall₂.nil)

/-- The steps of the body of the face loop when it returns. -/
theorem obj_face_steps (fl : FloatOps) (attrib : attrib_t) (file : String) (shape : shape_t)
    (st st3 : ShapeState) (f : Nat) (h : obj_face fl attrib file shape st f = .ok st3) :
    ∃ c0 c1 c2 st0 t0 st1 t1 st2 t2, shape.mesh.num_face_vertices[f]? = some 3 ∧
      shape.mesh.indices[f * 3]? = some c0 ∧
      shape.mesh.indices[f * 3 + 1]? = some c1 ∧ shape.mesh.indices[f * 3 + 2]? = some c2 ∧
      obj_corner fl attrib st c0 = .ok (st0, t0) ∧
      obj_corner fl attrib st0 c1 = .ok (st1, t1) ∧
      obj_corner fl attrib st1 c2 = .ok (st2, t2) ∧
      st3 = { st2 with geom := { st2.geom with
        indices := st2.geom.indices ++ [⟨t0, t1, t2⟩] } } := by
  unfold obj_face at h
  cases hn : read_at shape.mesh.num_face_vertices f with
  | error e => simp [hn, bind, Except.bind] at h
  | ok nfv =>
  by_cases h3 : nfv ≠ 3
  · simp [hn, bind, Except.bind, h3, throw, throwThe, MonadExceptOf.throw] at h
  have h3 : nfv = 3 := not_not.1 h3
  subst h3
  cases r0 : read_at shape.mesh.indices (f * 3) with
  | error e => simp [hn, bind, Except.bind, r0, pure, Except.pure] at h
  | ok c0 =>
  cases e0 : obj_corner fl attrib st c0 with
  | error e => simp [hn, bind, Except.bind, r0, e0, pure, Except.pure] at h
  | ok p0 =>
  obtain ⟨st0, t0⟩ := p0
  cases r1 : read_at shape.mesh.indices (f * 3 + 1) with
  | error e => simp [hn, bind, Except.bind, r0, e0, r1, pure, Except.pure] at h
  | ok c1 =>
  cases e1 : obj_corner fl attrib st0 c1 with
  | error e => simp [hn, bind, Except.bind, r0, e0, r1, e1, pure, Except.pure] at h
  | ok p1 =>
  obtain ⟨st1, t1⟩ := p1
  cases r2 : read_at shape.mesh.indices (f * 3 + 2) with
  | error e => simp [hn, bind, Except.bind, r0, e0, r1, e1, r2, pure, Except.pure] at h
  | ok c2 =>
  cases e2 : obj_corner fl attrib st1 c2 with
  | error e => simp [hn, bind, Except.bind, r0, e0, r1, e1, r2, e2, pure, Except.pure] at h
  | ok p2 =>
  obtain ⟨st2, t2⟩ := p2
  simp only [hn, bind, Except.bind, r0, e0, r1, e1, r2, e2, pure, Except.pure,
    ne_eq, not_true_eq_false, if_false, Except.ok.injEq] at h
  exact ⟨c0, c1, c2, st0, t0, st1, t1, st2, t2, (read_at_ok _ _ _).1 hn,
    (read_at_ok _ _ _).1 r0, (read_at_ok _ _ _).1 r1, (read_at_ok _ _ _).1 r2, e0, e1, e2,
    h.symm⟩

theorem drop_take_three {α : Type} (l : List α) (n : Nat) (a b c : α)
    (ha : l[n]? = some a) (hb : l[n + 1]? = some b) (hc : l[n + 2]? = some c) :
    (l.drop n).take 3 = [a, b, c] := by
  obtain ⟨h0, e0⟩ := List.getElem?_eq_some.1 ha
  obtain ⟨h1, e1⟩ := List.getElem?_eq_some.1 hb
  obtain ⟨h2, e2⟩ := List.getElem?_eq_some.1 hc
  rw [List.drop_eq_getElem_cons h0, List.drop_eq_getElem_cons h1,
    List.drop_eq_getElem_cons h2, e0, e1, e2]
  rfl

/-- The body of the face loop keeps the invariant. -/
theorem obj_face_remap (fl : FloatOps) (attrib : attrib_t) (file : String) (shape : shape_t)
    (st st3 : ShapeState) (f : Nat) (seen : List UVec3)
    (hinv : RemapFaceInv attrib st seen)
    (h : obj_face fl attrib file shape st f = .ok st3) :
    RemapFaceInv attrib st3 (seen ++ face_keys shape f) := by
  obtain ⟨c0, c1, c2, st0, t0, st1, t1, st2, t2, _, r0, r1, r2, e0, e1, e2, hst⟩ :=
    obj_face_steps fl attrib file shape st st3 f h
  obtain ⟨hinv0, hemit⟩ := hinv
  obtain ⟨inv0, ht0, i0⟩ := obj_corner_remap fl attrib st st0 c0 t0 seen hinv0 e0
  obtain ⟨inv1, ht1, i1⟩ := obj_corner_remap fl attrib st0 st1 c1 t1 _ inv0 e1
  obtain ⟨inv2, ht2, i2⟩ := obj_corner_remap fl attrib st1 st2 c2 t2 _ inv1 e2
  have hkeys : face_keys shape f = [corner_key c0, corner_key c1, corner_key c2] := by
    unfold face_keys
    rw [drop_take_three _ _ c0 c1 c2 r0 r1 r2]
    rfl
  have hseen : seen ++ face_keys shape f =
      ((seen ++ [corner_key c0]) ++ [corner_key c1]) ++ [corner_key c2] := by
    rw [hkeys, List.append_assoc, List.append_assoc]
    rfl
  rw [hseen]
  subst hst
  refine ⟨inv2, ?_⟩
  show (st2.geom.indices ++ [(⟨t0, t1, t2⟩ : UVec3)]).flatMap UVec3.comps = _
  rw [List.flatMap_append, List.flatMap_singleton, i2, i1, i0, hemit, List.map_append,
    List.map_append, List.map_append]
  have hstable : ∀ k ∈ seen,
      (first_occurrences seen).indexOf k % 4294967296 =
      (first_occurrences (seen ++ [corner_key c0] ++ [corner_key c1] ++
        [corner_key c2])).indexOf k % 4294967296 := by
    intro k hk
    rw [List.append_assoc, List.append_assoc, first_occurrences_indexOf _ _ _ hk]
  have h0 : t0 = (first_occurrences (seen ++ [corner_key c0] ++ [corner_key c1] ++
      [corner_key c2])).indexOf (corner_key c0) % 4294967296 := by
    rw [ht0, List.append_assoc (seen ++ [corner_key c0]),
      first_occurrences_indexOf _ _ _
        (List.mem_append_right _ (List.mem_singleton_self _))]
  have h1 : t1 = (first_occurrences (seen ++ [corner_key c0] ++ [corner_key c1] ++
      [corner_key c2])).indexOf (corner_key c1) % 4294967296 := by
    rw [ht1, first_occurrences_indexOf _ _ _
        (List.mem_append_right _ (List.mem_singleton_self _))]
  rw [List.map_congr_left hstable, h0, h1, ht2]
  generalize first_occurrences (seen ++ [corner_key c0] ++ [corner_key c1] ++
    [corner_key c2]) = K
  simp only [List.append_assoc, List.map_cons, List.map_nil, UVec3.comps,
    List.singleton_append]
  rfl

/-- The face loop keeps the invariant. -/
theorem obj_faces_remap (fl : FloatOps) (attrib : attrib_t) (file : String) (shape : shape_t)
    (fs : List Nat) :
    ∀ (st st2 : ShapeState) (seen : List UVec3), RemapFaceInv attrib st seen →
      obj_faces fl attrib file shape st fs = .ok st2 →
      RemapFaceInv attrib st2 (seen ++ fs.flatMap (face_keys shape)) := by
  induction fs with
  | nil =>
    intro st st2 seen hinv h
    simp only [obj_faces, pure, Except.pure, Except.ok.injEq] at h
    subst h
    rw [List.flatMap_nil, List.append_nil]
    exact hinv
  | cons f rest ih =>
    intro st st2 seen hinv h
    cases e : obj_face fl attrib file shape st f with
    | error err => simp [obj_faces, bind, Except.bind, e] at h
    | ok st1 =>
      simp only [obj_faces, bind, Except.bind, e] at h
      have := ih st1 st2 _ (obj_face_remap fl attrib file shape st st1 f seen hinv e) h
      rw [List.flatMap_cons, ← List.append_assoc]
      exact this

theorem face_keys_range (shape : shape_t) (n : Nat) :
    (List.range n).flatMap (face_keys shape) =
      (shape.mesh.indices.take (n * 3)).map corner_key := by
  induction n with
  | zero => simp
  | succ n ih =>
    rw [List.range_succ, List.flatMap_append, List.flatMap_singleton, ih, Nat.succ_mul,
      List.take_add, List.map_append]
    rfl

/-- The geometry built from a shape: the state of the loop at its end satisfies the
invariant for the keys of all corners. -/
theorem load_obj_shape_remap (fl : FloatOps) (attrib : attrib_t) (file : String)
    (shape : shape_t) (geom : Geometry)
    (h : load_obj_shape fl attrib file shape = .ok geom) :
    ∃ st, st.geom = geom ∧ RemapFaceInv attrib st
      ((shape.mesh.indices.take (shape.mesh.num_face_vertices.length * 3)).map corner_key) := by
  unfold load_obj_shape at h
  cases hm : read_at shape.mesh.material_ids 0 with
  | error e => simp [hm, bind, Except.bind] at h
  | ok mat0 =>
  cases hmm : obj_minmax_matid shape.mesh.material_ids with
  | error e => simp [hm, hmm, bind, Except.bind] at h
  | ok mm =>
  cases hfs : obj_faces fl attrib file shape
      ⟨[], { Geometry.empty with material_id := to_uint32 mat0 }⟩
      (List.range shape.mesh.num_face_vertices.length) with
  | error e => simp [hm, hmm, hfs, bind, Except.bind] at h
  | ok st =>
    simp only [hm, hmm, hfs, bind, Except.bind, pure, Except.pure, Except.ok.injEq] at h
    have := obj_faces_remap fl attrib file shape _ _ st [] (remap_inv_init attrib _) hfs
    rw [List.nil_append, face_keys_range] at this
    exact ⟨st, h, this⟩

theorem flat_comps_getElem? (l : List UVec3) :
    ∀ (f i : Nat), i < 3 →
      (l.flatMap UVec3.comps)[f * 3 + i]? = (l[f]?).bind (fun tri => tri.comps[i]?) := by
  induction l with
  | nil => intro f i _; rfl
  | cons a rest ih =>
    intro f i hi
    rw [List.flatMap_cons]
    have hl : a.comps.length = 3 := rfl
    cases f with
    | zero =>
      rw [Nat.zero_mul, Nat.zero_add, List.getElem?_append_left (by rw [hl]; exact hi),
        List.getElem?_cons_zero, Option.some_bind]
    | succ f =>
      rw [List.getElem?_append_right (by rw [hl]; omega), hl]
      have : (f + 1) * 3 + i - 3 = f * 3 + i := by omega
      rw [this, ih f i hi, List.getElem?_cons_succ]

theorem obj_position_ok (attrib : attrib_t) (k : UVec3) (v : Vec3)
    (h : obj_position attrib k = .ok v) :
    attrib.vertices[3 * k.x % 4294967296]? = some v.x ∧
    attrib.vertices[(3 * k.x + 1) % 4294967296]? = some v.y ∧
    attrib.vertices[(3 * k.x + 2) % 4294967296]? = some v.z := by
  unfold obj_position at h
  cases hx : read_at attrib.vertices (3 * k.x % 4294967296) with
  | error e => simp [hx, bind, Except.bind] at h
  | ok px =>
  cases hy : read_at attrib.vertices ((3 * k.x + 1) % 4294967296) with
  | error e => simp [hx, hy, bind, Except.bind] at h
  | ok py =>
  cases hz : read_at attrib.vertices ((3 * k.x + 2) % 4294967296) with
  | error e => simp [hx, hy, hz, bind, Except.bind] at h
  | ok pz =>
    simp only [hx, hy, hz, bind, Except.bind, pure, Except.pure, Except.ok.injEq] at h
    subst h
    exact ⟨(read_at_ok _ _ _).1 hx, (read_at_ok _ _ _).1 hy, (read_at_ok _ _ _).1 hz⟩

/-- The geometry built from a shape whose `indices` hold three entries per face: the
vertices are the positions of the keys in order of first occurrence, and the index emitted
for a corner is the rank of its key, as a `uint32_t`. -/
theorem load_obj_shape_remap_spec (fl : FloatOps) (attrib : attrib_t) (file : String)
    (shape : shape_t) (geom : Geometry)
    (h : load_obj_shape fl attrib file shape = .ok geom)
    (hlen : shape.mesh.indices.length = 3 * shape.mesh.num_face_vertices.length) :
    List.Forall₂ (fun k v => obj_position attrib k = .ok v)
      (first_occurrences (shape.mesh.indices.map corner_key)) geom.vertices ∧
    geom.indices.length = shape.mesh.num_face_vertices.length ∧
    ∀ f i, f < shape.mesh.num_face_vertices.length → i < 3 →
      ∃ c tri t, shape.mesh.indices[f * 3 + i]? = some c ∧ geom.indices[f]? = some tri ∧
        tri.comps[i]? = some t ∧
        t = (first_occurrences (shape.mesh.indices.map corner_key)).indexOf (corner_key c) %
          4294967296 := by
  obtain ⟨st, hst, ⟨_, hverts⟩, hemit⟩ := load_obj_shape_remap fl attrib file shape geom h
  obtain ⟨_, _, _, _, _, _, _, hilen, _⟩ := load_obj_shape_inv fl attrib file shape geom h
  rw [List.take_of_length_le (by omega)] at hverts hemit
  rw [hst] at hverts hemit
  refine ⟨hverts, hilen, ?_⟩
  intro f i hf hi
  have hj : f * 3 + i < shape.mesh.indices.length := by omega
  have hfl : f < geom.indices.length := by omega
  have hcl : i < (geom.indices[f]).comps.length := hi
  refine ⟨shape.mesh.indices[f * 3 + i], geom.indices[f], (geom.indices[f]).comps[i],
    List.getElem?_eq_getElem hj, List.getElem?_eq_getElem hfl, List.getElem?_eq_getElem hcl, ?_⟩
  have h1 := flat_comps_getElem? geom.indices f i hi
  rw [hemit, List.getElem?_map, List.getElem?_map, List.getElem?_eq_getElem hj,
    List.getElem?_eq_getElem hfl] at h1
  simp only [Option.map_some', Option.some_bind, List.getElem?_eq_getElem hcl,
    Option.some.injEq] at h1
  exact h1.symm

/-- The geometry built from a shape that satisfies the precondition is its remap. -/
theorem load_obj_shape_remapped (fl : FloatOps) (attrib : attrib_t) (file : String)
    (shape : shape_t) (geom : Geometry)
    (h : load_obj_shape fl attrib file shape = .ok geom)
    (hpre : obj_remap_pre attrib shape) : obj_remapped attrib shape geom := by
  obtain ⟨hlen, hcs, hcount⟩ := hpre
  obtain ⟨hverts, hilen, hspec⟩ := load_obj_shape_remap_spec fl attrib file shape geom h hlen
  have hint : ∀ c ∈ shape.mesh.indices, corner_is_int c := fun c hc => (hcs c hc).1
  have hKlen : (first_occurrences (shape.mesh.indices.map corner_key)).length =
      shape.mesh.indices.dedup.length :=
    dedup_length_of_keys _ _ (first_occurrences_nodup _)
      (fun k => mem_first_occurrences _ k) hint
  -- the index emitted for a corner is the rank of its key
  have hrank : ∀ f i, f < shape.mesh.num_face_vertices.length → i < 3 →
      ∃ c tri t, shape.mesh.indices[f * 3 + i]? = some c ∧ geom.indices[f]? = some tri ∧
        tri.comps[i]? = some t ∧ c ∈ shape.mesh.indices ∧
        corner_key c ∈ first_occurrences (shape.mesh.indices.map corner_key) ∧
        t = (first_occurrences (shape.mesh.indices.map corner_key)).indexOf (corner_key c) ∧
        t < (first_occurrences (shape.mesh.indices.map corner_key)).length := by
    intro f i hf hi
    obtain ⟨c, tri, t, hc, htri, ht, hrk⟩ := hspec f i hf hi
    have hmem : c ∈ shape.mesh.indices := List.getElem?_mem hc
    have hkmem : corner_key c ∈ first_occurrences (shape.mesh.indices.map corner_key) :=
      (mem_first_occurrences _ _).2 (List.mem_map_of_mem _ hmem)
    have hlt := List.indexOf_lt_length.2 hkmem
    have hmod : (first_occurrences (shape.mesh.indices.map corner_key)).indexOf
        (corner_key c) % 4294967296 =
        (first_occurrences (shape.mesh.indices.map corner_key)).indexOf (corner_key c) :=
      Nat.mod_eq_of_lt (by omega)
    rw [hmod] at hrk
    exact ⟨c, tri, t, hc, htri, ht, hmem, hkmem, hrk, by rw [hrk]; exact hlt⟩
  refine ⟨hilen, ?_, ?_⟩
  · intro f i hf hi
    obtain ⟨c, tri, t, hc, htri, ht, hmem, hkmem, hrk, hlt⟩ := hrank f i hf hi
    have hK : (first_occurrences (shape.mesh.indices.map corner_key))[t]? =
        some (corner_key c) := by
      rw [hrk]
      exact List.getElem?_indexOf hkmem
    obtain ⟨v, hv, hpos⟩ := forall2_getElem?_left _ _ _ hverts t _ hK
    obtain ⟨hx, hy, hz⟩ := obj_position_ok attrib (corner_key c) v hpos
    obtain ⟨_, ⟨⟨hp0, _⟩, _⟩, hp3⟩ := hcs c hmem
    have hkx : (corner_key c).x = c.vertex_index.toNat := by
      have := to_uint32_of_nonneg c.vertex_index hp0 (by omega)
      show to_uint32 c.vertex_index = _
      omega
    have hsmall : 3 * c.vertex_index.toNat + 2 < 4294967296 := by omega
    rw [hkx] at hx hy hz
    rw [Nat.mod_eq_of_lt (by omega)] at hx hy hz
    refine ⟨c, tri, t, v, hc, htri, ht, by rw [← hverts.length_eq]; exact hlt, hv, hx, hy, hz,
      ?_⟩
    intro hfirst
    have hj : f * 3 + i < shape.mesh.indices.length := (List.getElem?_eq_some.1 hc).1
    have hcj : shape.mesh.indices[f * 3 + i] = c := (List.getElem?_eq_some.1 hc).2
    have hsplit : shape.mesh.indices =
        shape.mesh.indices.take (f * 3 + i) ++ c :: shape.mesh.indices.drop (f * 3 + i + 1) := by
      rw [← hcj, ← List.drop_eq_getElem_cons hj, List.take_append_drop]
    have hint2 : ∀ c2 ∈ shape.mesh.indices.take (f * 3 + i), corner_is_int c2 :=
      fun c2 hc2 => hint c2 (List.mem_of_mem_take hc2)
    have hnot : corner_key c ∉ (shape.mesh.indices.take (f * 3 + i)).map corner_key := by
      intro hin
      obtain ⟨c2, hc2, hk2⟩ := List.mem_map.1 hin
      have heq : c2 = c := corner_key_inj c2 c (hint2 c2 hc2) (hint c hmem) hk2
      subst heq
      obtain ⟨j, hj2⟩ := List.mem_iff_getElem?.1 hc2
      have hjlt : j < f * 3 + i := by
        have := (List.getElem?_eq_some.1 hj2).1
        rw [List.length_take] at this
        omega
      rw [List.getElem?_take_of_lt hjlt] at hj2
      exact hfirst j hjlt hj2
    have hrk2 : (first_occurrences (shape.mesh.indices.map corner_key)).indexOf
        (corner_key c) = ((shape.mesh.indices.take (f * 3 + i)).map corner_key).dedup.length := by
      conv_lhs => rw [hsplit, List.map_append, List.map_cons]
      exact first_occurrences_first _ _ _ hnot
    rw [hrk, hrk2]
    exact dedup_length_of_keys _ _ (List.nodup_dedup _) (fun k => List.mem_dedup) hint2
  · intro f i f2 i2 c c2 tri tri2 t t2 hi hi2 hc hc2 htri htri2 ht ht2
    have hf : f < shape.mesh.num_face_vertices.length := by
      rw [← hilen]
      exact (List.getElem?_eq_some.1 htri).1
    have hf2 : f2 < shape.mesh.num_face_vertices.length := by
      rw [← hilen]
      exact (List.getElem?_eq_some.1 htri2).1
    obtain ⟨c', tri', t', hc', htri', ht', hmem, hkmem, hrk, _⟩ := hrank f i hf hi
    obtain ⟨c2', tri2', t2', hc2', htri2', ht2', hmem2, hkmem2, hrk2, _⟩ := hrank f2 i2 hf2 hi2
    rw [hc] at hc'
    rw [hc2] at hc2'
    rw [htri] at htri'
    rw [htri2] at htri2'
    have e1 := Option.some.inj hc'
    have e2 := Option.some.inj hc2'
    have e3 := Option.some.inj htri'
    have e4 := Option.some.inj htri2'
    subst e1; subst e2; subst e3; subst e4
    rw [ht] at ht'
    rw [ht2] at ht2'
    have e5 := Option.some.inj ht'
    have e6 := Option.some.inj ht2'
    subst e5; subst e6
    rw [hrk, hrk2, List.indexOf_inj hkmem hkmem2]
    constructor
    · exact corner_key_inj c c2 (hint c hmem) (hint c2 hmem2)
    · intro he
      rw [he]

/-- C19, as amended: given a successful parse in which every shape has a first material
id, only triangles, three entries of `indices` per face, in-range corner indices, position
indices `p` with `3p + 2 < 2^32` and at most 2^32 distinct index triples, `load_obj`
returns a scene; and in every scene it returns, the geometry of each shape that satisfies
the last four conditions is the remap of the shape: the index emitted for a corner is less
than `vertices.size()`, the vertex it addresses is the source position
(`attrib.vertices[3p]`, `attrib.vertices[3p + 1]`, `attrib.vertices[3p + 2]`) of the
corner, the index of the first corner with a given index triple is the number of distinct
triples before it (0, 1, 2, ... in order of first occurrence), and two corners get the
same index iff their index triples are equal. -/
theorem load_obj_remap_fidelity (ex : Externals) (file : String)
    (hret : (obj_parse ex file).ret = true) (herr : (obj_parse ex file).err = "") :
    ((∀ shape ∈ (obj_parse ex file).shapes, shape.mesh.material_ids ≠ [] ∧
        ¬ shape.has_non_triangle ∧ obj_remap_pre (obj_parse ex file).attrib shape) →
      ∃ s, load_obj ex file = .ok s) ∧
    (∀ s, load_obj ex file = .ok s → ∃ gs, s.meshes = [⟨gs⟩] ∧
      List.Forall₂ (fun shape g => obj_remap_pre (obj_parse ex file).attrib shape →
        obj_remapped (obj_parse ex file).attrib shape g) (obj_parse ex file).shapes gs) := by
  constructor
  · intro hall
    have hwf : ∀ shape ∈ (obj_parse ex file).shapes,
        obj_shape_wf (obj_parse ex file).attrib shape := by
      intro shape hs
      obtain ⟨hm, hn, hlen, hcs, _⟩ := hall shape hs
      have htri : ∀ n ∈ shape.mesh.num_face_vertices, n = 3 := by
        intro n hmem
        by_contra h3
        exact hn ⟨n, hmem, h3⟩
      exact ⟨hm, by rw [hlen, sum_of_all_three _ htri], fun c hc => (hcs c hc).2.1⟩
    obtain ⟨gs, hgs⟩ := (load_obj_shapes_total ex.toFloatOps (obj_parse ex file).attrib file
      (obj_parse ex file).shapes hwf).1 (fun shape hs => (hall shape hs).2.1)
    exact load_obj_of_shapes_ok ex file gs hret herr hgs
  · intro s h
    obtain ⟨gs, hgs, _, _, _, hm⟩ := load_obj_inv ex file s h
    have hf := load_obj_shapes_inv _ _ _ _ gs hgs
    have hrel : List.Forall₂ (fun shape g => obj_remap_pre (obj_parse ex file).attrib shape →
        obj_remapped (obj_parse ex file).attrib shape g) (obj_parse ex file).shapes gs :=
      hf.imp (fun shape g hg hpre => load_obj_shape_remapped _ _ _ shape g hg hpre)
    rcases hm with ⟨_, hmesh, _⟩ | ⟨_, hmesh, _⟩
    · refine ⟨_, hmesh, ?_⟩
      rw [List.forall₂_map_right_iff]
      refine hrel.imp ?_
      intro shape g hg hpre
      obtain ⟨e1, e2, _, _⟩ := assign_default_mat_vertices
        ((obj_materials ex file).materials.length % 4294967296) g
      unfold obj_remapped
      rw [e1, e2]
      exact hg hpre
    · exact ⟨gs, hmesh, hrel⟩

/-- The sample parse loads, and the geometry of its shape is the remap of the shape. -/
theorem load_obj_remap_fidelity_witness :
    obj_remap_pre sample_attrib sample_shape ∧
    ∃ s, load_obj (sample_externals sample_obj no_gltf .null) "quad.obj" = .ok s ∧
      ∃ gs, s.meshes = [⟨gs⟩] ∧
        List.Forall₂ (fun shape g => obj_remap_pre sample_attrib shape →
          obj_remapped sample_attrib shape g) [sample_shape] gs := by
  have hc := load_obj_remap_fidelity (sample_externals sample_obj no_gltf .null) "quad.obj"
    rfl rfl
  obtain ⟨s, hs⟩ := hc.1 (by decide)
  exact ⟨by decide, s, hs, hc.2 s hs⟩

theorem obj_far_position_read (n i : Nat) (h : i < n) :
    read_at (obj_far_position n).attrib.vertices i = .ok 0 := by
  rw [read_at_ok]
  show (List.replicate n (0 : Scalar) ++ [1, 2, 3])[i]? = some 0
  rw [List.getElem?_append_left (by rw [List.length_replicate]; exact h),
    List.getElem?_replicate_of_lt h]

theorem obj_far_position_range (n : Nat) (h : 4294967298 ≤ n) :
    ∀ shape ∈ (obj_far_position n).shapes, ∀ c ∈ shape.mesh.indices,
      corner_in_range (obj_far_position n).attrib c := by
  have hlen : (obj_far_position n).attrib.vertices.length = n + 3 := by
    show (List.replicate n (0 : Scalar) ++ [1, 2, 3]).length = n + 3
    rw [List.length_append, List.length_replicate]
    rfl
  intro shape hs c hc
  have hs2 : shape ∈ [(⟨"far", ⟨[⟨1431655766, -1, -1⟩, ⟨0, -1, -1⟩, ⟨1, -1, -1⟩], [3],
      [0]⟩⟩ : shape_t)] := hs
  rw [List.mem_singleton] at hs2
  subst hs2
  have hc2 : c ∈ [(⟨1431655766, -1, -1⟩ : index_t), ⟨0, -1, -1⟩, ⟨1, -1, -1⟩] := hc
  unfold corner_in_range
  rw [hlen]
  simp only [List.mem_cons, List.mem_singleton, List.mem_nil_iff, or_false] at hc2
  rcases hc2 with h1 | h1 | h1 <;> subst h1 <;>
    exact ⟨⟨by decide, by push_cast; omega⟩, Or.inl rfl, Or.inl rfl⟩

/-- The load of `obj_far_position n`: the vertex that the first emitted index addresses is
the origin. -/
theorem obj_far_position_load (n : Nat) (h : 4294967298 ≤ n) :
    ∃ s g tri v, load_obj (sample_externals (obj_far_position n) no_gltf .null) "far.obj" =
        .ok s ∧
      s.meshes = [⟨[g]⟩] ∧ g.indices[0]? = some tri ∧ g.vertices[tri.x]? = some v ∧
      v = ⟨0, 0, 0⟩ := by
  have hrange := obj_far_position_range n h
  obtain ⟨gs0, hgs0⟩ := (load_obj_shapes_total sample_float_ops (obj_far_position n).attrib
    "far.obj" (obj_far_position n).shapes (by
      intro shape hs
      refine ⟨?_, ?_, hrange shape hs⟩
      · have hs2 : shape ∈ [(⟨"far", ⟨[⟨1431655766, -1, -1⟩, ⟨0, -1, -1⟩, ⟨1, -1, -1⟩], [3],
          [0]⟩⟩ : shape_t)] := hs
        rw [List.mem_singleton] at hs2
        subst hs2
        decide
      · have hs2 : shape ∈ [(⟨"far", ⟨[⟨1431655766, -1, -1⟩, ⟨0, -1, -1⟩, ⟨1, -1, -1⟩], [3],
          [0]⟩⟩ : shape_t)] := hs
        rw [List.mem_singleton] at hs2
        subst hs2
        decide)).1 (by
      intro shape hs
      have hs2 : shape ∈ [(⟨"far", ⟨[⟨1431655766, -1, -1⟩, ⟨0, -1, -1⟩, ⟨1, -1, -1⟩], [3],
        [0]⟩⟩ : shape_t)] := hs
      rw [List.mem_singleton] at hs2
      subst hs2
      decide)
  obtain ⟨s, hs⟩ := load_obj_of_shapes_ok
    (sample_externals (obj_far_position n) no_gltf .null) "far.obj" gs0 rfl rfl hgs0
  obtain ⟨gs, hgs, _, _, _, hm⟩ := load_obj_inv _ _ s hs
  have hf := load_obj_shapes_inv _ _ _ _ gs hgs
  have hshape : (obj_parse (sample_externals (obj_far_position n) no_gltf .null)
      "far.obj").shapes = [⟨"far", ⟨[⟨1431655766, -1, -1⟩, ⟨0, -1, -1⟩, ⟨1, -1, -1⟩], [3],
        [0]⟩⟩] := rfl
  rw [hshape] at hf
  cases hf with
  | cons hg hrest =>
    cases hrest
    obtain ⟨hverts, _, hspec⟩ := load_obj_shape_remap_spec _ _ _ _ _ hg rfl
    obtain ⟨c, tri, t, hc, htri, ht, hrk⟩ := hspec 0 0 (by decide) (by decide)
    have hc0 : c = ⟨1431655766, -1, -1⟩ := (Option.some.inj hc).symm
    subst hc0
    have ht0 : t = 0 := by
      rw [hrk]
      decide
    have htx : tri.x = t := Option.some.inj ht
    obtain ⟨v, hv, hpos⟩ := forall2_getElem?_left _ _ _ hverts 0
      (corner_key ⟨1431655766, -1, -1⟩) (by decide)
    have hpos0 : obj_position (obj_far_position n).attrib
        (corner_key ⟨1431655766, -1, -1⟩) = .ok ⟨0, 0, 0⟩ := by
      have hk : corner_key ⟨1431655766, -1, -1⟩ = ⟨1431655766, 4294967295, 4294967295⟩ := by
        decide
      rw [hk]
      show (do
        let px ← read_at (obj_far_position n).attrib.vertices 2
        let py ← read_at (obj_far_position n).attrib.vertices 3
        let pz ← read_at (obj_far_position n).attrib.vertices 4
        pure (⟨px, py, pz⟩ : Vec3)) = _
      rw [obj_far_position_read n 2 (by omega), obj_far_position_read n 3 (by omega),
        obj_far_position_read n 4 (by omega)]
      rfl
    have hv0 : v = ⟨0, 0, 0⟩ := by
      have hpos1 : obj_position (obj_parse (sample_externals (obj_far_position n) no_gltf
          .null) "far.obj").attrib (corner_key ⟨1431655766, -1, -1⟩) = .ok v := hpos
      have hpos2 : obj_position (obj_far_position n).attrib
          (corner_key ⟨1431655766, -1, -1⟩) = .ok v := hpos1
      rw [hpos0] at hpos2
      exact (Except.ok.inj hpos2).symm
    rcases hm with ⟨_, hmesh, _⟩ | ⟨_, hmesh, _⟩
    · obtain ⟨e1, e2, _, _⟩ := assign_default_mat_vertices
        ((obj_materials (sample_externals (obj_far_position n) no_gltf .null)
          "far.obj").materials.length % 4294967296) _
      refine ⟨s, _, tri, v, hs, hmesh, ?_, ?_, hv0⟩
      · rw [e2]; exact htri
      · rw [e1, htx, ht0]; exact hv
    · refine ⟨s, _, tri, v, hs, hmesh, htri, ?_, hv0⟩
      rw [htx, ht0]
      exact hv

/-- C19 fails: the corner indices of `obj_far_position 4294967298` are in range, and the
position of the first corner, whose position index is 1431655766, starts with
`attrib.vertices[4294967298] = 1`; but `3 * idx.x` is computed in `uint32_t`, so the
vertex that the emitted index addresses is read from `attrib.vertices[2]`: it is the
origin. -/
theorem obj_far_position_wraps :
    (∀ shape ∈ (obj_far_position 4294967298).shapes, ∀ c ∈ shape.mesh.indices,
      corner_in_range (obj_far_position 4294967298).attrib c) ∧
    (obj_far_position 4294967298).shapes.map
      (fun shape => shape.mesh.indices[0]?.map index_t.vertex_index) = [some 1431655766] ∧
    (obj_far_position 4294967298).attrib.vertices[3 * 1431655766]? = some 1 ∧
    ∃ s g tri v,
      load_obj (sample_externals (obj_far_position 4294967298) no_gltf .null) "far.obj" =
        .ok s ∧
      s.meshes = [⟨[g]⟩] ∧ g.indices[0]? = some tri ∧ g.vertices[tri.x]? = some v ∧
      v = ⟨0, 0, 0⟩ := by
  refine ⟨obj_far_position_range 4294967298 (le_refl _), rfl, ?_,
    obj_far_position_load 4294967298 (le_refl _)⟩
  show (List.replicate 4294967298 (0 : Scalar) ++ [1, 2, 3])[4294967298]? = some 1
  rw [List.getElem?_append_right (by rw [List.length_replicate]), List.length_replicate,
    Nat.sub_self, List.getElem?_cons_zero]

/-! ## Read safety of the shape loop -/

theorem corner_in_range_read_safe (attrib : attrib_t) (c : index_t)
    (h : corner_in_range attrib c) : corner_read_safe attrib c := by
  obtain ⟨⟨hp0, hp⟩, hn, ht⟩ := h
  have ex : (corner_key c).x = to_uint32 c.vertex_index := rfl
  have ey : (corner_key c).y = to_uint32 c.normal_index := rfl
  have ez : (corner_key c).z = to_uint32 c.texcoord_index := rfl
  refine ⟨?_, ?_, ?_⟩
  · have := to_uint32_le c.vertex_index hp0
    rw [ex]; omega
  · rcases hn with hn | ⟨hn0, hn⟩
    · exact Or.inl hn
    · have := to_uint32_le c.normal_index hn0
      exact Or.inr (by rw [ey]; omega)
  · rcases ht with ht | ⟨ht0, ht⟩
    · exact Or.inl ht
    · have := to_uint32_le c.texcoord_index ht0
      exact Or.inr (by rw [ez]; omega)

/-- The body of the corner loop returns when the reads of the corner are in range. -/
theorem obj_corner_safe (fl : FloatOps) (attrib : attrib_t) (st : ShapeState) (c : index_t)
    (hr : corner_read_safe attrib c) : ∃ r, obj_corner fl attrib st c = .ok r := by
  cases hf : st.index_mapping.find (corner_key c) with
  | some v => exact ⟨_, obj_corner_found fl attrib st c v hf⟩
  | none =>
    obtain ⟨hp, hn, ht⟩ := hr
    have l0 : (3 * (corner_key c).x) % 4294967296 < attrib.vertices.length := by omega
    have l1 : (3 * (corner_key c).x + 1) % 4294967296 < attrib.vertices.length := by omega
    have l2 : (3 * (corner_key c).x + 2) % 4294967296 < attrib.vertices.length := by omega
    have hns : ∃ ns, obj_new_normals fl attrib (corner_key c) = .ok ns := by
      unfold obj_new_normals
      by_cases hy : (corner_key c).y ≠ UINT32_MAX
      · rw [if_pos hy]
        have hne : c.normal_index ≠ -1 := by
          intro h
          apply hy
          simp [corner_key, h, to_uint32_neg_one]
        have hn2 := hn.resolve_left hne
        have m0 : (3 * (corner_key c).y) % 4294967296 < attrib.normals.length := by omega
        have m1 : (3 * (corner_key c).y + 1) % 4294967296 < attrib.normals.length := by omega
        have m2 : (3 * (corner_key c).y + 2) % 4294967296 < attrib.normals.length := by omega
        rw [read_at_of_lt _ _ m0, read_at_of_lt _ _ m1, read_at_of_lt _ _ m2]
        exact ⟨_, rfl⟩
      · rw [if_neg hy]
        exact ⟨_, rfl⟩
    have hts : ∃ ts, obj_new_uvs attrib (corner_key c) = .ok ts := by
      unfold obj_new_uvs
      by_cases hz : (corner_key c).z ≠ UINT32_MAX
      · rw [if_pos hz]
        have hne : c.texcoord_index ≠ -1 := by
          intro h
          apply hz
          simp [corner_key, h, to_uint32_neg_one]
        have ht2 := ht.resolve_left hne
        have m0 : (2 * (corner_key c).z) % 4294967296 < attrib.texcoords.length := by omega
        have m1 : (2 * (corner_key c).z + 1) % 4294967296 < attrib.texcoords.length := by
          omega
        rw [read_at_of_lt _ _ m0, read_at_of_lt _ _ m1]
        exact ⟨_, rfl⟩
      · rw [if_neg hz]
        exact ⟨_, rfl⟩
    obtain ⟨ns, hns⟩ := hns
    obtain ⟨ts, hts⟩ := hts
    simp only [obj_corner, hf, read_at_of_lt _ _ l0, read_at_of_lt _ _ l1,
      read_at_of_lt _ _ l2, hns, hts]
    exact ⟨_, rfl⟩

/-- The body of the face loop for a face of a shape that satisfies the precondition: it
returns, or the face is not a triangle and it throws. -/
theorem obj_face_safe (fl : FloatOps) (attrib : attrib_t) (file : String) (shape : shape_t)
    (hsafe : obj_shape_read_safe attrib shape) (st : ShapeState) (f : Nat)
    (hf : f < shape.mesh.num_face_vertices.length) :
    (shape.mesh.num_face_vertices[f]? = some 3 ∧
      ∃ st1, obj_face fl attrib file shape st f = .ok st1) ∨
    (obj_face fl attrib file shape st f =
        .error (.runtime_error (non_triangle_message file shape)) ∧
      shape.has_non_triangle) := by
  obtain ⟨hlen, hcs⟩ := hsafe
  by_cases h3 : shape.mesh.num_face_vertices[f] = 3
  · left
    have hn : shape.mesh.num_face_vertices[f]? = some 3 := by
      rw [List.getElem?_eq_getElem hf, h3]
    have h0 : f * 3 < shape.mesh.indices.length := by omega
    have h1 : f * 3 + 1 < shape.mesh.indices.length := by omega
    have h2 : f * 3 + 2 < shape.mesh.indices.length := by omega
    obtain ⟨⟨st0, t0⟩, e0⟩ := obj_corner_safe fl attrib st (shape.mesh.indices.get ⟨f * 3, h0⟩)
      (hcs _ (List.get_mem _ _ _))
    obtain ⟨⟨st1, t1⟩, e1⟩ := obj_corner_safe fl attrib st0
      (shape.mesh.indices.get ⟨f * 3 + 1, h1⟩) (hcs _ (List.get_mem _ _ _))
    obtain ⟨⟨st2, t2⟩, e2⟩ := obj_corner_safe fl attrib st1
      (shape.mesh.indices.get ⟨f * 3 + 2, h2⟩) (hcs _ (List.get_mem _ _ _))
    refine ⟨hn, { st2 with geom := { st2.geom with
      indices := st2.geom.indices ++ [⟨t0, t1, t2⟩] } }, ?_⟩
    simp only [obj_face, (read_at_ok _ _ _).2 hn, read_at_of_lt _ _ h0, read_at_of_lt _ _ h1,
      read_at_of_lt _ _ h2]
    simp only [bind, Except.bind, e0, e1, e2]
    rfl
  · right
    exact ⟨obj_face_throws fl attrib file shape st f _ (List.getElem?_eq_getElem hf) h3,
      _, List.getElem_mem _, h3⟩

/-- The face loop of a shape that satisfies the precondition: it returns, or some face is
not a triangle and it throws. -/
theorem obj_faces_safe (fl : FloatOps) (attrib : attrib_t) (file : String) (shape : shape_t)
    (hsafe : obj_shape_read_safe attrib shape) (fs : List Nat) :
    ∀ (st : ShapeState), (∀ f ∈ fs, f < shape.mesh.num_face_vertices.length) →
      ((∀ f ∈ fs, shape.mesh.num_face_vertices[f]? = some 3) ∧
        ∃ st1, obj_faces fl attrib file shape st fs = .ok st1) ∨
      (obj_faces fl attrib file shape st fs =
          .error (.runtime_error (non_triangle_message file shape)) ∧
        shape.has_non_triangle) := by
  induction fs with
  | nil => intro st _; exact Or.inl ⟨(fun f hf => by cases hf), st, rfl⟩
  | cons f rest ih =>
    intro st hfs
    rcases obj_face_safe fl attrib file shape hsafe st f (hfs f (List.mem_cons_self _ _)) with
      ⟨h3, st1, e⟩ | ⟨e, hbad⟩
    · rcases ih st1 (fun g hg => hfs g (List.mem_cons_of_mem _ hg)) with
        ⟨hall, st2, e2⟩ | ⟨e2, hbad⟩
      · refine Or.inl ⟨?_, st2, by simp only [obj_faces, bind, Except.bind, e]; exact e2⟩
        intro g hg
        rcases List.mem_cons.1 hg with hg | hg
        · rw [hg]; exact h3
        · exact hall g hg
      · exact Or.inr ⟨by simp only [obj_faces, bind, Except.bind, e]; exact e2, hbad⟩
    · exact Or.inr ⟨by simp only [obj_faces, bind, Except.bind, e], hbad⟩

/-- The two reads of `material_ids`: both are out of range when the shape has no material
id, and both return when it has one. -/
theorem obj_material_reads (ids : List Int) :
    (ids = [] → read_at ids 0 = .error .out_of_range ∧
      obj_minmax_matid ids = .error .out_of_range) ∧
    (ids ≠ [] → (∃ m, read_at ids 0 = .ok m) ∧ ∃ mm, obj_minmax_matid ids = .ok mm) := by
  cases ids with
  | nil => exact ⟨fun _ => ⟨rfl, rfl⟩, fun h => absurd rfl h⟩
  | cons a rest =>
    refine ⟨(fun h => by cases h),
      fun _ => ⟨⟨a, ?_⟩, (rest.foldl min a, rest.foldl max a), rfl⟩⟩
    rw [read_at_ok, List.getElem?_cons_zero]

/-- The shape loop body for a shape that has a material id and satisfies the precondition:
it returns, or some face is not a triangle and it throws. -/
theorem load_obj_shape_safe (fl : FloatOps) (attrib : attrib_t) (file : String)
    (shape : shape_t) (hface : shape.mesh.material_ids ≠ [])
    (hsafe : obj_shape_read_safe attrib shape) :
    (¬ shape.has_non_triangle ∧ ∃ g, load_obj_shape fl attrib file shape = .ok g) ∨
    (load_obj_shape fl attrib file shape =
        .error (.runtime_error (non_triangle_message file shape)) ∧
      shape.has_non_triangle) := by
  cases hm : shape.mesh.material_ids with
  | nil => exact absurd hm hface
  | cons m0 ms =>
    rcases obj_faces_safe fl attrib file shape hsafe
      (List.range shape.mesh.num_face_vertices.length)
      ⟨[], { Geometry.empty with material_id := to_uint32 m0 }⟩
      (fun f hf => List.mem_range.1 hf) with ⟨hall, st1, e⟩ | ⟨e, hbad⟩
    · left
      refine ⟨?_, st1.geom, ?_⟩
      · rintro ⟨n, hn, h3⟩
        obtain ⟨f, hf, hfn⟩ := List.mem_iff_getElem.1 hn
        have := hall f (List.mem_range.2 hf)
        rw [List.getElem?_eq_getElem hf, hfn] at this
        exact h3 (Option.some.inj this)
      simp only [load_obj_shape, hm, read_at, List.getElem?_cons_zero, obj_minmax_matid, bind,
        Except.bind, pure, Except.pure, e]
    · right
      refine ⟨?_, hbad⟩
      simp only [load_obj_shape, hm, read_at, List.getElem?_cons_zero, obj_minmax_matid, bind,
        Except.bind, pure, Except.pure, e]

theorem load_obj_shape_no_material (fl : FloatOps) (attrib : attrib_t) (file : String)
    (shape : shape_t) (h : shape.mesh.material_ids = []) :
    load_obj_shape fl attrib file shape = .error .out_of_range := by
  simp only [load_obj_shape, h, read_at, List.getElem?_nil, bind, Except.bind]

/-- The shape loop over shapes that have a material id and satisfy the precondition: it
returns, or some shape has a face that is not a triangle and it throws. -/
theorem load_obj_shapes_safe (fl : FloatOps) (attrib : attrib_t) (file : String)
    (shapes : List shape_t) (hface : ∀ shape ∈ shapes, shape.mesh.material_ids ≠ [])
    (hsafe : ∀ shape ∈ shapes, obj_shape_read_safe attrib shape) :
    ((∀ shape ∈ shapes, ¬ shape.has_non_triangle) ∧
      ∃ gs, load_obj_shapes fl attrib file shapes = .ok gs) ∨
    (∃ shape ∈ shapes, shape.has_non_triangle ∧
      load_obj_shapes fl attrib file shapes =
        .error (.runtime_error (non_triangle_message file shape))) := by
  induction shapes with
  | nil => exact Or.inl ⟨(fun q hq => by cases hq), [], rfl⟩
  | cons s rest ih =>
    rcases load_obj_shape_safe fl attrib file s (hface s (List.mem_cons_self _ _))
      (hsafe s (List.mem_cons_self _ _)) with ⟨hs3, g, e⟩ | ⟨e, hbad⟩
    · rcases ih (fun q hq => hface q (List.mem_cons_of_mem _ hq))
        (fun q hq => hsafe q (List.mem_cons_of_mem _ hq)) with
        ⟨hall, gs, e2⟩ | ⟨q, hq, hbad, e2⟩
      · refine Or.inl ⟨?_, g :: gs, by
          simp only [load_obj_shapes, bind, Except.bind, e, e2, pure, Except.pure]⟩
        intro q hq
        rcases List.mem_cons.1 hq with hq | hq
        · rw [hq]; exact hs3
        · exact hall q hq
      · exact Or.inr ⟨q, List.mem_cons_of_mem _ hq, hbad, by
          simp only [load_obj_shapes, bind, Except.bind, e, e2]⟩
    · exact Or.inr ⟨s, List.mem_cons_self _ _, hbad, by
        simp only [load_obj_shapes, bind, Except.bind, e]⟩

theorem obj_shape_in_range_read_safe (attrib : attrib_t) (shape : shape_t)
    (h : obj_shape_in_range attrib shape) : obj_shape_read_safe attrib shape :=
  ⟨h.1, fun c hc => corner_in_range_read_safe attrib c (h.2 c hc)⟩

/-- C21, as amended: for every parser output in which `indices` holds three entries per
face, every position index `p` satisfies `0 ≤ p` and `3p + 2 < attrib.vertices.size()`,
and every normal and uv index is `-1` or in range, the shape loop of `load_obj` makes no
out-of-range read when every shape has a material id: it returns the geometries when every
face is a triangle, and otherwise throws the exception of a face that is not a triangle.
The face loop makes no out-of-range read whether the shape has a material id or not; the
read of `material_ids[0]` and the dereferenced `minmax_element` are out of range exactly
when `material_ids` is empty, and then the loop body reads out of range. -/
theorem load_obj_read_safety (fl : FloatOps) (attrib : attrib_t) (file : String)
    (shapes : List shape_t) (hsafe : ∀ shape ∈ shapes, obj_shape_in_range attrib shape) :
    ((∀ shape ∈ shapes, shape.mesh.material_ids ≠ []) →
      load_obj_shapes fl attrib file shapes ≠ .error .out_of_range ∧
      ((∀ shape ∈ shapes, ¬ shape.has_non_triangle) →
        ∃ gs, load_obj_shapes fl attrib file shapes = .ok gs) ∧
      ((∃ shape ∈ shapes, shape.has_non_triangle) →
        ∃ msg, load_obj_shapes fl attrib file shapes = .error (.runtime_error msg))) ∧
    (∀ shape ∈ shapes, ∀ st : ShapeState,
      obj_faces fl attrib file shape st (List.range shape.mesh.num_face_vertices.length) ≠
        .error .out_of_range) ∧
    (∀ shape ∈ shapes,
      (shape.mesh.material_ids = [] →
        read_at shape.mesh.material_ids 0 = .error .out_of_range ∧
        obj_minmax_matid shape.mesh.material_ids = .error .out_of_range ∧
        load_obj_shape fl attrib file shape = .error .out_of_range) ∧
      (shape.mesh.material_ids ≠ [] →
        (∃ m, read_at shape.mesh.material_ids 0 = .ok m) ∧
        (∃ mm, obj_minmax_matid shape.mesh.material_ids = .ok mm) ∧
        load_obj_shape fl attrib file shape ≠ .error .out_of_range)) := by
  have hsafe2 : ∀ shape ∈ shapes, obj_shape_read_safe attrib shape :=
    fun shape hs => obj_shape_in_range_read_safe attrib shape (hsafe shape hs)
  refine ⟨?_, ?_, ?_⟩
  · intro hface
    have hcases := load_obj_shapes_safe fl attrib file shapes hface hsafe2
    refine ⟨?_, ?_, ?_⟩
    · rcases hcases with ⟨_, gs, e⟩ | ⟨q, _, _, e⟩
      · rw [e]; intro h; cases h
      · rw [e]; intro h; cases h
    · intro hall
      rcases hcases with ⟨_, gs, e⟩ | ⟨q, hq, hbad, _⟩
      · exact ⟨gs, e⟩
      · exact absurd hbad (hall q hq)
    · rintro ⟨q, hq, hbad⟩
      rcases hcases with ⟨hall, _, _⟩ | ⟨q2, _, _, e⟩
      · exact absurd hbad (hall q hq)
      · exact ⟨_, e⟩
  · intro shape hs st
    rcases obj_faces_safe fl attrib file shape (hsafe2 shape hs)
      (List.range shape.mesh.num_face_vertices.length) st
      (fun f hf => List.mem_range.1 hf) with ⟨_, st1, e⟩ | ⟨e, _⟩
    · rw [e]; intro h; cases h
    · rw [e]; intro h; cases h
  · intro shape hs
    refine ⟨fun h => ?_, fun h => ?_⟩
    · obtain ⟨h1, h2⟩ := (obj_material_reads shape.mesh.material_ids).1 h
      exact ⟨h1, h2, load_obj_shape_no_material fl attrib file shape h⟩
    · obtain ⟨h1, h2⟩ := (obj_material_reads shape.mesh.material_ids).2 h
      refine ⟨h1, h2, ?_⟩
      rcases load_obj_shape_safe fl attrib file shape h (hsafe2 shape hs) with
        ⟨_, g, e⟩ | ⟨e, _⟩
      · rw [e]; intro hx; cases hx
      · rw [e]; intro hx; cases hx

/-- The shape loop over the sample shape and a triangle without a material, both of which
satisfy the precondition, returns; for a shape without faces the face loop makes no read
and the loop body reads `material_ids[0]` out of range. -/
theorem load_obj_read_safety_witness :
    (∀ shape ∈ [sample_shape, plain_shape], obj_shape_in_range sample_attrib shape ∧
      shape.mesh.material_ids ≠ []) ∧
    (∃ gs, load_obj_shapes sample_float_ops sample_attrib "quad.obj"
      [sample_shape, plain_shape] = .ok gs) ∧
    load_obj_shape sample_float_ops sample_attrib "quad.obj" empty_shape =
      .error .out_of_range ∧
    (∀ st : ShapeState, obj_faces sample_float_ops sample_attrib "quad.obj" empty_shape st
      (List.range empty_shape.mesh.num_face_vertices.length) ≠ .error .out_of_range) :=
  ⟨by decide,
    ((load_obj_read_safety sample_float_ops sample_attrib "quad.obj"
      [sample_shape, plain_shape] (by decide)).1 (by decide)).2.1 (by decide),
    (((load_obj_read_safety sample_float_ops sample_attrib "quad.obj" [empty_shape]
      (by decide)).2.2 empty_shape (List.mem_singleton_self _)).1 rfl).2.2,
    (load_obj_read_safety sample_float_ops sample_attrib "quad.obj" [empty_shape]
      (by decide)).2.1 empty_shape (List.mem_singleton_self _)⟩

/-- C21 fails: `negative_shape` has a material id and three entries of `indices` for its
one face, every position index `p` satisfies `3p + 2 < attrib.vertices.size()` (for
`p = -7`, `-19 < 12`), and its normal and uv indices are `-1`; but the loop converts `-7`
to the `glm::uint` 4294967289 and reads `attrib.vertices[4294967275]`, out of range of
the 12 floats. -/
theorem negative_position_out_of_range :
    (∀ shape ∈ [negative_shape], shape.mesh.material_ids ≠ [] ∧
      shape.mesh.indices.length = 3 * shape.mesh.num_face_vertices.length ∧
      ∀ c ∈ shape.mesh.indices,
        3 * c.vertex_index + 2 < (sample_attrib.vertices.length : Int) ∧
        c.normal_index = -1 ∧ c.texcoord_index = -1) ∧
    (corner_key ⟨-7, -1, -1⟩).x = 4294967289 ∧
    3 * 4294967289 % 4294967296 = 4294967275 ∧
    load_obj_shapes sample_float_ops sample_attrib "negative.obj" [negative_shape] =
      .error .out_of_range := by
  refine ⟨by decide, by decide, by decide, ?_⟩
  rfl

end SceneLoader
